import Mathlib

/-!
# gologin: OAuth2 login handlers and provider adapters

A shallow embedding of `oauth2/login.go` of the gologin repository (CSRF stage,
login stage, callback stage, extended state) and of the Slack and Azure adapters
(`slack/login.go`, `slack/verify.go`, `slack/context.go`, `azure/login.go`,
`azure/context.go`).

Go handlers mutate an `http.ResponseWriter`, talk to the provider's token
endpoint and read the process-wide random source.  Here all of that is one
explicit `World` value that every handler receives and returns; a handler
`h.ServeHTTP(w, req)` becomes the function application `h w req`.

Go values `(x, err)` are kept as pairs where the source returns both, and as
`Except` for calls into libraries whose result is either a value or an error.
-/

/-- Go `error` value, identified by the text its `Error()` method returns. -/
structure GoError where
  msg : String
deriving DecidableEq, Repr

deriving instance DecidableEq for Except

/-! ## net/url (standard library) -/

namespace url

/-- Go `url.Values`, a multi-map from parameter name to its values. -/
abbrev Values := List (String × List String)

/-- The first value associated with `key`, or the empty string: `Values.Get`. -/
def Values.Get (v : Values) (key : String) : String :=
  match v with
  | [] => ""
  | (k, vs) :: rest =>
    if k = key then
      match vs with
      | [] => ""
      | x :: _ => x
    else Values.Get rest key

/-- Replace whatever values `key` has by the single `value`: `Values.Set`. -/
def Values.Set (v : Values) (key value : String) : Values :=
  (key, [value]) :: v.filter (fun kv => kv.1 ≠ key)

/-- Go `url.Values` with every value kept as the bytes of the Go string: a value
unescaped from a query string may hold any bytes (`%ff` is the byte 0xFF). -/
abbrev ByteValues := List (String × List (List Nat))

/-- The first value associated with `key`, or the empty string: `Values.Get`. -/
def ByteValues.Get (v : ByteValues) (key : String) : List Nat :=
  match v with
  | [] => []
  | (k, vs) :: rest =>
    if k = key then
      match vs with
      | [] => []
      | x :: _ => x
    else ByteValues.Get rest key

/-- A URL string, kept in parts instead of one string: the text before the query;
the query as its parameters in their order, as `url.ParseQuery` reads them, where a
parameter written twice has two entries and `Get` reads the first; and the fragment
after `#`, `none` when there is no `#`, as its text followed by the parameters that
were written after that text. -/
structure URL where
  base : String
  query : Values
  fragment : Option (String × Values) := none
deriving DecidableEq, Repr

end url

/-! ## golang.org/x/oauth2 (external library) -/

namespace xoauth2

/-- A value of the extra fields of a token response (Go `interface{}`): a string,
or anything else (a number, a boolean, ...) written as its JSON text. -/
inductive ExtraVal where
  | str (s : String)
  | other (json : String)
deriving DecidableEq, Repr

/-- The `oauth2.Token` of golang.org/x/oauth2: the credential returned by the token
endpoint; `raw` holds the extra fields of the response, such as `id_token`. -/
structure Token where
  AccessToken : String
  TokenType : String
  RefreshToken : String
  raw : List (String × ExtraVal) := []
deriving DecidableEq, Repr

/-- The extra field `key` of the token response, `t.Extra(key)`; `none` is the nil
interface of a field that is absent. -/
def Token.Extra (t : Token) (key : String) : Option ExtraVal :=
  match t.raw.find? (fun kv => kv.1 = key) with
  | some kv => some kv.2
  | none => none

/-- The `oauth2.Config` of golang.org/x/oauth2: read-only client registration data.
The string `Endpoint.AuthURL` is kept as a `url.URL`: the text before its query, the
parameters of its query, which are none when it has no `?`, and its fragment. -/
structure Config where
  ClientID : String
  ClientSecret : String
  AuthURL : url.URL
  TokenURL : String
  RedirectURL : String
  Scopes : List String
deriving DecidableEq, Repr

end xoauth2

/-! ## The user types of the provider packages -/

namespace slack

/-- The anonymous struct type of the field `Team`. -/
structure Team where
  ID : String := ""
  Name : String := ""
deriving DecidableEq, Repr

/-- The type `slack.User`; the field defaults are the Go zero value, so that
`new(User)` is the empty structure instance. -/
structure User where
  Name : String := ""
  ID : String := ""
  Email : String := ""
  Image24 : String := ""
  Image32 : String := ""
  Image48 : String := ""
  Image72 : String := ""
  Image192 : String := ""
  Image512 : String := ""
  Team : Team := {}
deriving DecidableEq, Repr

/-- The anonymous struct type of the field `User` of `UserIdentity`. -/
structure IdentityUser where
  ID : String := ""
  Name : String := ""
  Email : String := ""
  Image24 : String := ""
  Image32 : String := ""
  Image48 : String := ""
  Image72 : String := ""
  Image192 : String := ""
  Image512 : String := ""
deriving DecidableEq, Repr

/-- The type `UserIdentity` local to `Profile`: the decoded `users.identity` reply. -/
structure UserIdentity where
  Ok : Bool := false
  User : IdentityUser := {}
  Team : Team := {}
deriving DecidableEq, Repr

end slack

namespace azure

/-- The type `azure.User`. -/
structure User where
  TenantID : String := ""
  Name : String := ""
  Email : String := ""
  PreferredUsername : String := ""
  ID : String := ""
  OrganizationID : Int := 0
deriving DecidableEq, Repr

end azure

namespace bitbucket

/-- The anonymous struct types of the fields `Avatar` and `HTML` of `Links`. -/
structure Link where
  Href : String := ""
deriving DecidableEq, Repr

/-- The anonymous struct type of the field `Links`. -/
structure Links where
  Avatar : Link := {}
  HTML : Link := {}
deriving DecidableEq, Repr

/-- The type `bitbucket.User`; the field defaults are the Go zero value, so that
`new(User)` is the empty structure instance. -/
structure User where
  UUID : String := ""
  Username : String := ""
  DisplayName : String := ""
  Links : Links := {}
  Website : String := ""
  Email : String := ""
  IsEmailConfirmed : Bool := false
deriving DecidableEq, Repr

/-- The anonymous struct type of the elements of `UserEmails.Values`. -/
structure EmailValue where
  Email : String := ""
  IsConfirmed : Bool := false
  IsPrimary : Bool := false
deriving DecidableEq, Repr

/-- The type `UserEmails`; the nil slice of `new(UserEmails)` is the empty list. -/
structure UserEmails where
  Values : List EmailValue := []
deriving DecidableEq, Repr

end bitbucket

/-! ## context (standard library) -/

namespace context

/-- Keys under which the packages store request-scoped values.  Each Go package
declares an unexported `key` type, so keys of different packages never collide. -/
inductive Key where
  /-- The `tokenKey` of package oauth2. -/
  | oauth2Token
  /-- The `stateKey` of package oauth2. -/
  | oauth2State
  /-- The `errorKey` of package gologin. -/
  | gologinError
  /-- The `userKey` of package slack. -/
  | slackUser
  /-- The `userKey` of package azure. -/
  | azureUser
  /-- Any key owned by other code. -/
  | other (name : String)
deriving DecidableEq, Repr

/-- Dynamically typed value stored in a context (Go `interface{}`). -/
inductive Val where
  | str (s : String)
  | token (t : xoauth2.Token)
  | err (e : GoError)
  /-- A `*slack.User`, `none` being the nil pointer. -/
  | slackUser (u : Option slack.User)
  /-- A `*azure.User`, `none` being the nil pointer. -/
  | azureUser (u : Option azure.User)
deriving DecidableEq, Repr

/-- Go `context.Context` restricted to its values: the chain of `WithValue`
bindings, innermost first. -/
abbrev Context := List (Key × Val)

/-- The empty context, `context.Background()`. -/
def Background : Context := []

/-- The derived context of `context.WithValue(parent, key, val)`. -/
def WithValue (parent : Context) (key : Key) (val : Val) : Context :=
  (key, val) :: parent

/-- The lookup `ctx.Value(key)`: the innermost binding of `key`, if any. -/
def Value (ctx : Context) (key : Key) : Option Val :=
  match ctx with
  | [] => none
  | (k, v) :: parent => if k = key then some v else Value parent key

end context

open context (Context)

/-! ## net/http (standard library) -/

namespace http

/-- Go `http.Cookie` (the `Expires` time stamp is left out). -/
structure Cookie where
  Name : String
  Value : String
  Domain : String
  Path : String
  MaxAge : Int
  HttpOnly : Bool
  Secure : Bool
deriving DecidableEq, Repr

/-- Go `http.Response`, of which the provider packages read the status code. -/
structure Response where
  StatusCode : Int
deriving DecidableEq, Repr

/-- The status code `http.StatusOK`. -/
def StatusOK : Int := 200

/-- The sentinel `http.ErrNoCookie`. -/
def ErrNoCookie : GoError := ⟨"http: named cookie not present"⟩

/-- Go `*http.Request` as the handlers observe it.

* `ctx` is what `req.Context()` returns;
* `Cookies` are the cookies sent with the request, in header order;
* `Form` is what `req.Form` holds once `req.ParseForm()` has run, and `FormError`
  is the error that call returns: `url.ParseQuery` keeps the pairs it can read and
  reports the first it cannot, so a form may carry values and come with an error;
* `Query` is `req.URL.Query()`, with the values as bytes. -/
structure Request where
  ctx : context.Context
  Cookies : List Cookie
  Form : url.Values
  FormError : Option GoError
  Query : url.ByteValues

/-- The call `req.ParseForm()` together with the read of `req.Form` that follows a nil
error: the error returned, or the form. -/
def Request.ParseForm (req : Request) : Except GoError url.Values :=
  match req.FormError with
  | some err => .error err
  | none => .ok req.Form

/-- The context of the request, `req.Context()`. -/
def Request.Context (req : Request) : context.Context := req.ctx

/-- A shallow copy of the request with its context changed: `req.WithContext(ctx)`. -/
def Request.WithContext (req : Request) (ctx : context.Context) : Request :=
  { req with ctx := ctx }

/-- The first cookie of the request named `name`, or `ErrNoCookie`: `req.Cookie(name)`. -/
def Request.Cookie (req : Request) (name : String) : Except GoError Cookie :=
  match req.Cookies.find? (fun c => c.Name = name) with
  | some c => .ok c
  | none => .error ErrNoCookie

end http

/-! ## Panics and github.com/dghubble/sling (external library) -/

/-- The value of a Go run-time panic. -/
structure Panic where
  msg : String
deriving DecidableEq, Repr

/-- The panic of dereferencing a nil pointer. -/
def nilDereference : Panic :=
  ⟨"runtime error: invalid memory address or nil pointer dereference"⟩

namespace sling

/-- Outcome of `ReceiveSuccess(successV)`, which returns `(*http.Response, error)`.
Either the request could not be built or sent: the error is not nil, the response
may be nil, and `successV` is left as it was.  Or a response arrived: it is not
nil, `value` is what `successV` holds afterwards and `err` is the error of decoding
the body, if any.  A nil response never comes with a nil error. -/
inductive Outcome (α : Type) where
  | failed (resp : Option http.Response) (err : GoError)
  | received (resp : http.Response) (value : α) (err : Option GoError)

end sling

/-! ## The world a handler acts on -/

/-- Outcome of one read of the random source `crypto/rand.Reader`: the bytes
it delivered and the error it returned. -/
structure RandRead where
  bytes : List Nat
  err : Option GoError

/-- Everything a handler can affect or consult besides its request.

* `cookies`, `status`, `location`, `body`: the response written so far through
  the `http.ResponseWriter` (the `Set-Cookie` headers in order, the status code,
  the `Location` header, the body);
* `tokenEndpoint n config code`: what the provider answers to the `n`-th token
  exchange (counting from 0) when it is made for `config` with authorization code `code`;
* `exchanges`: the authorization codes sent to the token endpoint so far, in order;
* `rand n`: the outcome of the `n`-th read of `crypto/rand.Reader`;
* `randReads`: the number of reads made so far;
* `calls`: invocations written down by the recording handlers `record`;
* `slackIdentity n token`: what the `n`-th request to Slack's `users.identity`
  (counting from 0) yields when it is made with the access token `token`;
* `profileRequests`: the access tokens sent to `users.identity` so far, in order;
* `bitbucketUser n`, `bitbucketEmails n`: what the `n`-th request to the Bitbucket
  API (counting from 0) yields when it is `GET user`, or `GET user/emails`;
* `bitbucketRequests`: the paths requested from the Bitbucket API so far, in order;
* `panicked`: the run-time panic that ended the handling of the request, if any. -/
structure World where
  cookies : List http.Cookie
  status : Option Nat
  location : Option url.URL
  body : String
  tokenEndpoint : Nat → xoauth2.Config → String → Except GoError xoauth2.Token
  exchanges : List String
  rand : Nat → RandRead
  randReads : Nat
  calls : List (String × Context)
  slackIdentity : Nat → String → sling.Outcome slack.UserIdentity
  profileRequests : List String
  bitbucketUser : Nat → sling.Outcome bitbucket.User
  bitbucketEmails : Nat → sling.Outcome bitbucket.UserEmails
  bitbucketRequests : List String
  panicked : Option Panic

namespace http

/-- Go `http.Handler`: `h.ServeHTTP(w, req)` is `h w req`. -/
abbrev Handler := World → Request → World

/-- Whether `r` is a token character of RFC 7230, `httpguts.IsTokenRune(r)`: a
letter, a digit, or one of the fifteen marks of the token table, given here by
their codes (`!`, `#`, `$`, `%`, `&`, the apostrophe, `*`, `+`, `-`, `.`, `^`, `_`,
the backquote, `|`, `~`). -/
def isTokenRune (r : Char) : Bool :=
  r.isAlphanum ||
    [0x21, 0x23, 0x24, 0x25, 0x26, 0x27, 0x2A, 0x2B, 0x2D, 0x2E, 0x5E, 0x5F, 0x60, 0x7C,
      0x7E].contains r.toNat

/-- The function `isCookieNameValid(raw)` of net/http: the name is not empty and has
no character that is not a token character. -/
def isCookieNameValid (raw : String) : Bool :=
  if raw = "" then false else raw.toList.all isTokenRune

/-- Add a `Set-Cookie` header to the response, `http.SetCookie(w, cookie)`: the header
is added when `cookie.String()` is not empty, that is when the name of the cookie is a
valid cookie name; otherwise nothing is written.  (The header is kept as the cookie
itself; the quoting of a value with a space or a comma is left out.) -/
def SetCookie (w : World) (cookie : Cookie) : World :=
  if isCookieNameValid cookie.Name then
    { w with cookies := w.cookies ++ [cookie] }
  else w

/-- Reply with the given message and status code: `http.Error(w, error, code)`. -/
def Error (w : World) (error : String) (code : Nat) : World :=
  { w with status := some code, body := w.body ++ error ++ "\n" }

/-- The status code `http.StatusFound`. -/
def StatusFound : Nat := 302

/-- Reply with a redirect to `target`: `http.Redirect(w, r, target, code)` sets the
`Location` header and writes the status code (the short HTML body that goes with a
GET request is left out). -/
def Redirect (w : World) (_r : Request) (target : url.URL) (code : Nat) : World :=
  { w with location := some target, status := some code }

end http

/-- A run-time panic unwinds the handler: nothing more is written or served, and
the world keeps the panic value. -/
def runtimePanic (w : World) (p : Panic) : World :=
  { w with panicked := some p }

/-- A leaf handler that only writes down that it was served, under `name`, and
with which request context.  It stands for a caller-supplied success or
failure handler whose invocations one wants to observe. -/
def record (name : String) : http.Handler :=
  fun w req => { w with calls := w.calls ++ [(name, req.Context)] }

namespace xoauth2

/-- The token exchange `config.Exchange(ctx, code)`: one request to the
provider's token endpoint, answered by the world. -/
def Config.Exchange (config : Config) (_ctx : Context) (code : String) (w : World) :
    Except GoError Token × World :=
  (w.tokenEndpoint w.exchanges.length config code,
   { w with exchanges := w.exchanges ++ [code] })

/-- An `oauth2.AuthCodeOption`; its only implementation in golang.org/x/oauth2 is
`setParam{k, v}`, which `SetAuthURLParam` builds. -/
structure AuthCodeOption where
  k : String
  v : String
deriving DecidableEq, Repr

/-- The option `oauth2.SetAuthURLParam(key, value)`. -/
def SetAuthURLParam (key value : String) : AuthCodeOption := ⟨key, value⟩

/-- The method `setValue` of an option: `m.Set(p.k, p.v)`. -/
def AuthCodeOption.setValue (p : AuthCodeOption) (m : url.Values) : url.Values :=
  m.Set p.k p.v

/-- The URL of the provider's consent page, `config.AuthCodeURL(state, opts...)`:
the authorization endpoint followed by the query made of `response_type`,
`client_id`, then `redirect_uri`, `scope` and `state` when they are not empty, and
at last of what the options set.  This query is written after the string `AuthURL`,
with `?`, or with `&` when `AuthURL` has a `?` already: the parameters of a query of
`AuthURL` come first, and when `AuthURL` has a fragment what is written becomes
part of the fragment and the query stays the one of `AuthURL`. -/
def Config.AuthCodeURL (c : Config) (state : String) (opts : List AuthCodeOption) : url.URL :=
  let v : url.Values := [("response_type", ["code"]), ("client_id", [c.ClientID])]
  let v := if c.RedirectURL ≠ "" then v.Set "redirect_uri" c.RedirectURL else v
  let v := if c.Scopes.length > 0 then v.Set "scope" (" ".intercalate c.Scopes) else v
  let v := if state ≠ "" then v.Set "state" state else v
  let v := opts.foldl (fun v opt => opt.setValue v) v
  match c.AuthURL.fragment with
  | none => { base := c.AuthURL.base, query := c.AuthURL.query ++ v, fragment := none }
  | some (text, params) =>
    { base := c.AuthURL.base, query := c.AuthURL.query, fragment := some (text, params ++ v) }

end xoauth2

/-! ## crypto/rand, encoding/base64 (standard library) -/

namespace rand

/-- Fill `b` from the random source, `rand.Read(b)`: returns the buffer
afterwards, the number of bytes read and the error. -/
def Read (b : List Nat) (w : World) : List Nat × Nat × Option GoError × World :=
  let r := w.rand w.randReads
  let n := min r.bytes.length b.length
  ((r.bytes.take n).map (fun x => x % 256) ++ b.drop n, n, r.err,
   { w with randReads := w.randReads + 1 })

end rand

namespace base64

/-- The URL-safe alphabet of RFC 4648, `encodeURL`. -/
def encodeURL : List Char :=
  "ABCDEFGHIJKLMNOPQRSTUVWXYZabcdefghijklmnopqrstuvwxyz0123456789-_".toList

/-- The character of the alphabet at a 6-bit index. -/
def enc (i : Nat) : Char := encodeURL.getD (i % 64) 'A'

/-- The characters of `RawURLEncoding.Encode`: three bytes give four characters;
a remainder of one or two bytes gives two or three characters, without padding. -/
def encodeChars : List Nat → List Char
  | [] => []
  | [b0] =>
    let val := b0 * 65536
    [enc (val / 262144), enc (val / 4096)]
  | [b0, b1] =>
    let val := b0 * 65536 + b1 * 256
    [enc (val / 262144), enc (val / 4096), enc (val / 64)]
  | b0 :: b1 :: b2 :: rest =>
    let val := b0 * 65536 + b1 * 256 + b2
    enc (val / 262144) :: enc (val / 4096) :: enc (val / 64) :: enc val :: encodeChars rest

/-- The encoder `base64.RawURLEncoding.EncodeToString`. -/
def RawURLEncoding.EncodeToString (src : List Nat) : String :=
  String.mk (encodeChars src)

/-- The characters of `URLEncoding.Encode`: as `encodeChars`, with the last group
padded to four characters by `=`. -/
def encodeCharsPadded : List Nat → List Char
  | [] => []
  | [b0] =>
    let val := b0 * 65536
    [enc (val / 262144), enc (val / 4096), '=', '=']
  | [b0, b1] =>
    let val := b0 * 65536 + b1 * 256
    [enc (val / 262144), enc (val / 4096), enc (val / 64), '=']
  | b0 :: b1 :: b2 :: rest =>
    let val := b0 * 65536 + b1 * 256 + b2
    enc (val / 262144) :: enc (val / 4096) :: enc (val / 64) :: enc val ::
      encodeCharsPadded rest

/-- The encoder `base64.URLEncoding.EncodeToString`. -/
def URLEncoding.EncodeToString (src : List Nat) : String :=
  String.mk (encodeCharsPadded src)

/-- The 6-bit value of a character of the URL-safe alphabet, `none` for any other
character: the `decodeMap` of the encoding. -/
def decodeMap (c : Char) : Option Nat :=
  let i := encodeURL.indexOf c
  if i < 64 then some i else none

/-- The error `base64.CorruptInputError` (its input offset is left out). -/
def CorruptInputError : GoError := ⟨"illegal base64 data"⟩

/-- The bytes of a group of which `dlen` characters were read: the four 6-bit values
make 24 bits, of which the first `dlen - 1` bytes are kept. -/
def quantum (s0 s1 s2 s3 dlen : Nat) : List Nat :=
  let val := s0 * 262144 + s1 * 4096 + s2 * 64 + s3
  [val / 65536 % 256, val / 256 % 256, val % 256].take (dlen - 1)

/-- The decoding loop of `Decode` on input without line breaks, returning the bytes
decoded and the error: groups of four characters give three bytes; with padding
character `pad` the last group may end in `=` or `==`, without one it may have two
or three characters; anything else is corrupt input, reported after the bytes of
the groups before it. -/
def decodeQuanta (pad : Option Char) : List Char → List Nat × Option GoError
  | [] => ([], none)
  | [_] => ([], some CorruptInputError)
  | [c0, c1] =>
    match decodeMap c0, decodeMap c1 with
    | some s0, some s1 =>
      if pad.isSome then ([], some CorruptInputError) else (quantum s0 s1 0 0 2, none)
    | _, _ => ([], some CorruptInputError)
  | [c0, c1, c2] =>
    match decodeMap c0, decodeMap c1, decodeMap c2 with
    | some s0, some s1, some s2 =>
      if pad.isSome then ([], some CorruptInputError) else (quantum s0 s1 s2 0 3, none)
    | _, _, _ => ([], some CorruptInputError)
  | c0 :: c1 :: c2 :: c3 :: rest =>
    match decodeMap c0, decodeMap c1 with
    | some s0, some s1 =>
      match decodeMap c2 with
      | some s2 =>
        match decodeMap c3 with
        | some s3 =>
          match decodeQuanta pad rest with
          | (out, err) => (quantum s0 s1 s2 s3 4 ++ out, err)
        | none =>
          if some c3 = pad then
            (quantum s0 s1 s2 0 3, if rest = [] then none else some CorruptInputError)
          else ([], some CorruptInputError)
      | none =>
        if some c2 = pad ∧ some c3 = pad then
          (quantum s0 s1 0 0 2, if rest = [] then none else some CorruptInputError)
        else ([], some CorruptInputError)
    | _, _ => ([], some CorruptInputError)

/-- The decoder `DecodeString` of an encoding with the URL-safe alphabet and the
padding character `pad`: line breaks in the input are skipped. -/
def decodeString (pad : Option Char) (s : String) : List Nat × Option GoError :=
  decodeQuanta pad (s.toList.filter (fun c => c ≠ '\n' ∧ c ≠ '\r'))

/-- The decoder `base64.RawURLEncoding.DecodeString`. -/
def RawURLEncoding.DecodeString (s : String) : List Nat × Option GoError :=
  decodeString none s

/-- The decoder `base64.URLEncoding.DecodeString`. -/
def URLEncoding.DecodeString (s : String) : List Nat × Option GoError :=
  decodeString (some '=') s

end base64

/-! ## Package gologin (root) and gologin/internal -/

namespace gologin

/-- Configuration of the state cookie, `gologin.CookieConfig`. -/
structure CookieConfig where
  Name : String
  Domain : String
  Path : String
  MaxAge : Int
  HTTPOnly : Bool
  Secure : Bool
deriving DecidableEq, Repr

/-- Modelled from the spec: `gologin.WithError` is not among the sources; by
§4.3 `with(ctx, slot, value)` returns a derived context carrying the value, the
error slot having a private key. -/
def WithError (ctx : Context) (err : GoError) : Context :=
  context.WithValue ctx .gologinError (.err err)

/-- Modelled from the spec: the content of the error slot of §4.3 and §6, the
value a failure handler reads; `none` when no error was stored. -/
def errorSlot (ctx : Context) : Option GoError :=
  match context.Value ctx .gologinError with
  | some (.err e) => some e
  | _ => none

/-- Modelled from the spec: `gologin.DefaultFailureHandler` is not among the
sources; by §7 it is a generic response of the style "HTTP 500 Internal Server
Error, Unauthorized". -/
def DefaultFailureHandler : http.Handler :=
  fun w _req => http.Error w "Internal Server Error, Unauthorized" 500

end gologin

namespace internal

/-- Modelled from the spec: `internal.NewCookie` is not among the sources; by
§4.2 and §6 the cookie carries the configured name and attributes and the value
unchanged (the encoding is the identity on the correlation string). -/
def NewCookie (config : gologin.CookieConfig) (value : String) : http.Cookie :=
  { Name := config.Name, Value := value, Domain := config.Domain, Path := config.Path,
    MaxAge := config.MaxAge, HttpOnly := config.HTTPOnly, Secure := config.Secure }

end internal

/-! ## Package oauth2 of gologin -/

namespace oauth2

/-- Modelled from the spec: `oauth2/context.go` is not among the sources; the
error `StateFromContext` returns when the state slot is absent (§7, MissingState). -/
def ErrMissingState : GoError := ⟨"oauth2: Context missing state value"⟩

/-- Modelled from the spec: `oauth2/context.go` is not among the sources; the
error `TokenFromContext` returns when the token slot is absent (§7, MissingToken;
the text is the one the provider tests expect). -/
def ErrMissingToken : GoError := ⟨"oauth2: Context missing Token"⟩

/-- Modelled from the spec: `oauth2/context.go` is not among the sources; by
§4.3 `with(ctx, slot, value)` returns a derived context carrying the value. -/
def WithState (ctx : Context) (state : String) : Context :=
  context.WithValue ctx .oauth2State (.str state)

/-- Modelled from the spec: `oauth2/context.go` is not among the sources; by
§4.3 `from(ctx, slot)` returns the value or a typed "missing state" error, in the
way of the `UserFromContext` functions of the provider packages. -/
def StateFromContext (ctx : Context) : String × Option GoError :=
  match context.Value ctx .oauth2State with
  | some (.str state) => (state, none)
  | _ => ("", some ErrMissingState)

/-- Modelled from the spec: `oauth2/context.go` is not among the sources; by
§4.3 `with(ctx, slot, value)` returns a derived context carrying the value. -/
def WithToken (ctx : Context) (token : xoauth2.Token) : Context :=
  context.WithValue ctx .oauth2Token (.token token)

/-- Modelled from the spec: `oauth2/context.go` is not among the sources; by
§4.3 `from(ctx, slot)` returns the value or a typed "missing token" error. -/
def TokenFromContext (ctx : Context) : Option xoauth2.Token × Option GoError :=
  match context.Value ctx .oauth2Token with
  | some (.token token) => (some token, none)
  | _ => (none, some ErrMissingToken)

/-- The package variable `ErrInvalidState`. -/
def ErrInvalidState : GoError := ⟨"oauth2: Invalid OAuth2 state parameter"⟩

/-- The error `parseCallback` creates when `code` or `state` is empty. -/
def errMissingCodeOrState : GoError := ⟨"oauth2: Request missing code or state"⟩

/-- A base64 encoded random 32 byte string: `randomState()`.  The error of
`rand.Read` is dropped, as in the source. -/
def randomState (w : World) : String × World :=
  let b := List.replicate 32 0
  match rand.Read b w with
  | (b, _, _, w) => (base64.RawURLEncoding.EncodeToString b, w)

/-- The handler `CSRFHandler(config, success)`. -/
def CSRFHandler (config : gologin.CookieConfig) (success : http.Handler) : http.Handler :=
  fun w req =>
    let ctx := req.Context
    match req.Cookie config.Name with
    | .ok cookie =>
      -- add the cookie state to the ctx
      success w (req.WithContext (WithState ctx cookie.Value))
    | .error _ =>
      -- add Cookie with a random state
      match randomState w with
      | (val, w) =>
        let w := http.SetCookie w (internal.NewCookie config val)
        success w (req.WithContext (WithState ctx val))

/-- The handler `LoginHandler(config, failure, opts...)`; a nil `failure` is `none`. -/
def LoginHandler (config : xoauth2.Config) (failure : Option http.Handler)
    (opts : List xoauth2.AuthCodeOption) : http.Handler :=
  let failure := match failure with
    | none => gologin.DefaultFailureHandler
    | some h => h
  fun w req =>
    let ctx := req.Context
    match StateFromContext ctx with
    | (_, some err) =>
      failure w (req.WithContext (gologin.WithError ctx err))
    | (state, none) =>
      let authURL := config.AuthCodeURL state opts
      http.Redirect w req authURL http.StatusFound

/-- The function `parseCallback(req)`, returning `(authCode, state, err)`. -/
def parseCallback (req : http.Request) : String × String × Option GoError :=
  match req.ParseForm with
  | .error err => ("", "", some err)
  | .ok form =>
    let authCode := form.Get "code"
    let state := form.Get "state"
    if authCode = "" ∨ state = "" then
      ("", "", some errMissingCodeOrState)
    else
      (authCode, state, none)

/-- The handler `CallbackHandler(config, success, failure)`; a nil `failure` is `none`. -/
def CallbackHandler (config : xoauth2.Config) (success : http.Handler)
    (failure : Option http.Handler) : http.Handler :=
  let failure := match failure with
    | none => gologin.DefaultFailureHandler
    | some h => h
  fun w req =>
    let ctx := req.Context
    match parseCallback req with
    | (_, _, some err) =>
      failure w (req.WithContext (gologin.WithError ctx err))
    | (authCode, state, none) =>
      match StateFromContext ctx with
      | (_, some err) =>
        failure w (req.WithContext (gologin.WithError ctx err))
      | (ownerState, none) =>
        if state ≠ ownerState ∨ state = "" then
          failure w (req.WithContext (gologin.WithError ctx ErrInvalidState))
        else
          -- use the authorization code to get a Token
          match config.Exchange ctx authCode w with
          | (.error err, w) =>
            failure w (req.WithContext (gologin.WithError ctx err))
          | (.ok token, w) =>
            success w (req.WithContext (WithToken ctx token))

end oauth2

/-! ## Package slack -/

namespace slack

/-- The package variable `ErrUnableToGetSlackUser`. -/
def ErrUnableToGetSlackUser : GoError := ⟨"slack: unable to get Slack User"⟩

/-- The function `WithUser(ctx, user)` of `slack/context.go`. -/
def WithUser (ctx : Context) (user : Option User) : Context :=
  context.WithValue ctx .slackUser (.slackUser user)

/-- The function `UserFromContext(ctx)` of `slack/context.go`. -/
def UserFromContext (ctx : Context) : Option User × Option GoError :=
  match context.Value ctx .slackUser with
  | some (.slackUser user) => (user, none)
  | _ => (none, some ⟨"slack: Context missing Slack User"⟩)

/-- The type `client`, of which the token matters here (the HTTP client and the
sling are the way to reach the world). -/
structure client where
  t : xoauth2.Token

/-- The function `newClient(httpClient, t)`. -/
def newClient (t : xoauth2.Token) : client := { t := t }

/-- The method `Profile()`, returning `(user, resp, err)`: one request to
`users.identity` with the access token, answered by the world. -/
def client.Profile (c : client) (w : World) :
    (Option User × Option http.Response × Option GoError) × World :=
  let q := c.t.AccessToken
  let ui : UserIdentity := {}
  let w1 := { w with profileRequests := w.profileRequests ++ [q] }
  match (match w.slackIdentity w.profileRequests.length q with
    | .failed resp err => (ui, resp, some err)
    | .received resp value err => (value, some resp, err)) with
  | (ui, resp, err) =>
    let user : User := {}
    let user : User :=
      if ui.Ok then
        { ID := ui.User.ID, Name := ui.User.Name, Email := ui.User.Email,
          Image24 := ui.User.Image24, Image32 := ui.User.Image32,
          Image48 := ui.User.Image48, Image72 := ui.User.Image72,
          Image192 := ui.User.Image192, Image512 := ui.User.Image512,
          Team := { ID := ui.Team.ID, Name := ui.Team.Name } }
      else user
    ((some user, resp, err), w1)

/-- The function `validateResponse(user, resp, err)`: the error it returns, or the
panic of reading `resp.StatusCode` through a nil `resp`. -/
def validateResponse (user : Option User) (resp : Option http.Response)
    (err : Option GoError) : Except Panic (Option GoError) :=
  match err with
  | some _ => .ok (some ErrUnableToGetSlackUser)
  | none =>
    match resp with
    | none => .error nilDereference
    | some resp =>
      if resp.StatusCode ≠ http.StatusOK then
        .ok (some ErrUnableToGetSlackUser)
      else
        match user with
        | none => .ok (some ErrUnableToGetSlackUser)
        | some user =>
          if user.ID = "" then .ok (some ErrUnableToGetSlackUser) else .ok none

/-- The handler `slackHandler(config, success, failure)`; a nil `failure` is `none`.
A nil token that comes without an error is dereferenced by `Profile`. -/
def slackHandler (_config : xoauth2.Config) (success : http.Handler)
    (failure : Option http.Handler) : http.Handler :=
  let failure := match failure with
    | none => gologin.DefaultFailureHandler
    | some h => h
  fun w req =>
    let ctx := req.Context
    match oauth2.TokenFromContext ctx with
    | (_, some err) =>
      failure w (req.WithContext (gologin.WithError ctx err))
    | (none, none) => runtimePanic w nilDereference
    | (some token, none) =>
      let slackService := newClient token
      match slackService.Profile w with
      | ((user, resp, err), w) =>
        match validateResponse user resp err with
        | .error p => runtimePanic w p
        | .ok (some err) =>
          failure w (req.WithContext (gologin.WithError ctx err))
        | .ok none =>
          success w (req.WithContext (WithUser ctx user))

end slack

/-! ## github.com/coreos/go-oidc (external library) and package azure -/

namespace oidc

/-- The type `oidc.IDToken`, of which the handler calls `Claims(&user)` on a zero
`azure.User`: the user afterwards and the error of unmarshalling the claims. -/
structure IDToken where
  Claims : azure.User × Option GoError

/-- The type `oidc.IDTokenVerifier`: `Verify(ctx, rawIDToken)` returns the verified
token or an error. -/
structure IDTokenVerifier where
  Verify : Context → String → Except GoError IDToken

end oidc

namespace azure

/-- The function `WithUser(ctx, user)` of `azure/context.go`. -/
def WithUser (ctx : Context) (user : Option User) : Context :=
  context.WithValue ctx .azureUser (.azureUser user)

/-- The function `UserFromContext(ctx)` of `azure/context.go`. -/
def UserFromContext (ctx : Context) : Option User × Option GoError :=
  match context.Value ctx .azureUser with
  | some (.azureUser user) => (user, none)
  | _ => (none, some ⟨"azure: Context missing Azure Active Directory User"⟩)

/-- The handler `azureHandler(config, verifier, success, failure)`; a nil `failure`
is `none`.  A nil token that comes without an error is dereferenced by `Extra`. -/
def azureHandler (_config : xoauth2.Config) (verifier : oidc.IDTokenVerifier)
    (success : http.Handler) (failure : Option http.Handler) : http.Handler :=
  let failure := match failure with
    | none => gologin.DefaultFailureHandler
    | some h => h
  fun w req =>
    let ctx := req.Context
    match oauth2.TokenFromContext ctx with
    | (_, some err) =>
      failure w (req.WithContext (gologin.WithError ctx err))
    | (none, none) => runtimePanic w nilDereference
    | (some token, none) =>
      match token.Extra "id_token" with
      | some (.str rawIDToken) =>
        match verifier.Verify ctx rawIDToken with
        | .error err =>
          failure w (req.WithContext (gologin.WithError ctx
            ⟨"Failed to verify ID Token: %v" ++ err.msg⟩))
        | .ok idToken =>
          -- Extract custom claims
          match idToken.Claims with
          | (_, some err) =>
            failure w (req.WithContext (gologin.WithError ctx err))
          | (user, none) =>
            success w (req.WithContext (WithUser ctx (some user)))
      | _ =>
        failure w (req.WithContext (gologin.WithError ctx
          ⟨"No id_token field in oauth2 token."⟩))

end azure

/-! ## Package bitbucket -/

namespace bitbucket

/-- The type `client` (the sling is the way to reach the world). -/
structure client where
deriving DecidableEq, Repr

/-- The loop of `CurrentUser` over `emails.Values`: the first entry that is primary
sets the two fields of the user and ends the loop. -/
def CurrentUser.loop (user : User) : List EmailValue → User
  | [] => user
  | email :: rest =>
    if email.IsPrimary then
      { user with Email := email.Email, IsEmailConfirmed := email.IsConfirmed }
    else CurrentUser.loop user rest

/-- The method `CurrentUser()`, returning `(user, resp, err)`: a request `GET user`
and, when that brought no error, a request `GET user/emails`, both answered by the
world. -/
def client.CurrentUser (_c : client) (w : World) :
    (Option User × Option http.Response × Option GoError) × World :=
  let user : User := {}
  let w1 := { w with bitbucketRequests := w.bitbucketRequests ++ ["user"] }
  match (match w.bitbucketUser w.bitbucketRequests.length with
    | .failed resp err => (user, resp, some err)
    | .received resp value err => (value, some resp, err)) with
  | (user, resp, err) =>
    match err with
    | none =>
      let emails : UserEmails := {}
      let w2 := { w1 with bitbucketRequests := w1.bitbucketRequests ++ ["user/emails"] }
      match (match w1.bitbucketEmails w1.bitbucketRequests.length with
        | .failed _ err => (emails, some err)
        | .received _ value err => (value, err)) with
      | (emails, err) =>
        ((some (CurrentUser.loop user emails.Values), resp, err), w2)
    | some err => ((some user, resp, some err), w1)

end bitbucket

/-! ## unicode/utf8, encoding/json (standard library) and the extended state -/

/-- The bytes of a string literal made of ASCII characters. -/
def ascii (s : String) : List Nat := s.toList.map Char.toNat

namespace utf8

/-- The rune `utf8.RuneError`, U+FFFD. -/
def RuneError : Nat := 0xFFFD

/-- The first UTF-8 encoding in `p` and its width in bytes, `utf8.DecodeRune(p)`: an
encoding that is invalid or too short yields `(RuneError, 1)`, empty input
`(RuneError, 0)`. -/
def DecodeRune (p : List Nat) : Nat × Nat :=
  let n := p.length
  if n < 1 then (RuneError, 0) else
  let p0 := p.getD 0 0
  if p0 < 0x80 then (p0, 1) else
  if p0 < 0xC2 ∨ 0xF4 < p0 then (RuneError, 1) else
  let sz := if p0 < 0xE0 then 2 else if p0 < 0xF0 then 3 else 4
  let lo := if p0 = 0xE0 then 0xA0 else if p0 = 0xF0 then 0x90 else 0x80
  let hi := if p0 = 0xED then 0x9F else if p0 = 0xF4 then 0x8F else 0xBF
  if n < sz then (RuneError, 1) else
  let b1 := p.getD 1 0
  if b1 < lo ∨ hi < b1 then (RuneError, 1) else
  if sz ≤ 2 then (p0 % 32 * 64 + b1 % 64, 2) else
  let b2 := p.getD 2 0
  if b2 < 0x80 ∨ 0xBF < b2 then (RuneError, 1) else
  if sz ≤ 3 then (p0 % 16 * 4096 + b1 % 64 * 64 + b2 % 64, 3) else
  let b3 := p.getD 3 0
  if b3 < 0x80 ∨ 0xBF < b3 then (RuneError, 1) else
  (p0 % 8 * 262144 + b1 % 64 * 4096 + b2 % 64 * 64 + b3 % 64, 4)

/-- The UTF-8 encoding of a rune, `utf8.EncodeRune`: a surrogate or a value beyond
U+10FFFF is encoded as `RuneError`. -/
def EncodeRune (r : Nat) : List Nat :=
  if r < 0x80 then [r]
  else if r < 0x800 then [0xC0 + r / 64, 0x80 + r % 64]
  else if 0x10FFFF < r ∨ (0xD800 ≤ r ∧ r ≤ 0xDFFF) then [0xEF, 0xBF, 0xBD]
  else if r < 0x10000 then [0xE0 + r / 4096, 0x80 + r / 64 % 64, 0x80 + r % 64]
  else [0xF0 + r / 262144, 0x80 + r / 4096 % 64, 0x80 + r / 64 % 64, 0x80 + r % 64]

/-- The loop of `utf8.Valid` with its number of rounds bounded by `fuel`. -/
def validLoop : Nat → List Nat → Bool
  | 0, p => p.isEmpty
  | fuel + 1, p =>
    if p.isEmpty then true
    else if (DecodeRune p).1 = RuneError ∧ (DecodeRune p).2 = 1 then false
    else validLoop fuel (p.drop (DecodeRune p).2)

/-- Whether `p` consists entirely of valid UTF-8 encodings, `utf8.Valid(p)`. -/
def Valid (p : List Nat) : Bool := validLoop p.length p

/-- The bytes of a Go string that is kept as text: the UTF-8 encoding of its
characters. -/
def bytesOf (s : String) : List Nat :=
  (s.toList.map (fun c => EncodeRune c.toNat)).flatten

end utf8

namespace oauth2

/-- The type `Oauth2State`.  Its fields are Go strings, kept here as their bytes:
a Go string may hold any bytes, and `encoding/json` treats bytes that are not valid
UTF-8 in a way of its own. -/
structure Oauth2State where
  CSRF : List Nat
  RedirectTo : List Nat
  Transport : List Nat
deriving DecidableEq, Repr

end oauth2

namespace json

/-- The digits `hex` of the encoder. -/
def hex (i : Nat) : Nat := if i % 16 < 10 then 48 + i % 16 else 87 + i % 16

/-- The table `htmlSafeSet`: the ASCII bytes that the encoder writes as they are,
which are those from the space on except the quote, the backslash, `<`, `>`, `&`. -/
def htmlSafe (b : Nat) : Bool :=
  decide (0x20 ≤ b ∧ b < 0x80 ∧ b ≠ 0x22 ∧ b ≠ 0x5C ∧ b ≠ 0x3C ∧ b ≠ 0x3E ∧ b ≠ 0x26)

/-- The escape sequence the encoder writes for an ASCII byte that is not in
`htmlSafeSet`: a backslash before the quote and the backslash, the escapes of line
feed, carriage return and tab, and a `u00XX` escape for any other (later releases
of the library write the one-letter escapes of 0x08 and 0x0C as well, which the
decoder reads back all the same). -/
def escapeByte (b : Nat) : List Nat :=
  if b = 0x5C ∨ b = 0x22 then [0x5C, b]
  else if b = 0x0A then [0x5C, 0x6E]
  else if b = 0x0D then [0x5C, 0x72]
  else if b = 0x09 then [0x5C, 0x74]
  else [0x5C, 0x75, 0x30, 0x30, hex (b / 16), hex (b % 16)]

/-- The loop of the string encoder (`appendString` with `escapeHTML` set) over the
rest `src` of the string, with its number of rounds bounded by `fuel`: a safe ASCII
byte and a valid multi-byte encoding are copied, an unsafe ASCII byte is escaped,
an invalid byte becomes the escape of U+FFFD, and U+2028 and U+2029 are escaped. -/
def appendStringLoop : Nat → List Nat → List Nat
  | 0, _ => []
  | fuel + 1, src =>
    match src with
    | [] => []
    | b :: rest =>
      if b < 0x80 then
        if htmlSafe b then b :: appendStringLoop fuel rest
        else escapeByte b ++ appendStringLoop fuel rest
      else
        let c := (utf8.DecodeRune src).1
        let size := (utf8.DecodeRune src).2
        if c = utf8.RuneError ∧ size = 1 then
          0x5C :: ascii "ufffd" ++ appendStringLoop fuel (src.drop size)
        else if c = 0x2028 ∨ c = 0x2029 then
          0x5C :: ascii "u202" ++ [hex (c % 16)] ++ appendStringLoop fuel (src.drop size)
        else
          src.take size ++ appendStringLoop fuel (src.drop size)

/-- The JSON string literal for a Go string: `appendString(dst, src, true)`. -/
def appendString (src : List Nat) : List Nat :=
  [0x22] ++ appendStringLoop src.length src ++ [0x22]

/-- The value of a hexadecimal digit, of either case. -/
def hexVal (c : Nat) : Option Nat :=
  if 48 ≤ c ∧ c ≤ 57 then some (c - 48)
  else if 97 ≤ c ∧ c ≤ 102 then some (c - 97 + 10)
  else if 65 ≤ c ∧ c ≤ 70 then some (c - 65 + 10)
  else none

/-- The decoder's `getu4(s)`: the value of the escape `\uXXXX` at the start of `s`,
`none` (the source returns -1) when there is none. -/
def getu4 (s : List Nat) : Option Nat :=
  match s with
  | 0x5C :: 0x75 :: h1 :: h2 :: h3 :: h4 :: _ =>
    match hexVal h1, hexVal h2, hexVal h3, hexVal h4 with
    | some a, some b, some c, some d => some (a * 4096 + b * 256 + c * 16 + d)
    | _, _, _, _ => none
  | _ => none

/-- The character a one-letter escape stands for. -/
def unescape (c : Nat) : Option Nat :=
  if c = 0x22 ∨ c = 0x5C ∨ c = 0x2F then some c
  else if c = 0x62 then some 0x08
  else if c = 0x66 then some 0x0C
  else if c = 0x6E then some 0x0A
  else if c = 0x72 then some 0x0D
  else if c = 0x74 then some 0x09
  else none

/-- Reading a string literal after its opening quote, as the scanner and `unquote`
do together: returns the Go string and the input after the closing quote, `none`
for a literal that is not valid.  Escapes are resolved, a pair of surrogate escapes
makes one rune and a lone surrogate U+FFFD, and a byte that is not valid UTF-8
becomes U+FFFD.  The number of rounds is bounded by `fuel`. -/
def unquoteLoop : Nat → List Nat → Option (List Nat × List Nat)
  | 0, _ => none
  | fuel + 1, src =>
    match src with
    | [] => none
    | b :: rest =>
      if b = 0x22 then some ([], rest)
      else if b = 0x5C then
        match rest with
        | [] => none
        | c :: rest2 =>
          if c = 0x75 then
            match getu4 src with
            | none => none
            | some rr =>
              if 0xD800 ≤ rr ∧ rr < 0xE000 then
                match getu4 (src.drop 6) with
                | some rr1 =>
                  if rr < 0xDC00 ∧ 0xDC00 ≤ rr1 ∧ rr1 < 0xE000 then
                    (unquoteLoop fuel (src.drop 12)).map (fun r =>
                      (utf8.EncodeRune ((rr - 0xD800) * 1024 + (rr1 - 0xDC00) + 0x10000) ++ r.1,
                        r.2))
                  else
                    (unquoteLoop fuel (src.drop 6)).map (fun r =>
                      (utf8.EncodeRune utf8.RuneError ++ r.1, r.2))
                | none =>
                  (unquoteLoop fuel (src.drop 6)).map (fun r =>
                    (utf8.EncodeRune utf8.RuneError ++ r.1, r.2))
              else
                (unquoteLoop fuel (src.drop 6)).map (fun r => (utf8.EncodeRune rr ++ r.1, r.2))
          else
            match unescape c with
            | none => none
            | some x => (unquoteLoop fuel rest2).map (fun r => (x :: r.1, r.2))
      else if b < 0x20 then none
      else if b < 0x80 then (unquoteLoop fuel rest).map (fun r => (b :: r.1, r.2))
      else
        (unquoteLoop fuel (src.drop (utf8.DecodeRune src).2)).map (fun r =>
          (utf8.EncodeRune (utf8.DecodeRune src).1 ++ r.1, r.2))

/-- A string literal at the start of the input: the Go string and the input after it. -/
def parseString (input : List Nat) : Option (List Nat × List Nat) :=
  match input with
  | [] => none
  | b :: rest => if b = 0x22 then unquoteLoop (rest.length + 1) rest else none

/-- The input without the white space (space, tab, line feed, carriage return) at
its start. -/
def skipSpace : List Nat → List Nat
  | [] => []
  | b :: rest => if b = 0x20 ∨ b = 0x09 ∨ b = 0x0A ∨ b = 0x0D then skipSpace rest else b :: rest

/-- The members `"key": "value"` of an object after its opening brace, up to the
closing brace, after which only white space may follow.  The number of members
is bounded by `fuel`. -/
def parseMembers : Nat → List Nat → Option (List (List Nat × List Nat))
  | 0, _ => none
  | fuel + 1, input =>
    match parseString (skipSpace input) with
    | none => none
    | some (key, rest) =>
      match skipSpace rest with
      | [] => none
      | colon :: rest =>
        if colon = 0x3A then
          match parseString (skipSpace rest) with
          | none => none
          | some (value, rest) =>
            match skipSpace rest with
            | [] => none
            | sep :: rest =>
              if sep = 0x2C then (parseMembers fuel rest).map (fun ms => (key, value) :: ms)
              else if sep = 0x7D then
                if skipSpace rest = [] then some [(key, value)] else none
              else none
        else none

/-- The members of a JSON text that is one object whose values are all strings;
`none` for any other input. -/
def parseObject (data : List Nat) : Option (List (List Nat × List Nat)) :=
  match skipSpace data with
  | [] => none
  | b :: rest =>
    if b = 0x7B then
      match skipSpace rest with
      | [] => none
      | c :: rest2 =>
        if c = 0x7D then (if skipSpace rest2 = [] then some [] else none)
        else parseMembers rest.length rest
    else none

/-- The fields of `Oauth2State`. -/
inductive Field where
  | CSRF
  | RedirectTo
  | Transport
deriving DecidableEq, Repr

/-- The JSON names of the fields, from the struct tags, in the order of the fields. -/
def fieldNames : List (List Nat × Field) :=
  [(ascii "csrf", .CSRF), (ascii "redirectTo", .RedirectTo), (ascii "transport", .Transport)]

/-- An ASCII letter in lower case. -/
def lower (b : Nat) : Nat := if 65 ≤ b ∧ b ≤ 90 then b + 32 else b

/-- The field an object key is stored to: the field of that very name, or else one
whose name differs from the key in the case of ASCII letters only (the two Unicode
letters that fold to `k` and `s` are left out). -/
def findField (key : List Nat) : Option Field :=
  match fieldNames.find? (fun f => f.1 = key) with
  | some f => some f.2
  | none =>
    match fieldNames.find? (fun f => f.1.map lower = key.map lower) with
    | some f => some f.2
    | none => none

/-- Store a string to a field. -/
def setField (v : oauth2.Oauth2State) (f : Field) (x : List Nat) : oauth2.Oauth2State :=
  match f with
  | .CSRF => { v with CSRF := x }
  | .RedirectTo => { v with RedirectTo := x }
  | .Transport => { v with Transport := x }

/-- The encoder `json.Marshal(s)` for an `*Oauth2State`: an object with the three
fields under their tag names; it returns no error for this type. -/
def Marshal (s : oauth2.Oauth2State) : List Nat :=
  [0x7B] ++ appendString (ascii "csrf") ++ ascii ":" ++ appendString s.CSRF ++
  ascii "," ++ appendString (ascii "redirectTo") ++ ascii ":" ++ appendString s.RedirectTo ++
  ascii "," ++ appendString (ascii "transport") ++ ascii ":" ++ appendString s.Transport ++
  [0x7D]

/-- The error of a `json.Unmarshal` that does not go through. -/
def UnmarshalError : GoError := ⟨"json: cannot unmarshal into Go value of type oauth2.Oauth2State"⟩

/-- The decoder `json.Unmarshal(data, v)` for an `*Oauth2State`, returning the struct
afterwards and the error.  It is modelled for data that is one JSON object whose
values are all strings, which is what `Marshal` writes: each member is stored to the
field it names, in the order of the members, and a member that names no field is
skipped.  Any other data is reported as an error and leaves the struct as it was:
that is what the library does for data that is not valid JSON or not an object,
whereas of an object that has a member of another kind it would still store the
string members. -/
def Unmarshal (data : List Nat) (v : oauth2.Oauth2State) : oauth2.Oauth2State × Option GoError :=
  match parseObject data with
  | none => (v, some UnmarshalError)
  | some members =>
    (members.foldl (fun v m =>
      match findField m.1 with
      | some f => setField v f m.2
      | none => v) v, none)

end json

namespace oauth2

/-- The method `Encode()`: the base64 of the JSON of the state; the error of
`json.Marshal` is dropped, as in the source. -/
def Oauth2State.Encode (s : Oauth2State) : String :=
  let data := json.Marshal s
  base64.URLEncoding.EncodeToString data

/-- The method `Decode(state)`, returning the receiver afterwards; the errors of
`DecodeString` and of `json.Unmarshal` are dropped, as in the source. -/
def Oauth2State.Decode (s : Oauth2State) (state : String) : Oauth2State :=
  match base64.URLEncoding.DecodeString state with
  | (data, _) => (json.Unmarshal data s).1

/-- The constant `KeyRedirectTo`. -/
def KeyRedirectTo : String := "redirectTo"

/-- The constant `KeyTransport`. -/
def KeyTransport : String := "transport"

/-- The handler `HostedLoginHandler(config, success)`. -/
def HostedLoginHandler (config : gologin.CookieConfig) (success : http.Handler) :
    http.Handler :=
  fun w req =>
    let ctx := req.Context
    match req.Cookie config.Name with
    | .ok cookie =>
      -- add the cookie state to the ctx
      success w (req.WithContext (WithState ctx cookie.Value))
    | .error _ =>
      -- add Cookie with a random state
      match randomState w with
      | (csrf, w) =>
        let state : Oauth2State :=
          { CSRF := utf8.bytesOf csrf,
            RedirectTo := req.Query.Get KeyRedirectTo,
            Transport := req.Query.Get KeyTransport }
        let val := state.Encode
        let w := http.SetCookie w (internal.NewCookie config val)
        success w (req.WithContext (WithState ctx val))

end oauth2

namespace utf8

/-- The well-formed UTF-8 byte sequences and the rune each encodes (Table 3-7 of the
Unicode standard): `Encoding bytes r`. -/
inductive Encoding : List Nat → Nat → Prop where
  | one (a : Nat) (ha : a < 0x80) : Encoding [a] a
  | two (a b : Nat) (ha : 0xC2 ≤ a ∧ a < 0xE0) (hb : 0x80 ≤ b ∧ b ≤ 0xBF) :
      Encoding [a, b] (a % 32 * 64 + b % 64)
  | three (a b c : Nat) (ha : 0xE0 ≤ a ∧ a < 0xF0)
      (hb : (if a = 0xE0 then 0xA0 else 0x80) ≤ b ∧ b ≤ (if a = 0xED then 0x9F else 0xBF))
      (hc : 0x80 ≤ c ∧ c ≤ 0xBF) :
      Encoding [a, b, c] (a % 16 * 4096 + b % 64 * 64 + c % 64)
  | four (a b c d : Nat) (ha : 0xF0 ≤ a ∧ a ≤ 0xF4)
      (hb : (if a = 0xF0 then 0x90 else 0x80) ≤ b ∧ b ≤ (if a = 0xF4 then 0x8F else 0xBF))
      (hc : 0x80 ≤ c ∧ c ≤ 0xBF) (hd : 0x80 ≤ d ∧ d ≤ 0xBF) :
      Encoding [a, b, c, d] (a % 8 * 262144 + b % 64 * 4096 + c % 64 * 64 + d % 64)

end utf8

/-! ## Sample values -/

namespace Sample

/-- A client registration. -/
def config : xoauth2.Config :=
  { ClientID := "id", ClientSecret := "secret", AuthURL := { base := "https://p.example/auth", query := [] },
    TokenURL := "https://p.example/token", RedirectURL := "https://a.example/callback",
    Scopes := ["profile"] }

/-- The token the sample provider issues. -/
def token : xoauth2.Token :=
  { AccessToken := "tok", TokenType := "Bearer", RefreshToken := "" }

/-- A fresh response, a provider that accepts only the code `good`, a random
source whose `n`-th read delivers 32 bytes of value `n + 7`, a Slack that knows
the user of the access token `tok` and answers 500 to any other, and a Bitbucket
that knows the user `ivy` with three addresses, the second and the third marked
primary. -/
def world : World :=
  { cookies := [], status := none, location := none, body := "",
    tokenEndpoint := fun _ _ code =>
      if code = "good" then .ok token else .error ⟨"oauth2: cannot fetch token: 500"⟩,
    exchanges := [],
    rand := fun n => { bytes := List.replicate 32 (n + 7), err := none },
    randReads := 0, calls := [],
    slackIdentity := fun _ tok =>
      if tok = "tok" then
        .received ⟨200⟩ { Ok := true, User := { ID := "54638001", Name := "Ivy Crimson" } } none
      else .received ⟨500⟩ {} none,
    profileRequests := [],
    bitbucketUser := fun _ =>
      .received ⟨200⟩ { Username := "ivy", Email := "ivy@old.example" } none,
    bitbucketEmails := fun _ =>
      .received ⟨200⟩
        { Values := [{ Email := "ivy@home.example", IsConfirmed := true },
                     { Email := "ivy@work.example", IsConfirmed := true, IsPrimary := true },
                     { Email := "ivy@club.example", IsPrimary := true }] }
        none,
    bitbucketRequests := [], panicked := none }

/-- A callback request `/callback?code=..&state=..` with the given context. -/
def request (ctx : Context) (code state : String) : http.Request :=
  { ctx := ctx, Cookies := [], Form := [("code", [code]), ("state", [state])],
    FormError := none, Query := [] }

/-- A state cookie configuration. -/
def cookieConfig : gologin.CookieConfig :=
  { Name := "gologin-temporary-cookie", Domain := "", Path := "/", MaxAge := 60,
    HTTPOnly := true, Secure := true }

/-- A login request carrying the given cookies. -/
def loginRequest (cookies : List http.Cookie) : http.Request :=
  { ctx := [], Cookies := cookies, Form := [], FormError := none, Query := [] }

/-- The sample world with a random source that fails: it delivers no byte. -/
def worldWithoutEntropy : World :=
  { world with rand := fun _ => { bytes := [], err := some ⟨"unexpected EOF"⟩ } }

/-- A request whose query string does not parse, such as `/callback?code=%zz&state=abc`. -/
def unparsedRequest (ctx : Context) : http.Request :=
  { ctx := ctx, Cookies := [], Form := [("state", ["abc"])],
    FormError := some ⟨"invalid URL escape %zz"⟩, Query := [] }

/-- A hosted login request `/login?redirectTo=..&transport=..` without cookies. -/
def hostedRequest (redirectTo transport : List Nat) : http.Request :=
  { ctx := [], Cookies := [], Form := [], FormError := none,
    Query := [("redirectTo", [redirectTo]), ("transport", [transport])] }

/-- A callback request that carries the given cookies. -/
def callbackRequest (cookies : List http.Cookie) (code state : String) : http.Request :=
  { ctx := [], Cookies := cookies, Form := [("code", [code]), ("state", [state])],
    FormError := none, Query := [] }

/-- A callback request `/callback?code=..&state=..&x=%zz` with the given context: the
form carries `code` and `state`, and `ParseForm` returns the error of the last
pair. -/
def partRequest (ctx : Context) (code state : String) : http.Request :=
  { ctx := ctx, Cookies := [], Form := [("code", [code]), ("state", [state])],
    FormError := some ⟨"invalid URL escape %zz"⟩, Query := [] }

/-- A state cookie configuration whose name, having a space, is not a valid cookie
name. -/
def spacedCookieConfig : gologin.CookieConfig :=
  { Name := "my cookie", Domain := "", Path := "/", MaxAge := 60,
    HTTPOnly := true, Secure := true }

/-- A client registration whose authorization endpoint has a query of its own,
`https://p.example/auth?state=evil`. -/
def configWithQuery : xoauth2.Config :=
  { ClientID := "id", ClientSecret := "secret",
    AuthURL := { base := "https://p.example/auth", query := [("state", ["evil"])] },
    TokenURL := "https://p.example/token", RedirectURL := "https://a.example/callback",
    Scopes := ["profile"] }

/-- The state cookie with the given value, as a browser sends it back. -/
def stateCookie (value : String) : http.Cookie :=
  { Name := "gologin-temporary-cookie", Value := value, Domain := "", Path := "",
    MaxAge := 0, HttpOnly := false, Secure := false }

end Sample

/-! ## The Callback Stage in the words of the specification -/

namespace oauth2

/-- Spec §8 in its own words: the form of the request carries a non-empty `code` and
a non-empty `state`, `state` equals the correlation value of the request scope, and
the token exchange succeeds.  Whether `req.ParseForm()` returned an error is not
part of these words. -/
def callbackCarries (config : xoauth2.Config) (w : World) (req : http.Request) : Prop :=
  req.Form.Get "code" ≠ "" ∧ req.Form.Get "state" ≠ "" ∧
    StateFromContext req.Context = (req.Form.Get "state", none) ∧
    ∃ token, (config.Exchange req.Context (req.Form.Get "code") w).1 = .ok token

/-- The condition of spec §8 with the parse added to it: `req.ParseForm()` returns no
error, `code` and `state` are both present in the form, `state` equals the
correlation value of the request scope, and the token exchange succeeds. -/
def callbackSucceeds (config : xoauth2.Config) (w : World) (req : http.Request) : Prop :=
  ∃ form, req.ParseForm = .ok form ∧ form.Get "code" ≠ "" ∧ form.Get "state" ≠ "" ∧
    StateFromContext req.Context = (form.Get "state", none) ∧
    ∃ token, (config.Exchange req.Context (form.Get "code") w).1 = .ok token

/-- Spec §4.6: the four fallible steps of the Callback Stage in their order, each
with the error it raises, `none` when it passes: parsing `code` and `state`,
reading the correlation state, comparing the two states (a mismatch, or either
side being empty, is an invalid state), exchanging the code. -/
def callbackSteps (config : xoauth2.Config) (w : World) (req : http.Request) :
    List (Option GoError) :=
  let code := (parseCallback req).1
  let state := (parseCallback req).2.1
  let ownerState := (StateFromContext req.Context).1
  [ (parseCallback req).2.2,
    (StateFromContext req.Context).2,
    if state ≠ ownerState ∨ state = "" ∨ ownerState = "" then some ErrInvalidState else none,
    match (config.Exchange req.Context code w).1 with
    | .error err => some err
    | .ok _ => none ]

/-- Spec §4.6, steps 1 to 3: the callback is well-formed (`code` and `state` both
present) and its `state` equals the correlation state of the request scope. -/
def callbackStateValid (req : http.Request) : Prop :=
  ∃ form, req.ParseForm = .ok form ∧ form.Get "code" ≠ "" ∧ form.Get "state" ≠ "" ∧
    StateFromContext req.Context = (form.Get "state", none)

/-- The error of the first step that failed. -/
def firstError : List (Option GoError) → Option GoError
  | [] => none
  | some err :: _ => some err
  | none :: rest => firstError rest

end oauth2

/-! ## Lemmas on the embedded functions -/

namespace oauth2

theorem ParseForm_ok_iff (req : http.Request) (form : url.Values) :
    req.ParseForm = .ok form ↔ req.FormError = none ∧ req.Form = form := by
  unfold http.Request.ParseForm
  cases req.FormError <;> simp

theorem callbackSucceeds_iff (config : xoauth2.Config) (w : World) (req : http.Request) :
    callbackSucceeds config w req ↔ req.FormError = none ∧ callbackCarries config w req := by
  constructor
  · rintro ⟨form, h1, h2, h3, h4, h5⟩
    obtain ⟨he, rfl⟩ := (ParseForm_ok_iff req form).1 h1
    exact ⟨he, h2, h3, h4, h5⟩
  · rintro ⟨he, h2, h3, h4, h5⟩
    exact ⟨req.Form, (ParseForm_ok_iff req _).2 ⟨he, rfl⟩, h2, h3, h4, h5⟩

theorem parseCallback_ok (req : http.Request) (form : url.Values)
    (hform : req.ParseForm = .ok form) (hcode : form.Get "code" ≠ "")
    (hstate : form.Get "state" ≠ "") :
    parseCallback req = (form.Get "code", form.Get "state", none) := by
  simp [parseCallback, hform, hcode, hstate]

theorem parseCallback_ok_inv (req : http.Request) (c s : String)
    (h : parseCallback req = (c, s, none)) :
    ∃ form, req.ParseForm = .ok form ∧ form.Get "code" = c ∧ form.Get "state" = s ∧
      c ≠ "" ∧ s ≠ "" := by
  unfold parseCallback at h
  cases hp : req.ParseForm with
  | error e => simp [hp] at h
  | ok form =>
    simp only [hp] at h
    by_cases hc : form.Get "code" = "" ∨ form.Get "state" = ""
    · simp [hc] at h
    · rw [if_neg hc] at h
      simp only [Prod.mk.injEq, and_true] at h
      push_neg at hc
      exact ⟨form, rfl, h.1, h.2, h.1 ▸ hc.1, h.2 ▸ hc.2⟩

theorem CallbackHandler_parse_error (config : xoauth2.Config) (success : http.Handler)
    (failure : Option http.Handler) (w : World) (req : http.Request) (c s : String) (err : GoError)
    (h : parseCallback req = (c, s, some err)) :
    CallbackHandler config success failure w req
      = (failure.getD gologin.DefaultFailureHandler) w
          (req.WithContext (gologin.WithError req.Context err)) := by
  cases failure <;> simp [CallbackHandler, h]

theorem CallbackHandler_missing_state (config : xoauth2.Config) (success : http.Handler)
    (failure : Option http.Handler) (w : World) (req : http.Request) (c s o : String) (err : GoError)
    (h : parseCallback req = (c, s, none))
    (hctx : StateFromContext req.Context = (o, some err)) :
    CallbackHandler config success failure w req
      = (failure.getD gologin.DefaultFailureHandler) w
          (req.WithContext (gologin.WithError req.Context err)) := by
  cases failure <;> simp [CallbackHandler, h, hctx]

theorem CallbackHandler_invalid_state (config : xoauth2.Config) (success : http.Handler)
    (failure : Option http.Handler) (w : World) (req : http.Request) (c s o : String)
    (h : parseCallback req = (c, s, none))
    (hctx : StateFromContext req.Context = (o, none)) (hne : s ≠ o ∨ s = "") :
    CallbackHandler config success failure w req
      = (failure.getD gologin.DefaultFailureHandler) w
          (req.WithContext (gologin.WithError req.Context ErrInvalidState)) := by
  cases failure <;> simp [CallbackHandler, h, hctx, hne]

theorem CallbackHandler_exchange_error (config : xoauth2.Config) (success : http.Handler)
    (failure : Option http.Handler) (w : World) (req : http.Request) (c s : String) (err : GoError)
    (h : parseCallback req = (c, s, none))
    (hctx : StateFromContext req.Context = (s, none)) (hs : s ≠ "")
    (hex : (config.Exchange req.Context c w).1 = .error err) :
    CallbackHandler config success failure w req
      = (failure.getD gologin.DefaultFailureHandler) (config.Exchange req.Context c w).2
          (req.WithContext (gologin.WithError req.Context err)) := by
  rcases hx : config.Exchange req.Context c w with ⟨r, w1⟩
  rw [hx] at hex
  simp only at hex
  subst hex
  cases failure <;> simp [CallbackHandler, h, hctx, hs, hx]

theorem CallbackHandler_exchange_ok (config : xoauth2.Config) (success : http.Handler)
    (failure : Option http.Handler) (w : World) (req : http.Request) (c s : String)
    (token : xoauth2.Token)
    (h : parseCallback req = (c, s, none))
    (hctx : StateFromContext req.Context = (s, none)) (hs : s ≠ "")
    (hex : (config.Exchange req.Context c w).1 = .ok token) :
    CallbackHandler config success failure w req
      = success (config.Exchange req.Context c w).2
          (req.WithContext (WithToken req.Context token)) := by
  rcases hx : config.Exchange req.Context c w with ⟨r, w1⟩
  rw [hx] at hex
  simp only at hex
  subst hex
  cases failure <;> simp [CallbackHandler, h, hctx, hs, hx]

theorem callbackSucceeds_valid (config : xoauth2.Config) (w : World) (req : http.Request)
    (h : callbackSucceeds config w req) : callbackStateValid req := by
  obtain ⟨form, h1, h2, h3, h4, _⟩ := h
  exact ⟨form, h1, h2, h3, h4⟩

/-- Every run of the callback handler is one of three: the token is obtained and the
success handler takes over; the exchange is made and fails; or a step before
the exchange fails and the world is handed to the failure handler untouched. -/
theorem CallbackHandler_run (config : xoauth2.Config) (w : World) (req : http.Request) :
    (∃ form token, req.ParseForm = .ok form ∧ form.Get "code" ≠ "" ∧ form.Get "state" ≠ "" ∧
        StateFromContext req.Context = (form.Get "state", none) ∧
        (config.Exchange req.Context (form.Get "code") w).1 = .ok token ∧
        ∀ (success : http.Handler) (failure : Option http.Handler),
          CallbackHandler config success failure w req
            = success (config.Exchange req.Context (form.Get "code") w).2
                (req.WithContext (WithToken req.Context token)))
    ∨ (∃ form err, req.ParseForm = .ok form ∧ form.Get "code" ≠ "" ∧ form.Get "state" ≠ "" ∧
        StateFromContext req.Context = (form.Get "state", none) ∧
        (config.Exchange req.Context (form.Get "code") w).1 = .error err ∧
        firstError (callbackSteps config w req) = some err ∧
        ∀ (success : http.Handler) (failure : Option http.Handler),
          CallbackHandler config success failure w req
            = (failure.getD gologin.DefaultFailureHandler)
                (config.Exchange req.Context (form.Get "code") w).2
                (req.WithContext (gologin.WithError req.Context err)))
    ∨ (¬ callbackStateValid req ∧ ∃ err,
        firstError (callbackSteps config w req) = some err ∧
        ∀ (success : http.Handler) (failure : Option http.Handler),
          CallbackHandler config success failure w req
            = (failure.getD gologin.DefaultFailureHandler) w
                (req.WithContext (gologin.WithError req.Context err))) := by
  rcases hp : parseCallback req with ⟨c, s, e⟩
  cases e with
  | some err =>
    refine Or.inr (Or.inr ⟨?_, err, ?_, ?_⟩)
    · rintro ⟨form, h1, h2, h3, _⟩
      rw [parseCallback_ok req form h1 h2 h3] at hp
      simp at hp
    · simp [callbackSteps, firstError, hp]
    · intro success failure
      exact CallbackHandler_parse_error config success failure w req c s err hp
  | none =>
    obtain ⟨form, hform, hc, hs, hcne, hsne⟩ := parseCallback_ok_inv req c s hp
    subst hc
    subst hs
    rcases hctx : StateFromContext req.Context with ⟨o, eo⟩
    cases eo with
    | some err =>
      refine Or.inr (Or.inr ⟨?_, err, ?_, ?_⟩)
      · rintro ⟨form2, h1, _, _, h4⟩
        rw [hctx] at h4
        simp at h4
      · simp [callbackSteps, firstError, hp, hctx]
      · intro success failure
        exact CallbackHandler_missing_state config success failure w req _ _ o err hp hctx
    | none =>
      by_cases hso : form.Get "state" = o
      · subst hso
        cases hex : (config.Exchange req.Context (form.Get "code") w).1 with
        | ok token =>
          refine Or.inl ⟨form, token, hform, hcne, hsne, rfl, hex, ?_⟩
          intro success failure
          exact CallbackHandler_exchange_ok config success failure w req _ _ token hp hctx hsne hex
        | error err =>
          refine Or.inr (Or.inl ⟨form, err, hform, hcne, hsne, rfl, hex, ?_, ?_⟩)
          · simp [callbackSteps, firstError, hp, hctx, hsne, hex]
          · intro success failure
            exact CallbackHandler_exchange_error config success failure w req _ _ err hp hctx
              hsne hex
      · refine Or.inr (Or.inr ⟨?_, ErrInvalidState, ?_, ?_⟩)
        · rintro ⟨form2, h1, _, _, h4⟩
          rw [hform] at h1
          cases h1
          rw [hctx] at h4
          simp only [Prod.mk.injEq, and_true] at h4
          exact hso h4.symm
        · simp [callbackSteps, firstError, hp, hctx, hso]
        · intro success failure
          exact CallbackHandler_invalid_state config success failure w req _ _ o hp hctx
            (Or.inl hso)

@[simp] theorem record_calls (name : String) (w : World) (req : http.Request) :
    (record name w req).calls = w.calls ++ [(name, req.Context)] := rfl

@[simp] theorem record_exchanges (name : String) (w : World) (req : http.Request) :
    (record name w req).exchanges = w.exchanges := rfl

@[simp] theorem record_cookies (name : String) (w : World) (req : http.Request) :
    (record name w req).cookies = w.cookies := rfl

theorem SetCookie_of_valid (w : World) (cookie : http.Cookie)
    (h : http.isCookieNameValid cookie.Name = true) :
    http.SetCookie w cookie = { w with cookies := w.cookies ++ [cookie] } := by
  simp [http.SetCookie, h]

theorem SetCookie_of_invalid (w : World) (cookie : http.Cookie)
    (h : http.isCookieNameValid cookie.Name = false) : http.SetCookie w cookie = w := by
  simp [http.SetCookie, h]

@[simp] theorem SetCookie_calls (w : World) (cookie : http.Cookie) :
    (http.SetCookie w cookie).calls = w.calls := by
  unfold http.SetCookie
  split <;> rfl

@[simp] theorem SetCookie_exchanges (w : World) (cookie : http.Cookie) :
    (http.SetCookie w cookie).exchanges = w.exchanges := by
  unfold http.SetCookie
  split <;> rfl

@[simp] theorem SetCookie_tokenEndpoint (w : World) (cookie : http.Cookie) :
    (http.SetCookie w cookie).tokenEndpoint = w.tokenEndpoint := by
  unfold http.SetCookie
  split <;> rfl

@[simp] theorem Exchange_calls (config : xoauth2.Config) (ctx : Context) (code : String)
    (w : World) : (config.Exchange ctx code w).2.calls = w.calls := rfl

@[simp] theorem Exchange_exchanges (config : xoauth2.Config) (ctx : Context) (code : String)
    (w : World) : (config.Exchange ctx code w).2.exchanges = w.exchanges ++ [code] := rfl

@[simp] theorem WithContext_Context (req : http.Request) (ctx : Context) :
    (req.WithContext ctx).Context = ctx := rfl

theorem calls_success_ne_failure (l : List (String × Context)) (a b : Context) :
    l ++ [("failure", a)] ≠ l ++ [("success", b)] := by
  intro h
  have h2 := List.append_cancel_left h
  simp at h2

/-! ## The claims on the Callback Stage -/

/-- Counterexample to C1 as stated: the form of `/callback?code=good&state=abc&x=%zz`
carries a non-empty `code` and a non-empty `state`, the context holds the correlation
state `abc`, and the exchange of `good` returns no error; yet `ParseForm` returned
an error for the last pair, and the failure handler is invoked with it, without any
exchange. -/
theorem CallbackHandler_success_iff_counterexample :
    callbackCarries Sample.config Sample.world
      (Sample.partRequest (WithState [] "abc") "good" "abc") ∧
    (CallbackHandler Sample.config (record "success") (some (record "failure")) Sample.world
        (Sample.partRequest (WithState [] "abc") "good" "abc")).calls
      = [("failure", gologin.WithError (WithState [] "abc") ⟨"invalid URL escape %zz"⟩)] ∧
    (CallbackHandler Sample.config (record "success") (some (record "failure")) Sample.world
        (Sample.partRequest (WithState [] "abc") "good" "abc")).exchanges = [] :=
  ⟨⟨by decide, by decide, by decide, Sample.token, by decide⟩, by decide, by decide⟩

/-- C1, amended: for every callback request, with recording handlers in the two
roles, the success handler is invoked if and only if `ParseForm` returns no error,
the form carries a non-empty `code` and a non-empty `state`, the request context holds
a correlation state equal to that `state`, and the exchange returns no error; then,
whatever the handlers, the run is one invocation of the success handler; in every
other case the run is, whatever the handlers, one invocation of the failure handler
with the error of the first step that failed. -/
theorem CallbackHandler_success_iff (config : xoauth2.Config) (w : World) (req : http.Request) :
    ((∃ ctx, (CallbackHandler config (record "success") (some (record "failure")) w req).calls
        = w.calls ++ [("success", ctx)]) ↔
      (req.FormError = none ∧ callbackCarries config w req)) ∧
    ((∃ ctx, (CallbackHandler config (record "success") (some (record "failure")) w req).calls
        = w.calls ++ [("success", ctx)]) ↔ callbackSucceeds config w req) ∧
    (callbackSucceeds config w req → ∃ token w1,
        ∀ (success : http.Handler) (failure : Option http.Handler),
          CallbackHandler config success failure w req
            = success w1 (req.WithContext (WithToken req.Context token))) ∧
    (¬ callbackSucceeds config w req → ∃ err w1,
        firstError (callbackSteps config w req) = some err ∧ w1.calls = w.calls ∧
        ∀ (success : http.Handler) (failure : Option http.Handler),
          CallbackHandler config success failure w req
            = (failure.getD gologin.DefaultFailureHandler) w1
                (req.WithContext (gologin.WithError req.Context err))) := by
  rw [← callbackSucceeds_iff, and_self_left]
  rcases CallbackHandler_run config w req with
    ⟨form, token, h1, h2, h3, h4, h5, hrun⟩ | ⟨form, err, h1, h2, h3, h4, h5, hfirst, hrun⟩ |
    ⟨hnv, err, hfirst, hrun⟩
  · have hs : callbackSucceeds config w req := ⟨form, h1, h2, h3, h4, token, h5⟩
    refine ⟨⟨fun _ => hs, fun _ => ⟨WithToken req.Context token, ?_⟩⟩, fun _ => ⟨token, _, hrun⟩,
      fun hn => absurd hs hn⟩
    rw [hrun]
    simp
  · have hs : ¬ callbackSucceeds config w req := by
      rintro ⟨form2, g1, _, _, _, token, g5⟩
      rw [h1] at g1
      cases g1
      rw [h5] at g5
      cases g5
    refine ⟨⟨?_, fun h => absurd h hs⟩, fun h => absurd h hs, fun _ => ⟨err, _, hfirst, ?_, hrun⟩⟩
    · rintro ⟨ctx, hc⟩
      rw [hrun] at hc
      simp only [Option.getD_some, record_calls, Exchange_calls, WithContext_Context] at hc
      exact absurd hc (calls_success_ne_failure _ _ _)
    · simp
  · have hs : ¬ callbackSucceeds config w req :=
      fun h => hnv (callbackSucceeds_valid config w req h)
    refine ⟨⟨?_, fun h => absurd h hs⟩, fun h => absurd h hs, fun _ => ⟨err, w, hfirst, rfl, hrun⟩⟩
    rintro ⟨ctx, hc⟩
    rw [hrun] at hc
    simp only [Option.getD_some, record_calls, WithContext_Context] at hc
    exact absurd hc (calls_success_ne_failure _ _ _)

/-- Witness of C1: a callback with code `good` and state `abc`, in a context whose
correlation state is `abc`, reaches the success handler. -/
theorem CallbackHandler_success_iff_witness :
    callbackSucceeds Sample.config Sample.world
        (Sample.request (WithState [] "abc") "good" "abc") ∧
    ∃ ctx, (CallbackHandler Sample.config (record "success") (some (record "failure"))
        Sample.world (Sample.request (WithState [] "abc") "good" "abc")).calls
        = Sample.world.calls ++ [("success", ctx)] :=
  have h : callbackSucceeds Sample.config Sample.world
      (Sample.request (WithState [] "abc") "good" "abc") :=
    ⟨[("code", ["good"]), ("state", ["abc"])], rfl, by decide, by decide, by decide,
      Sample.token, by decide⟩
  ⟨h, (CallbackHandler_success_iff Sample.config Sample.world
      (Sample.request (WithState [] "abc") "good" "abc")).2.1.mpr h⟩

/-- Counterexample to C2 as stated: the form of `/callback?code=good&state=X&x=%zz`
carries a non-empty `code` and the `state` X, the context holds the correlation state
Y; yet the failure handler receives the error that `ParseForm` returned, not
`ErrInvalidState`. -/
theorem CallbackHandler_state_mismatch_counterexample :
    (Sample.partRequest (WithState [] "Y") "good" "X").Form.Get "code" = "good" ∧
    (Sample.partRequest (WithState [] "Y") "good" "X").Form.Get "state" = "X" ∧
    StateFromContext (Sample.partRequest (WithState [] "Y") "good" "X").Context
      = ("Y", none) ∧
    (CallbackHandler Sample.config (record "success") (some (record "failure")) Sample.world
        (Sample.partRequest (WithState [] "Y") "good" "X")).calls
      = [("failure", gologin.WithError (WithState [] "Y") ⟨"invalid URL escape %zz"⟩)] ∧
    gologin.errorSlot (gologin.WithError (WithState [] "Y") ⟨"invalid URL escape %zz"⟩)
      ≠ some ErrInvalidState := by
  decide

/-- C2, amended: when `ParseForm` returns no error, a callback with a non-empty
`code` and a non-empty `state` X, in a context
holding a correlation state Y different from X, is handed to the failure handler
with the error slot set to `ErrInvalidState`, a value that depends on neither X nor
Y; the success handler is not invoked and the world is untouched. -/
theorem CallbackHandler_state_mismatch (config : xoauth2.Config) (success : http.Handler)
    (failure : Option http.Handler) (w : World) (req : http.Request) (form : url.Values)
    (X Y : String)
    (hform : req.ParseForm = .ok form) (hcode : form.Get "code" ≠ "")
    (hstate : form.Get "state" = X) (hX : X ≠ "")
    (hctx : StateFromContext req.Context = (Y, none)) (hXY : X ≠ Y) :
    CallbackHandler config success failure w req
      = (failure.getD gologin.DefaultFailureHandler) w
          (req.WithContext (gologin.WithError req.Context ErrInvalidState)) ∧
    gologin.errorSlot (gologin.WithError req.Context ErrInvalidState) = some ErrInvalidState ∧
    (CallbackHandler config (record "success") (some (record "failure")) w req).calls
      = w.calls ++ [("failure", gologin.WithError req.Context ErrInvalidState)] := by
  subst hstate
  have hp := parseCallback_ok req form hform hcode hX
  refine ⟨CallbackHandler_invalid_state config success failure w req _ _ Y hp hctx (Or.inl hXY),
    rfl, ?_⟩
  rw [CallbackHandler_invalid_state config _ _ w req _ _ Y hp hctx (Or.inl hXY)]
  simp

/-- Witness of C2: state `X` in the request, correlation state `Y` in the context. -/
theorem CallbackHandler_state_mismatch_witness :
    (CallbackHandler Sample.config (record "success") (some (record "failure")) Sample.world
        (Sample.request (WithState [] "Y") "good" "X")).calls
      = [("failure", gologin.WithError (WithState [] "Y") ErrInvalidState)] :=
  (CallbackHandler_state_mismatch Sample.config (record "success") (some (record "failure"))
    Sample.world (Sample.request (WithState [] "Y") "good" "X")
    [("code", ["good"]), ("state", ["X"])] "X" "Y" rfl (by decide) (by decide) (by decide)
    (by decide) (by decide)).2.2

/-- Counterexample to C3 as stated: the callback's `state` parameter is empty (the
code is `good`, the correlation state `abc`), yet the failure handler receives the
error of `parseCallback`, not `ErrInvalidState`. -/
theorem CallbackHandler_empty_state_counterexample :
    url.Values.Get [("code", ["good"]), ("state", [""])] "state" = "" ∧
    (CallbackHandler Sample.config (record "success") (some (record "failure")) Sample.world
        (Sample.request (WithState [] "abc") "good" "")).calls
      = [("failure", gologin.WithError (WithState [] "abc") errMissingCodeOrState)] ∧
    gologin.errorSlot (gologin.WithError (WithState [] "abc") errMissingCodeOrState)
      ≠ some ErrInvalidState := by
  decide

/-- C3, amended: for a request whose form parses, a well-formed callback (non-empty
`code` and `state`) in a context whose correlation state is the empty string is
handed to the failure handler with `ErrInvalidState`; a callback whose `state`
parameter is empty is handed to the failure handler with the error
"oauth2: Request missing code or state" of `parseCallback`. -/
theorem CallbackHandler_empty_state (config : xoauth2.Config) (success : http.Handler)
    (failure : Option http.Handler) (w : World) (req : http.Request) (form : url.Values)
    (hform : req.ParseForm = .ok form) :
    (form.Get "code" ≠ "" → form.Get "state" ≠ "" →
      StateFromContext req.Context = ("", none) →
      CallbackHandler config success failure w req
        = (failure.getD gologin.DefaultFailureHandler) w
            (req.WithContext (gologin.WithError req.Context ErrInvalidState))) ∧
    (form.Get "state" = "" →
      CallbackHandler config success failure w req
        = (failure.getD gologin.DefaultFailureHandler) w
            (req.WithContext (gologin.WithError req.Context errMissingCodeOrState))) := by
  constructor
  · intro hcode hstate hctx
    exact CallbackHandler_invalid_state config success failure w req _ _ ""
      (parseCallback_ok req form hform hcode hstate) hctx (Or.inl hstate)
  · intro hstate
    apply CallbackHandler_parse_error config success failure w req "" ""
    simp [parseCallback, hform, hstate]

/-- Witness of C3, amended: a well-formed callback meets the empty correlation state. -/
theorem CallbackHandler_empty_state_witness :
    CallbackHandler Sample.config (record "success") (some (record "failure")) Sample.world
        (Sample.request (WithState [] "") "good" "abc")
      = record "failure" Sample.world
          ((Sample.request (WithState [] "") "good" "abc").WithContext
            (gologin.WithError (WithState [] "") ErrInvalidState)) :=
  (CallbackHandler_empty_state Sample.config (record "success") (some (record "failure"))
    Sample.world (Sample.request (WithState [] "") "good" "abc")
    [("code", ["good"]), ("state", ["abc"])] rfl).1 (by decide) (by decide) (by decide)

/-- Counterexample to C4 as stated: the form of `/callback?code=good&state=abc&x=%zz`
carries a non-empty `code` and `state`, the context carries no correlation state;
yet the failure handler receives the error that `ParseForm` returned, not the
missing-state error of `StateFromContext`. -/
theorem CallbackHandler_no_state_counterexample :
    (Sample.partRequest [] "good" "abc").Form.Get "code" = "good" ∧
    (Sample.partRequest [] "good" "abc").Form.Get "state" = "abc" ∧
    context.Value (Sample.partRequest [] "good" "abc").Context context.Key.oauth2State
      = none ∧
    (StateFromContext (Sample.partRequest [] "good" "abc").Context).2
      = some ErrMissingState ∧
    (CallbackHandler Sample.config (record "success") (some (record "failure")) Sample.world
        (Sample.partRequest [] "good" "abc")).calls
      = [("failure", gologin.WithError [] ⟨"invalid URL escape %zz"⟩)] ∧
    gologin.errorSlot (gologin.WithError [] ⟨"invalid URL escape %zz"⟩)
      ≠ some ErrMissingState := by
  decide

/-- C4, amended: when `ParseForm` returns no error, a callback with non-empty `code`
and `state` whose context carries no
correlation state at all is handed to the failure handler with the missing-state
error that `StateFromContext` returns; the success handler is not invoked and no
token exchange is made. -/
theorem CallbackHandler_no_state (config : xoauth2.Config) (success : http.Handler)
    (failure : Option http.Handler) (w : World) (req : http.Request) (form : url.Values)
    (hform : req.ParseForm = .ok form) (hcode : form.Get "code" ≠ "")
    (hstate : form.Get "state" ≠ "")
    (hctx : context.Value req.Context context.Key.oauth2State = none) :
    ∃ err, (StateFromContext req.Context).2 = some err ∧
      CallbackHandler config success failure w req
        = (failure.getD gologin.DefaultFailureHandler) w
            (req.WithContext (gologin.WithError req.Context err)) ∧
      (CallbackHandler config (record "success") (some (record "failure")) w req).calls
        = w.calls ++ [("failure", gologin.WithError req.Context err)] ∧
      (CallbackHandler config (record "success") (some (record "failure")) w req).exchanges
        = w.exchanges := by
  have hs : StateFromContext req.Context = ("", some ErrMissingState) := by
    simp [StateFromContext, hctx]
  have hp := parseCallback_ok req form hform hcode hstate
  refine ⟨ErrMissingState, by rw [hs], ?_, ?_, ?_⟩
  · exact CallbackHandler_missing_state config success failure w req _ _ "" _ hp hs
  · rw [CallbackHandler_missing_state config _ _ w req _ _ "" _ hp hs]
    simp
  · rw [CallbackHandler_missing_state config _ _ w req _ _ "" _ hp hs]
    simp

/-- Witness of C4: a well-formed callback in the empty context. -/
theorem CallbackHandler_no_state_witness :
    ∃ err, (StateFromContext (Sample.request [] "good" "abc").Context).2 = some err ∧
      CallbackHandler Sample.config (record "success") none Sample.world
          (Sample.request [] "good" "abc")
        = gologin.DefaultFailureHandler Sample.world
            ((Sample.request [] "good" "abc").WithContext (gologin.WithError [] err)) ∧
      (CallbackHandler Sample.config (record "success") (some (record "failure")) Sample.world
          (Sample.request [] "good" "abc")).calls
        = [("failure", gologin.WithError [] err)] ∧
      (CallbackHandler Sample.config (record "success") (some (record "failure")) Sample.world
          (Sample.request [] "good" "abc")).exchanges = [] :=
  CallbackHandler_no_state Sample.config (record "success") none Sample.world
    (Sample.request [] "good" "abc") [("code", ["good"]), ("state", ["abc"])] rfl
    (by decide) (by decide) (by decide)

/-- C5: for a well-formed callback whose state matches the correlation state, if
the exchange returns the error `e`, the failure handler is invoked with the error
slot set to `e`; the context it receives has the token slot of the incoming request,
nothing being published there; the success handler is not invoked. -/
theorem CallbackHandler_exchange_fails (config : xoauth2.Config) (success : http.Handler)
    (failure : Option http.Handler) (w : World) (req : http.Request) (form : url.Values)
    (e : GoError)
    (hform : req.ParseForm = .ok form) (hcode : form.Get "code" ≠ "")
    (hstate : form.Get "state" ≠ "")
    (hctx : StateFromContext req.Context = (form.Get "state", none))
    (hex : (config.Exchange req.Context (form.Get "code") w).1 = .error e) :
    CallbackHandler config success failure w req
      = (failure.getD gologin.DefaultFailureHandler)
          (config.Exchange req.Context (form.Get "code") w).2
          (req.WithContext (gologin.WithError req.Context e)) ∧
    gologin.errorSlot (gologin.WithError req.Context e) = some e ∧
    TokenFromContext (gologin.WithError req.Context e) = TokenFromContext req.Context ∧
    (CallbackHandler config (record "success") (some (record "failure")) w req).calls
      = w.calls ++ [("failure", gologin.WithError req.Context e)] := by
  have hp := parseCallback_ok req form hform hcode hstate
  refine ⟨CallbackHandler_exchange_error config success failure w req _ _ e hp hctx hstate hex,
    rfl, rfl, ?_⟩
  rw [CallbackHandler_exchange_error config _ _ w req _ _ e hp hctx hstate hex]
  simp

/-- Witness of C5: the provider rejects the code `bad`. -/
theorem CallbackHandler_exchange_fails_witness :
    (CallbackHandler Sample.config (record "success") (some (record "failure")) Sample.world
        (Sample.request (WithState [] "abc") "bad" "abc")).calls
      = [("failure", gologin.WithError (WithState [] "abc")
          ⟨"oauth2: cannot fetch token: 500"⟩)] :=
  (CallbackHandler_exchange_fails Sample.config (record "success") (some (record "failure"))
    Sample.world (Sample.request (WithState [] "abc") "bad" "abc")
    [("code", ["bad"]), ("state", ["abc"])] ⟨"oauth2: cannot fetch token: 500"⟩ rfl
    (by decide) (by decide) (by decide) (by decide)).2.2.2

/-- Counterexample to C6 as stated: for a request whose form does not parse, `code`
and `state` are not both present, yet `parseCallback` returns the error of
`req.ParseForm()`, not the error "oauth2: Request missing code or state". -/
theorem parseCallback_counterexample :
    (¬ ∃ form, (Sample.unparsedRequest []).ParseForm = .ok form ∧
        form.Get "code" ≠ "" ∧ form.Get "state" ≠ "") ∧
    parseCallback (Sample.unparsedRequest []) = ("", "", some ⟨"invalid URL escape %zz"⟩) ∧
    parseCallback (Sample.unparsedRequest []) ≠ ("", "", some errMissingCodeOrState) := by
  refine ⟨?_, by decide, by decide⟩
  rintro ⟨form, h, _⟩
  cases h

/-- C6, amended: when `req.ParseForm()` succeeds, `parseCallback` returns the
form's `code` and `state` with a nil error exactly when both are non-empty, and
otherwise two empty strings and the error "oauth2: Request missing code or state";
when `req.ParseForm()` fails, it returns two empty strings and that error; whichever
error `parseCallback` returns, `CallbackHandler` hands the request to the failure
handler with it. -/
theorem parseCallback_spec (req : http.Request) :
    (∀ form, req.ParseForm = .ok form →
      (parseCallback req = (form.Get "code", form.Get "state", none)
        ↔ (form.Get "code" ≠ "" ∧ form.Get "state" ≠ "")) ∧
      (¬ (form.Get "code" ≠ "" ∧ form.Get "state" ≠ "") →
        parseCallback req = ("", "", some errMissingCodeOrState))) ∧
    (∀ e, req.ParseForm = .error e → parseCallback req = ("", "", some e)) ∧
    (∀ c s err, parseCallback req = (c, s, some err) →
      ∀ (config : xoauth2.Config) (success : http.Handler) (failure : Option http.Handler)
        (w : World),
        CallbackHandler config success failure w req
          = (failure.getD gologin.DefaultFailureHandler) w
              (req.WithContext (gologin.WithError req.Context err))) := by
  refine ⟨?_, ?_, ?_⟩
  · intro form hform
    constructor
    · constructor
      · intro h
        obtain ⟨form2, h1, h2, h3, h4, h5⟩ := parseCallback_ok_inv req _ _ h
        exact ⟨h4, h5⟩
      · intro h
        exact parseCallback_ok req form hform h.1 h.2
    · intro h
      have h2 : form.Get "code" = "" ∨ form.Get "state" = "" := by
        by_contra hc
        push_neg at hc
        exact h hc
      simp [parseCallback, hform, h2]
  · intro e he
    simp [parseCallback, he]
  · intro c s err h config success failure w
    exact CallbackHandler_parse_error config success failure w req c s err h

/-- Witness of C6, amended: a form without `state`, and a form that does not parse. -/
theorem parseCallback_spec_witness :
    parseCallback (Sample.request [] "good" "") = ("", "", some errMissingCodeOrState) ∧
    parseCallback (Sample.unparsedRequest []) = ("", "", some ⟨"invalid URL escape %zz"⟩) :=
  ⟨((parseCallback_spec (Sample.request [] "good" "")).1
      [("code", ["good"]), ("state", [""])] rfl).2 (by decide),
   (parseCallback_spec (Sample.unparsedRequest [])).2.1 ⟨"invalid URL escape %zz"⟩ rfl⟩

/-- C7: the token exchange is made exactly once, with the request's `code`, when the
callback is well-formed and its state equals the correlation state in scope, and
not at all otherwise.  Whatever the handlers, the run is then one invocation of
the success or of the failure handler on the world as that single exchange left
it (no second exchange after a failed one), and otherwise one invocation of the
failure handler on the untouched world. -/
theorem CallbackHandler_exchange_once (config : xoauth2.Config) (w : World)
    (req : http.Request) :
    (callbackStateValid req → ∃ form, req.ParseForm = .ok form ∧
      (CallbackHandler config (record "success") (some (record "failure")) w req).exchanges
        = w.exchanges ++ [form.Get "code"] ∧
      ∀ (success : http.Handler) (failure : Option http.Handler), ∃ k ctx,
        (k = success ∨ k = failure.getD gologin.DefaultFailureHandler) ∧
        CallbackHandler config success failure w req
          = k (config.Exchange req.Context (form.Get "code") w).2 (req.WithContext ctx)) ∧
    (¬ callbackStateValid req →
      (CallbackHandler config (record "success") (some (record "failure")) w req).exchanges
        = w.exchanges ∧
      ∃ ctx, ∀ (success : http.Handler) (failure : Option http.Handler),
        CallbackHandler config success failure w req
          = (failure.getD gologin.DefaultFailureHandler) w (req.WithContext ctx)) := by
  rcases CallbackHandler_run config w req with
    ⟨form, token, h1, h2, h3, h4, h5, hrun⟩ | ⟨form, err, h1, h2, h3, h4, h5, hfirst, hrun⟩ |
    ⟨hnv, err, hfirst, hrun⟩
  · have hv : callbackStateValid req := ⟨form, h1, h2, h3, h4⟩
    refine ⟨fun _ => ⟨form, h1, ?_, ?_⟩, fun hn => absurd hv hn⟩
    · rw [hrun]
      simp
    · intro success failure
      exact ⟨success, _, Or.inl rfl, hrun success failure⟩
  · have hv : callbackStateValid req := ⟨form, h1, h2, h3, h4⟩
    refine ⟨fun _ => ⟨form, h1, ?_, ?_⟩, fun hn => absurd hv hn⟩
    · rw [hrun]
      simp
    · intro success failure
      exact ⟨_, _, Or.inr rfl, hrun success failure⟩
  · refine ⟨fun hv => absurd hv hnv, fun _ => ⟨?_, _, hrun⟩⟩
    rw [hrun]
    simp

/-- Witness of C7: one exchange for a valid callback even though the provider
rejects the code, none when the states differ. -/
theorem CallbackHandler_exchange_once_witness :
    (CallbackHandler Sample.config (record "success") (some (record "failure")) Sample.world
        (Sample.request (WithState [] "abc") "bad" "abc")).exchanges = ["bad"] ∧
    (CallbackHandler Sample.config (record "success") (some (record "failure")) Sample.world
        (Sample.request (WithState [] "Y") "good" "X")).exchanges = [] := by
  constructor
  · obtain ⟨form, hform, hx, _⟩ :=
      (CallbackHandler_exchange_once Sample.config Sample.world
        (Sample.request (WithState [] "abc") "bad" "abc")).1
        ⟨[("code", ["bad"]), ("state", ["abc"])], rfl, by decide, by decide, by decide⟩
    cases hform
    exact hx
  · refine ((CallbackHandler_exchange_once Sample.config Sample.world
        (Sample.request (WithState [] "Y") "good" "X")).2 ?_).1
    rintro ⟨form, hform, _, _, h⟩
    cases hform
    revert h
    decide

/-- C8: on the success path the exchange is made with exactly the request's `code`,
and the success handler receives a context from which `TokenFromContext` yields
exactly the token the exchange returned and whose error slot is that of the
incoming request. -/
theorem CallbackHandler_success_token (config : xoauth2.Config) (success : http.Handler)
    (failure : Option http.Handler) (w : World) (req : http.Request) (form : url.Values)
    (token : xoauth2.Token)
    (hform : req.ParseForm = .ok form) (hcode : form.Get "code" ≠ "")
    (hstate : form.Get "state" ≠ "")
    (hctx : StateFromContext req.Context = (form.Get "state", none))
    (hex : (config.Exchange req.Context (form.Get "code") w).1 = .ok token) :
    CallbackHandler config success failure w req
      = success (config.Exchange req.Context (form.Get "code") w).2
          (req.WithContext (WithToken req.Context token)) ∧
    (config.Exchange req.Context (form.Get "code") w).2.exchanges
      = w.exchanges ++ [form.Get "code"] ∧
    TokenFromContext (WithToken req.Context token) = (some token, none) ∧
    gologin.errorSlot (WithToken req.Context token) = gologin.errorSlot req.Context := by
  have hp := parseCallback_ok req form hform hcode hstate
  exact ⟨CallbackHandler_exchange_ok config success failure w req _ _ token hp hctx hstate hex,
    rfl, rfl, rfl⟩

/-- Witness of C8: the code `good` is exchanged for the sample token. -/
theorem CallbackHandler_success_token_witness :
    (CallbackHandler Sample.config (record "success") (some (record "failure")) Sample.world
        (Sample.request (WithState [] "abc") "good" "abc")).calls
      = [("success", WithToken (WithState [] "abc") Sample.token)] := by
  rw [(CallbackHandler_success_token Sample.config (record "success") (some (record "failure"))
    Sample.world (Sample.request (WithState [] "abc") "good" "abc")
    [("code", ["good"]), ("state", ["abc"])] Sample.token rfl
    (by decide) (by decide) (by decide) (by decide)).1]
  decide

/-! ## The claims on the CSRF Stage -/

theorem Cookie_of_absent (req : http.Request) (name : String)
    (h : ∀ c ∈ req.Cookies, c.Name ≠ name) : req.Cookie name = .error http.ErrNoCookie := by
  have hf : req.Cookies.find? (fun c => c.Name = name) = none := by
    rw [List.find?_eq_none]
    intro c hc
    simpa using h c hc
  simp [http.Request.Cookie, hf]

theorem Cookie_of_present (req : http.Request) (name : String)
    (h : ∃ c ∈ req.Cookies, c.Name = name) :
    ∃ cookie, req.Cookie name = .ok cookie ∧ cookie ∈ req.Cookies ∧ cookie.Name = name := by
  cases hf : req.Cookies.find? (fun c => c.Name = name) with
  | none =>
    rw [List.find?_eq_none] at hf
    obtain ⟨c, hc, hn⟩ := h
    exact absurd hn (by simpa using hf c hc)
  | some cookie =>
    refine ⟨cookie, by simp [http.Request.Cookie, hf], List.mem_of_find?_eq_some hf, ?_⟩
    simpa using List.find?_some hf

/-- Counterexample to C9 as stated: with the cookie name `my cookie`, which is not
a valid cookie name, a request without cookies gets no cookie added to the response,
while a state is published to the wrapped handler. -/
theorem CSRFHandler_no_cookie_counterexample :
    (∀ c ∈ (Sample.loginRequest []).Cookies, c.Name ≠ Sample.spacedCookieConfig.Name) ∧
    http.isCookieNameValid Sample.spacedCookieConfig.Name = false ∧
    (CSRFHandler Sample.spacedCookieConfig (record "success") Sample.world
        (Sample.loginRequest [])).cookies = [] ∧
    (CSRFHandler Sample.spacedCookieConfig (record "success") Sample.world
        (Sample.loginRequest [])).calls
      = [("success", WithState [] "BwcHBwcHBwcHBwcHBwcHBwcHBwcHBwcHBwcHBwcHBwc")] := by
  refine ⟨by decide, by decide, by decide, by decide⟩

/-- C9, amended: for a request carrying no cookie named `config.Name`, when
`config.Name` is a valid cookie name, the handler adds exactly one cookie to the
response, whose value is the freshly generated state `randomState()`, and the wrapped
handler is invoked, once, with a context from which `StateFromContext` yields that
cookie's value. -/
theorem CSRFHandler_no_cookie (config : gologin.CookieConfig) (success : http.Handler)
    (w : World) (req : http.Request) (h : ∀ c ∈ req.Cookies, c.Name ≠ config.Name)
    (hname : http.isCookieNameValid config.Name = true) :
    ∃ cookie w1, cookie.Name = config.Name ∧ cookie.Value = (randomState w).1 ∧
      w1.cookies = w.cookies ++ [cookie] ∧
      CSRFHandler config success w req
        = success w1 (req.WithContext (WithState req.Context cookie.Value)) ∧
      StateFromContext (WithState req.Context cookie.Value) = (cookie.Value, none) ∧
      (CSRFHandler config (record "success") w req).cookies = w.cookies ++ [cookie] ∧
      (CSRFHandler config (record "success") w req).calls
        = w.calls ++ [("success", WithState req.Context cookie.Value)] := by
  have hc := Cookie_of_absent req config.Name h
  have hrun : ∀ k : http.Handler, CSRFHandler config k w req
      = k (http.SetCookie (randomState w).2 (internal.NewCookie config (randomState w).1))
          (req.WithContext (WithState req.Context (randomState w).1)) := by
    intro k
    simp [CSRFHandler, hc]
  have hset : http.SetCookie (randomState w).2 (internal.NewCookie config (randomState w).1)
      = { (randomState w).2 with
          cookies := w.cookies ++ [internal.NewCookie config (randomState w).1] } :=
    SetCookie_of_valid _ _ hname
  refine ⟨internal.NewCookie config (randomState w).1,
    http.SetCookie (randomState w).2 (internal.NewCookie config (randomState w).1),
    rfl, rfl, by rw [hset], hrun success, rfl, ?_, ?_⟩
  · rw [hrun, hset]
    rfl
  · rw [hrun, hset]
    rfl

/-- Witness of C9: a request without cookies. -/
theorem CSRFHandler_no_cookie_witness :
    ∃ cookie w1, cookie.Name = Sample.cookieConfig.Name ∧
      cookie.Value = (randomState Sample.world).1 ∧
      w1.cookies = Sample.world.cookies ++ [cookie] ∧
      CSRFHandler Sample.cookieConfig (record "success") Sample.world (Sample.loginRequest [])
        = record "success" w1 ((Sample.loginRequest []).WithContext
            (WithState (Sample.loginRequest []).Context cookie.Value)) ∧
      StateFromContext (WithState (Sample.loginRequest []).Context cookie.Value)
        = (cookie.Value, none) ∧
      (CSRFHandler Sample.cookieConfig (record "success") Sample.world
          (Sample.loginRequest [])).cookies = Sample.world.cookies ++ [cookie] ∧
      (CSRFHandler Sample.cookieConfig (record "success") Sample.world
          (Sample.loginRequest [])).calls
        = Sample.world.calls ++
            [("success", WithState (Sample.loginRequest []).Context cookie.Value)] :=
  CSRFHandler_no_cookie Sample.cookieConfig (record "success") Sample.world
    (Sample.loginRequest []) (by decide) (by decide)

/-- C10: for a request carrying a cookie named `config.Name`, the handler adds no
cookie to the response and invokes the wrapped handler, once and on the untouched
world, with a context from which `StateFromContext` yields the value of that request
cookie (the one `req.Cookie` returns) unchanged. -/
theorem CSRFHandler_cookie (config : gologin.CookieConfig) (success : http.Handler)
    (w : World) (req : http.Request) (h : ∃ c ∈ req.Cookies, c.Name = config.Name) :
    ∃ cookie, req.Cookie config.Name = .ok cookie ∧ cookie ∈ req.Cookies ∧
      cookie.Name = config.Name ∧
      CSRFHandler config success w req
        = success w (req.WithContext (WithState req.Context cookie.Value)) ∧
      StateFromContext (WithState req.Context cookie.Value) = (cookie.Value, none) ∧
      (CSRFHandler config (record "success") w req).cookies = w.cookies ∧
      (CSRFHandler config (record "success") w req).calls
        = w.calls ++ [("success", WithState req.Context cookie.Value)] := by
  obtain ⟨cookie, hc, hmem, hname⟩ := Cookie_of_present req config.Name h
  have hrun : ∀ k : http.Handler, CSRFHandler config k w req
      = k w (req.WithContext (WithState req.Context cookie.Value)) := by
    intro k
    simp [CSRFHandler, hc]
  refine ⟨cookie, hc, hmem, hname, hrun success, rfl, ?_, ?_⟩
  · rw [hrun]
    rfl
  · rw [hrun]
    rfl

/-- Witness of C10: the state cookie with value `abc` comes with the request. -/
theorem CSRFHandler_cookie_witness :
    (CSRFHandler Sample.cookieConfig (record "success") Sample.world
        (Sample.loginRequest [internal.NewCookie Sample.cookieConfig "abc"])).cookies = [] ∧
    (CSRFHandler Sample.cookieConfig (record "success") Sample.world
        (Sample.loginRequest [internal.NewCookie Sample.cookieConfig "abc"])).calls
      = [("success", WithState [] "abc")] := by
  obtain ⟨cookie, hc, _, _, _, _, h1, h2⟩ :=
    CSRFHandler_cookie Sample.cookieConfig (record "success") Sample.world
      (Sample.loginRequest [internal.NewCookie Sample.cookieConfig "abc"])
      ⟨internal.NewCookie Sample.cookieConfig "abc", by decide, by decide⟩
  have hv : cookie = internal.NewCookie Sample.cookieConfig "abc" := by
    have h0 : (Sample.loginRequest [internal.NewCookie Sample.cookieConfig "abc"]).Cookie
        Sample.cookieConfig.Name = .ok (internal.NewCookie Sample.cookieConfig "abc") := by
      decide
    rw [h0] at hc
    cases hc
    rfl
  subst hv
  exact ⟨h1, h2⟩

end oauth2

/-! ## The claims on the Login Stage -/

namespace url

theorem Values.Get_filter_ne (v : Values) (k key : String) (h : key ≠ k) :
    Values.Get (v.filter (fun kv => kv.1 ≠ k)) key = Values.Get v key := by
  induction v with
  | nil => rfl
  | cons kv rest ih =>
    obtain ⟨k0, vs⟩ := kv
    have ih2 : Get (List.filter (fun kv => !decide (kv.1 = k)) rest) key = Get rest key := by
      simpa using ih
    by_cases hk : k0 = k
    · subst hk
      have hne : ¬ k0 = key := fun e => h e.symm
      simp [List.filter, Values.Get, hne, ih2]
    · simp [List.filter, Values.Get, hk, ih2]

theorem Values.Get_Set_same (v : Values) (k x : String) : (v.Set k x).Get k = x := by
  simp [Values.Set, Values.Get]

theorem Values.Get_Set_ne (v : Values) (k x key : String) (h : key ≠ k) :
    (v.Set k x).Get key = v.Get key := by
  have hne : ¬ k = key := fun e => h e.symm
  have hf := Values.Get_filter_ne v k key h
  simp only [Values.Set, Values.Get, hne, if_false]
  exact hf

theorem Values.Get_append_of_absent (a b : Values) (key : String)
    (h : ∀ kv ∈ a, kv.1 ≠ key) : Values.Get (a ++ b) key = Values.Get b key := by
  induction a with
  | nil => rfl
  | cons kv rest ih =>
    obtain ⟨k, vs⟩ := kv
    have hk : ¬ k = key := h (k, vs) (by simp)
    have ih2 := ih (fun x hx => h x (by simp [hx]))
    simp only [List.cons_append, Values.Get, hk, if_false]
    exact ih2

theorem Values.filter_of_absent (a : Values) (key : String) (h : ∀ kv ∈ a, kv.1 ≠ key) :
    a.filter (fun kv => kv.1 = key) = [] := by
  rw [List.filter_eq_nil_iff]
  intro kv hkv
  simpa using h kv hkv

theorem Values.filter_Set_same (v : Values) (k x : String) :
    (v.Set k x).filter (fun kv => kv.1 = k) = [(k, [x])] := by
  have h : (v.filter (fun kv => kv.1 ≠ k)).filter (fun kv => kv.1 = k) = [] := by
    rw [List.filter_eq_nil_iff]
    intro kv hkv
    have := (List.mem_filter.1 hkv).2
    simpa using this
  simp only [Values.Set, List.filter_cons, decide_True, if_true, h]

theorem Values.filter_Set_ne (v : Values) (k x key : String) (h : k ≠ key) :
    (v.Set k x).filter (fun kv => kv.1 = key) = v.filter (fun kv => kv.1 = key) := by
  have hk : ¬ k = key := h
  simp only [Values.Set, List.filter_cons, hk, decide_False, List.filter_filter]
  apply List.filter_congr
  intro kv _
  by_cases hkv : kv.1 = key
  · have : ¬ key = k := fun e => h e.symm
    simp [hkv, this]
  · simp [hkv]

end url

namespace xoauth2

theorem foldl_setValue_filter (opts : List AuthCodeOption) (v : url.Values) (key : String)
    (h : ∀ o ∈ opts, o.k ≠ key) :
    (opts.foldl (fun v opt => opt.setValue v) v).filter (fun kv => kv.1 = key)
      = v.filter (fun kv => kv.1 = key) := by
  induction opts generalizing v with
  | nil => rfl
  | cons o rest ih =>
    rw [List.foldl_cons, ih _ (fun o2 h2 => h o2 (List.mem_cons_of_mem _ h2))]
    exact url.Values.filter_Set_ne v o.k o.v key (h o (List.mem_cons_self _ _))

theorem foldl_setValue_Get (opts : List AuthCodeOption) (v : url.Values) (key : String)
    (h : ∀ o ∈ opts, o.k ≠ key) :
    (opts.foldl (fun v opt => opt.setValue v) v).Get key = v.Get key := by
  induction opts generalizing v with
  | nil => rfl
  | cons o rest ih =>
    rw [List.foldl_cons, ih _ (fun o2 h2 => h o2 (List.mem_cons_of_mem _ h2))]
    exact url.Values.Get_Set_ne v o.k o.v key (fun e => h o (List.mem_cons_self _ _) e.symm)

theorem AuthCodeURL_state (c : Config) (s : String) (opts : List AuthCodeOption)
    (h : ∀ o ∈ opts, o.k ≠ "state") (hq : ∀ kv ∈ c.AuthURL.query, kv.1 ≠ "state")
    (hf : c.AuthURL.fragment = none) :
    (c.AuthCodeURL s opts).query.Get "state" = s := by
  unfold Config.AuthCodeURL
  simp only [hf]
  rw [url.Values.Get_append_of_absent _ _ _ hq, foldl_setValue_Get opts _ "state" h]
  by_cases hs : s = ""
  · subst hs
    split_ifs <;> simp [url.Values.Get_Set_ne, url.Values.Get]
  · rw [if_pos hs]
    exact url.Values.Get_Set_same _ _ _

/-- The `state` parameters of the URL: the one that was set, when neither the options
nor the authorization endpoint bring one. -/
theorem AuthCodeURL_state_only (c : Config) (s : String) (opts : List AuthCodeOption)
    (h : ∀ o ∈ opts, o.k ≠ "state") (hq : ∀ kv ∈ c.AuthURL.query, kv.1 ≠ "state")
    (hf : c.AuthURL.fragment = none) :
    (c.AuthCodeURL s opts).query.filter (fun kv => kv.1 = "state")
      = if s = "" then [] else [("state", [s])] := by
  unfold Config.AuthCodeURL
  simp only [hf]
  rw [List.filter_append, url.Values.filter_of_absent _ _ hq, List.nil_append,
    foldl_setValue_filter opts _ "state" h]
  by_cases hs : s = ""
  · subst hs
    rw [if_pos rfl, if_neg (fun hx : "" ≠ "" => hx rfl)]
    split_ifs <;> simp [url.Values.filter_Set_ne, List.filter]
  · rw [if_pos hs, if_neg hs]
    exact url.Values.filter_Set_same _ _ _

end xoauth2

namespace oauth2

@[simp] theorem record_location (name : String) (w : World) (req : http.Request) :
    (record name w req).location = w.location := rfl

@[simp] theorem record_status (name : String) (w : World) (req : http.Request) :
    (record name w req).status = w.status := rfl

theorem LoginHandler_of_state (config : xoauth2.Config) (failure : Option http.Handler)
    (opts : List xoauth2.AuthCodeOption) (w : World) (req : http.Request) (s : String)
    (h : StateFromContext req.Context = (s, none)) :
    LoginHandler config failure opts w req
      = http.Redirect w req (config.AuthCodeURL s opts) http.StatusFound := by
  cases failure <;> simp [LoginHandler, h]

theorem LoginHandler_of_error (config : xoauth2.Config) (failure : Option http.Handler)
    (opts : List xoauth2.AuthCodeOption) (w : World) (req : http.Request) (s : String)
    (err : GoError) (h : StateFromContext req.Context = (s, some err)) :
    LoginHandler config failure opts w req
      = (failure.getD gologin.DefaultFailureHandler) w
          (req.WithContext (gologin.WithError req.Context err)) := by
  cases failure <;> simp [LoginHandler, h]

/-- Counterexample to C11 as stated: the context carries the state `abc`, the
handler was built with the option `SetAuthURLParam("state", "fixed")`, and the
`state` parameter of the 302 redirect is `fixed`.  Likewise, without options but
with the authorization endpoint `https://p.example/auth?state=evil`, the first
`state` parameter of the redirect is `evil`. -/
theorem LoginHandler_state_counterexample :
    StateFromContext ((Sample.loginRequest []).WithContext (WithState [] "abc")).Context
      = ("abc", none) ∧
    (LoginHandler Sample.config none [xoauth2.SetAuthURLParam "state" "fixed"] Sample.world
        ((Sample.loginRequest []).WithContext (WithState [] "abc"))).status = some 302 ∧
    ((LoginHandler Sample.config none [xoauth2.SetAuthURLParam "state" "fixed"] Sample.world
        ((Sample.loginRequest []).WithContext (WithState [] "abc"))).location.map
          (fun u => u.query.Get "state")) = some "fixed" ∧
    ((LoginHandler Sample.configWithQuery none [] Sample.world
        ((Sample.loginRequest []).WithContext (WithState [] "abc"))).location.map
          (fun u => u.query.Get "state")) = some "evil" := by
  decide

/-- C11, amended: for a request whose context carries a state value `s`, the handler
answers with status 302 and the `Location` `config.AuthCodeURL(s, opts...)`, and
does nothing else, the failure handler not being invoked; provided no option in
`opts` sets the `state` parameter and the authorization endpoint has no `state`
parameter in a query of its own and no fragment, the `state` parameter of that URL
equals `s`: the URL has the one parameter `state=s`, or none when `s` is empty. -/
theorem LoginHandler_redirect (config : xoauth2.Config) (failure : Option http.Handler)
    (opts : List xoauth2.AuthCodeOption) (w : World) (req : http.Request) (s : String)
    (h : StateFromContext req.Context = (s, none)) :
    LoginHandler config failure opts w req
      = { w with location := some (config.AuthCodeURL s opts), status := some 302 } ∧
    ((∀ o ∈ opts, o.k ≠ "state") → (∀ kv ∈ config.AuthURL.query, kv.1 ≠ "state") →
      config.AuthURL.fragment = none →
      (config.AuthCodeURL s opts).query.Get "state" = s ∧
      (config.AuthCodeURL s opts).query.filter (fun kv => kv.1 = "state")
        = if s = "" then [] else [("state", [s])]) ∧
    (LoginHandler config (some (record "failure")) opts w req).calls = w.calls := by
  refine ⟨LoginHandler_of_state config failure opts w req s h,
    fun ho hq hf => ⟨xoauth2.AuthCodeURL_state config s opts ho hq hf,
      xoauth2.AuthCodeURL_state_only config s opts ho hq hf⟩, ?_⟩
  rw [LoginHandler_of_state config _ opts w req s h]
  rfl

/-- Witness of C11, amended: the state `abc` and the option `access_type=offline`. -/
theorem LoginHandler_redirect_witness :
    (LoginHandler Sample.config none [xoauth2.SetAuthURLParam "access_type" "offline"]
        Sample.world ((Sample.loginRequest []).WithContext (WithState [] "abc"))).status
      = some 302 ∧
    (Sample.config.AuthCodeURL "abc"
        [xoauth2.SetAuthURLParam "access_type" "offline"]).query.Get "state" = "abc" ∧
    (Sample.config.AuthCodeURL "abc"
        [xoauth2.SetAuthURLParam "access_type" "offline"]).query.filter
          (fun kv => kv.1 = "state") = [("state", ["abc"])] :=
  have h := LoginHandler_redirect Sample.config none
    [xoauth2.SetAuthURLParam "access_type" "offline"] Sample.world
    ((Sample.loginRequest []).WithContext (WithState [] "abc")) "abc" (by decide)
  ⟨by rw [h.1], (h.2.1 (by decide) (by decide) rfl).1, (h.2.1 (by decide) (by decide) rfl).2⟩

/-- C12: for a request whose context carries no state value, the handler hands the
request to the failure handler with the error slot set to the missing-state error
that `StateFromContext` returns, on the untouched world: no redirect is issued. -/
theorem LoginHandler_no_state (config : xoauth2.Config) (failure : Option http.Handler)
    (opts : List xoauth2.AuthCodeOption) (w : World) (req : http.Request)
    (h : context.Value req.Context context.Key.oauth2State = none) :
    ∃ err, (StateFromContext req.Context).2 = some err ∧
      LoginHandler config failure opts w req
        = (failure.getD gologin.DefaultFailureHandler) w
            (req.WithContext (gologin.WithError req.Context err)) ∧
      gologin.errorSlot (gologin.WithError req.Context err) = some err ∧
      (LoginHandler config (some (record "failure")) opts w req).calls
        = w.calls ++ [("failure", gologin.WithError req.Context err)] ∧
      (LoginHandler config (some (record "failure")) opts w req).location = w.location ∧
      (LoginHandler config (some (record "failure")) opts w req).status = w.status := by
  have hs : StateFromContext req.Context = ("", some ErrMissingState) := by
    simp [StateFromContext, h]
  refine ⟨ErrMissingState, by rw [hs], LoginHandler_of_error config failure opts w req _ _ hs,
    rfl, ?_, ?_, ?_⟩ <;>
  · rw [LoginHandler_of_error config _ opts w req _ _ hs]
    simp

/-- Witness of C12: a login request with the empty context. -/
theorem LoginHandler_no_state_witness :
    ∃ err, (StateFromContext (Sample.loginRequest []).Context).2 = some err ∧
      (LoginHandler Sample.config (some (record "failure")) [] Sample.world
          (Sample.loginRequest [])).calls = [("failure", gologin.WithError [] err)] ∧
      (LoginHandler Sample.config (some (record "failure")) [] Sample.world
          (Sample.loginRequest [])).location = none :=
  have ⟨err, h1, _, _, h4, h5, _⟩ := LoginHandler_no_state Sample.config
    (some (record "failure")) [] Sample.world (Sample.loginRequest []) (by decide)
  ⟨err, h1, h4, h5⟩

end oauth2

/-! ## The claims on the provider adapters -/

namespace slack

@[simp] theorem record_profileRequests (name : String) (w : World) (req : http.Request) :
    (record name w req).profileRequests = w.profileRequests := rfl

theorem TokenFromContext_absent (ctx : Context)
    (h : context.Value ctx context.Key.oauth2Token = none) :
    oauth2.TokenFromContext ctx = (none, some oauth2.ErrMissingToken) := by
  simp [oauth2.TokenFromContext, h]

theorem TokenFromContext_present (ctx : Context) (token : xoauth2.Token)
    (h : context.Value ctx context.Key.oauth2Token = some (context.Val.token token)) :
    oauth2.TokenFromContext ctx = (some token, none) := by
  simp [oauth2.TokenFromContext, h]

theorem slackHandler_of_error (config : xoauth2.Config) (success : http.Handler)
    (failure : Option http.Handler) (w : World) (req : http.Request)
    (t : Option xoauth2.Token) (err : GoError)
    (h : oauth2.TokenFromContext req.Context = (t, some err)) :
    slackHandler config success failure w req
      = (failure.getD gologin.DefaultFailureHandler) w
          (req.WithContext (gologin.WithError req.Context err)) := by
  cases failure <;> simp [slackHandler, h]

/-- The result of `Profile` never is a nil response together with a nil error. -/
theorem Profile_resp_or_err (c : client) (w : World) :
    (c.Profile w).1.2.1 ≠ none ∨ (c.Profile w).1.2.2 ≠ none := by
  unfold client.Profile
  cases h : w.slackIdentity w.profileRequests.length c.t.AccessToken with
  | failed resp err => right; simp [h]
  | received resp value err => left; simp [h]

theorem Profile_user (c : client) (w : World) : ∃ user, (c.Profile w).1.1 = some user := by
  unfold client.Profile
  cases h : w.slackIdentity w.profileRequests.length c.t.AccessToken <;> exact ⟨_, rfl⟩

theorem validateResponse_total (user : Option User) (resp : Option http.Response)
    (err : Option GoError) (h : resp ≠ none ∨ err ≠ none) :
    validateResponse user resp err = .ok none ∨
      validateResponse user resp err = .ok (some ErrUnableToGetSlackUser) := by
  unfold validateResponse
  cases err with
  | some e => right; rfl
  | none =>
    cases resp with
    | none => simp at h
    | some r =>
      simp only
      split_ifs
      · right; rfl
      · cases user with
        | none => right; rfl
        | some u =>
          simp only
          split_ifs
          · right; rfl
          · left; rfl

/-- C17: `validateResponse(user, resp, err)` returns nil if and only if `err` is nil,
`resp.StatusCode` is 200 and `user` is not nil and has a non-empty `ID`; it returns
`ErrUnableToGetSlackUser` in each other case the claim names: an error, a response
whose status is not 200, a response of status 200 with a nil user or an empty `ID`. -/
theorem validateResponse_spec (user : Option User) (resp : Option http.Response)
    (err : Option GoError) :
    (validateResponse user resp err = .ok none ↔
      (err = none ∧ (∃ r, resp = some r ∧ r.StatusCode = 200) ∧
        ∃ u, user = some u ∧ u.ID ≠ "")) ∧
    (err ≠ none → validateResponse user resp err = .ok (some ErrUnableToGetSlackUser)) ∧
    (∀ r, resp = some r → r.StatusCode ≠ 200 →
      validateResponse user resp err = .ok (some ErrUnableToGetSlackUser)) ∧
    (∀ r, resp = some r → r.StatusCode = 200 → (user = none ∨ ∃ u, user = some u ∧ u.ID = "") →
      validateResponse user resp err = .ok (some ErrUnableToGetSlackUser)) := by
  refine ⟨?_, ?_, ?_, ?_⟩
  · cases err with
    | some e => simp [validateResponse]
    | none =>
      cases resp with
      | none => simp [validateResponse]
      | some r =>
        by_cases hr : r.StatusCode = 200
        · cases user with
          | none => simp [validateResponse, http.StatusOK, hr]
          | some u =>
            by_cases hu : u.ID = "" <;> simp [validateResponse, http.StatusOK, hr, hu]
        · simp [validateResponse, http.StatusOK, hr]
  · intro he
    cases err with
    | some e => rfl
    | none => exact absurd rfl he
  · intro r hr hs
    subst hr
    cases err with
    | some e => rfl
    | none => simp [validateResponse, http.StatusOK, hs]
  · intro r hr hs hu
    subst hr
    cases err with
    | some e => rfl
    | none =>
      rcases hu with hu | ⟨u, hu, hid⟩
      · subst hu
        simp [validateResponse, http.StatusOK, hs]
      · subst hu
        simp [validateResponse, http.StatusOK, hs, hid]

/-- Witness of C17: the four cases of `TestValidateResponse`. -/
theorem validateResponse_spec_witness :
    validateResponse (some { ID := "54638001", Name := "Ivy Crimson" }) (some ⟨200⟩) none
      = .ok none ∧
    validateResponse (some { ID := "54638001", Name := "Ivy Crimson" }) (some ⟨200⟩)
      (some ⟨"Server error"⟩) = .ok (some ErrUnableToGetSlackUser) ∧
    validateResponse (some { ID := "54638001", Name := "Ivy Crimson" }) (some ⟨500⟩) none
      = .ok (some ErrUnableToGetSlackUser) ∧
    validateResponse (some {}) (some ⟨200⟩) none = .ok (some ErrUnableToGetSlackUser) :=
  ⟨(validateResponse_spec (some { ID := "54638001", Name := "Ivy Crimson" }) (some ⟨200⟩)
      none).1.mpr ⟨rfl, ⟨⟨200⟩, rfl, rfl⟩, ⟨_, rfl, by decide⟩⟩,
   (validateResponse_spec (some { ID := "54638001", Name := "Ivy Crimson" }) (some ⟨200⟩)
      (some ⟨"Server error"⟩)).2.1 (by decide),
   (validateResponse_spec (some { ID := "54638001", Name := "Ivy Crimson" }) (some ⟨500⟩)
      none).2.2.1 ⟨500⟩ rfl (by decide),
   (validateResponse_spec (some {}) (some ⟨200⟩) none).2.2.2 ⟨200⟩ rfl rfl
      (Or.inr ⟨{}, rfl, rfl⟩)⟩

end slack

namespace azure

theorem azureHandler_of_error (config : xoauth2.Config) (verifier : oidc.IDTokenVerifier)
    (success : http.Handler) (failure : Option http.Handler) (w : World) (req : http.Request)
    (t : Option xoauth2.Token) (err : GoError)
    (h : oauth2.TokenFromContext req.Context = (t, some err)) :
    azureHandler config verifier success failure w req
      = (failure.getD gologin.DefaultFailureHandler) w
          (req.WithContext (gologin.WithError req.Context err)) := by
  cases failure <;> simp [azureHandler, h]

end azure

namespace slack

/-- C18: for a request whose context carries no OAuth2 token, `slackHandler` and
likewise `azureHandler` hand the request to the failure handler with the error slot
set to the error of `TokenFromContext`, whose text is "oauth2: Context missing
Token", on the untouched world: the success handler is not invoked and no profile
request is made. -/
theorem slackHandler_missing_token (config : xoauth2.Config) (verifier : oidc.IDTokenVerifier)
    (success : http.Handler) (failure : Option http.Handler) (w : World) (req : http.Request)
    (h : context.Value req.Context context.Key.oauth2Token = none) :
    ∃ err, (oauth2.TokenFromContext req.Context).2 = some err ∧
      err.msg = "oauth2: Context missing Token" ∧
      gologin.errorSlot (gologin.WithError req.Context err) = some err ∧
      slackHandler config success failure w req
        = (failure.getD gologin.DefaultFailureHandler) w
            (req.WithContext (gologin.WithError req.Context err)) ∧
      azure.azureHandler config verifier success failure w req
        = (failure.getD gologin.DefaultFailureHandler) w
            (req.WithContext (gologin.WithError req.Context err)) ∧
      (slackHandler config (record "success") (some (record "failure")) w req).calls
        = w.calls ++ [("failure", gologin.WithError req.Context err)] ∧
      (slackHandler config (record "success") (some (record "failure")) w req).profileRequests
        = w.profileRequests ∧
      (azure.azureHandler config verifier (record "success") (some (record "failure"))
          w req).calls
        = w.calls ++ [("failure", gologin.WithError req.Context err)] := by
  have ht := TokenFromContext_absent req.Context h
  refine ⟨oauth2.ErrMissingToken, by rw [ht], rfl, rfl,
    slackHandler_of_error config success failure w req _ _ ht,
    azure.azureHandler_of_error config verifier success failure w req _ _ ht, ?_, ?_, ?_⟩
  · rw [slackHandler_of_error config _ _ w req _ _ ht]
    simp
  · rw [slackHandler_of_error config _ _ w req _ _ ht]
    simp
  · rw [azure.azureHandler_of_error config verifier _ _ w req _ _ ht]
    simp

/-- Witness of C18: the request of the tests, with the empty context. -/
theorem slackHandler_missing_token_witness :
    ∃ err, err.msg = "oauth2: Context missing Token" ∧
      (slackHandler Sample.config (record "success") (some (record "failure")) Sample.world
          (Sample.loginRequest [])).calls = [("failure", gologin.WithError [] err)] ∧
      (slackHandler Sample.config (record "success") (some (record "failure")) Sample.world
          (Sample.loginRequest [])).profileRequests = [] ∧
      (azure.azureHandler Sample.config ⟨fun _ _ => .error ⟨"no keys"⟩⟩ (record "success")
          (some (record "failure")) Sample.world (Sample.loginRequest [])).calls
        = [("failure", gologin.WithError [] err)] :=
  have ⟨err, _, h2, _, _, _, h6, h7, h8⟩ := slackHandler_missing_token Sample.config
    ⟨fun _ _ => .error ⟨"no keys"⟩⟩ (record "success") (some (record "failure"))
    Sample.world (Sample.loginRequest []) (by decide)
  ⟨err, h2, h6, h7, h8⟩

/-- C19: for a request whose context carries a token, `slackHandler` makes one profile
request; it invokes the success handler exactly when `validateResponse` accepts the
result, and then `UserFromContext` on the context of the success handler returns the
fetched user; otherwise it invokes the failure handler with
`ErrUnableToGetSlackUser`, and the user slot of that context is the one of the
incoming request. -/
theorem slackHandler_token (config : xoauth2.Config) (w : World) (req : http.Request)
    (token : xoauth2.Token)
    (h : context.Value req.Context context.Key.oauth2Token
      = some (context.Val.token token)) :
    ∃ user resp err w1, (newClient token).Profile w = ((some user, resp, err), w1) ∧
      w1.profileRequests = w.profileRequests ++ [token.AccessToken] ∧
      ((∃ ctx, (slackHandler config (record "success") (some (record "failure")) w req).calls
          = w.calls ++ [("success", ctx)]) ↔ validateResponse (some user) resp err = .ok none) ∧
      (validateResponse (some user) resp err = .ok none →
        (∀ (success : http.Handler) (failure : Option http.Handler),
          slackHandler config success failure w req
            = success w1 (req.WithContext (WithUser req.Context (some user)))) ∧
        UserFromContext (WithUser req.Context (some user)) = (some user, none)) ∧
      (validateResponse (some user) resp err ≠ .ok none →
        (∀ (success : http.Handler) (failure : Option http.Handler),
          slackHandler config success failure w req
            = (failure.getD gologin.DefaultFailureHandler) w1
                (req.WithContext (gologin.WithError req.Context ErrUnableToGetSlackUser))) ∧
        gologin.errorSlot (gologin.WithError req.Context ErrUnableToGetSlackUser)
          = some ErrUnableToGetSlackUser ∧
        UserFromContext (gologin.WithError req.Context ErrUnableToGetSlackUser)
          = UserFromContext req.Context) := by
  have ht := TokenFromContext_present req.Context token h
  obtain ⟨user, hu⟩ := Profile_user (newClient token) w
  have hne := Profile_resp_or_err (newClient token) w
  rcases hp : (newClient token).Profile w with ⟨⟨u0, resp, err⟩, w1⟩
  rw [hp] at hu hne
  simp only at hu hne
  subst hu
  have hw1 : w1.profileRequests = w.profileRequests ++ [token.AccessToken] := by
    have : ((newClient token).Profile w).2.profileRequests
        = w.profileRequests ++ [token.AccessToken] := by
      unfold client.Profile
      cases hq : w.slackIdentity w.profileRequests.length (newClient token).t.AccessToken <;>
        rfl
    rw [hp] at this
    exact this
  have hcalls : w1.calls = w.calls := by
    have : ((newClient token).Profile w).2.calls = w.calls := by
      unfold client.Profile
      cases hq : w.slackIdentity w.profileRequests.length (newClient token).t.AccessToken <;>
        rfl
    rw [hp] at this
    exact this
  rcases validateResponse_total (some user) resp err hne with hv | hv
  · have hrun : ∀ (success : http.Handler) (failure : Option http.Handler),
        slackHandler config success failure w req
          = success w1 (req.WithContext (WithUser req.Context (some user))) := by
      intro success failure
      cases failure <;> simp [slackHandler, ht, hp, hv]
    refine ⟨user, resp, err, w1, rfl, hw1,
      ⟨fun _ => hv, fun _ => ⟨WithUser req.Context (some user), ?_⟩⟩,
      fun _ => ⟨hrun, rfl⟩, fun hn => absurd hv hn⟩
    rw [hrun]
    simp [hcalls]
  · have hrun : ∀ (success : http.Handler) (failure : Option http.Handler),
        slackHandler config success failure w req
          = (failure.getD gologin.DefaultFailureHandler) w1
              (req.WithContext (gologin.WithError req.Context ErrUnableToGetSlackUser)) := by
      intro success failure
      cases failure <;> simp [slackHandler, ht, hp, hv]
    have hno : validateResponse (some user) resp err ≠ .ok none := by
      rw [hv]
      simp
    refine ⟨user, resp, err, w1, rfl, hw1, ⟨?_, fun hv2 => absurd hv2 hno⟩,
      fun hv2 => absurd hv2 hno, fun _ => ⟨hrun, rfl, rfl⟩⟩
    rintro ⟨ctx, hc⟩
    rw [hrun] at hc
    simp only [Option.getD_some, oauth2.record_calls, oauth2.WithContext_Context, hcalls] at hc
    exact absurd hc (oauth2.calls_success_ne_failure _ _ _)

/-- Witness of C19: Slack knows the user of the token `tok`. -/
theorem slackHandler_token_witness :
    ∃ ctx, (slackHandler Sample.config (record "success") (some (record "failure"))
        Sample.world ((Sample.loginRequest []).WithContext
          (oauth2.WithToken [] Sample.token))).calls = Sample.world.calls ++ [("success", ctx)] :=
  have ⟨_, _, _, _, hp, _, hiff, _, _⟩ := slackHandler_token Sample.config Sample.world
    ((Sample.loginRequest []).WithContext (oauth2.WithToken [] Sample.token)) Sample.token
    (by decide)
  hiff.mpr (by
    have h0 : (newClient Sample.token).Profile Sample.world
        = ((some { ID := "54638001", Name := "Ivy Crimson" }, some ⟨200⟩, none),
            { Sample.world with profileRequests := ["tok"] }) := rfl
    rw [h0] at hp
    simp only [Prod.mk.injEq, Option.some.injEq] at hp
    obtain ⟨⟨hu, hr, he⟩, _⟩ := hp
    rw [← hu, ← hr, ← he]
    decide)

end slack

namespace azure

/-- C20: `UserFromContext(WithUser(ctx, u))` returns `(u, nil)` for every context and
every user pointer; for a context that holds nothing under the user key of the
package, `UserFromContext` returns a nil user and the error "azure: Context missing
Azure Active Directory User". -/
theorem UserFromContext_WithUser (ctx : Context) (u : Option User) :
    UserFromContext (WithUser ctx u) = (u, none) ∧
    (context.Value ctx context.Key.azureUser = none →
      UserFromContext ctx
        = (none, some ⟨"azure: Context missing Azure Active Directory User"⟩)) := by
  refine ⟨rfl, fun h => ?_⟩
  simp [UserFromContext, h]

/-- Witness of C20: the two tests of `context_test.go`. -/
theorem UserFromContext_WithUser_witness :
    UserFromContext (WithUser context.Background (some { ID := "12", Name := "Gopher" }))
      = (some { ID := "12", Name := "Gopher" }, none) ∧
    UserFromContext context.Background
      = (none, some ⟨"azure: Context missing Azure Active Directory User"⟩) :=
  ⟨(UserFromContext_WithUser context.Background (some { ID := "12", Name := "Gopher" })).1,
   (UserFromContext_WithUser context.Background none).2 rfl⟩

end azure

/-! ## The claims on the Correlation Token Generator -/

namespace base64

theorem enc_mod (i : Nat) : enc i = enc (i % 64) := by
  simp [enc, Nat.mod_mod]

set_option maxRecDepth 100000 in
theorem decodeMap_enc_lt : ∀ j, j < 64 → decodeMap (enc j) = some j := by
  decide

theorem decodeMap_enc (i : Nat) : decodeMap (enc i) = some (i % 64) := by
  rw [enc_mod]
  exact decodeMap_enc_lt _ (Nat.mod_lt _ (by decide))

/-- A character of the URL-safe alphabet: a letter, a digit, `-` or `_`. -/
theorem enc_urlSafe (i : Nat) :
    ((enc i).isAlphanum = true ∨ enc i = '-' ∨ enc i = '_') ∧
    enc i ≠ '=' ∧ enc i ≠ '+' ∧ enc i ≠ '/' ∧ enc i ≠ '\n' ∧ enc i ≠ '\r' := by
  have h : ∀ j, j < 64 → (((enc j).isAlphanum = true ∨ enc j = '-' ∨ enc j = '_') ∧
      enc j ≠ '=' ∧ enc j ≠ '+' ∧ enc j ≠ '/' ∧ enc j ≠ '\n' ∧ enc j ≠ '\r') := by
    decide
  rw [enc_mod]
  exact h _ (Nat.mod_lt _ (by decide))

theorem quantum4 (b0 b1 b2 : Nat) (h0 : b0 < 256) (h1 : b1 < 256) (h2 : b2 < 256) :
    quantum ((b0 * 65536 + b1 * 256 + b2) / 262144 % 64)
      ((b0 * 65536 + b1 * 256 + b2) / 4096 % 64) ((b0 * 65536 + b1 * 256 + b2) / 64 % 64)
      ((b0 * 65536 + b1 * 256 + b2) % 64) 4 = [b0, b1, b2] := by
  simp only [quantum, List.take]
  refine congrArg₂ _ (by omega) (congrArg₂ _ (by omega) (congrArg₂ _ (by omega) rfl))

theorem quantum3 (b0 b1 : Nat) (h0 : b0 < 256) (h1 : b1 < 256) :
    quantum ((b0 * 65536 + b1 * 256) / 262144 % 64) ((b0 * 65536 + b1 * 256) / 4096 % 64)
      ((b0 * 65536 + b1 * 256) / 64 % 64) 0 3 = [b0, b1] := by
  simp only [quantum, List.take]
  refine congrArg₂ _ (by omega) (congrArg₂ _ (by omega) rfl)

theorem quantum2 (b0 : Nat) (h0 : b0 < 256) :
    quantum (b0 * 65536 / 262144 % 64) (b0 * 65536 / 4096 % 64) 0 0 2 = [b0] := by
  simp only [quantum, List.take]
  refine congrArg₂ _ (by omega) rfl

/-- Decoding without padding undoes `encodeChars` on bytes. -/
theorem decodeQuanta_encodeChars (l : List Nat) (h : ∀ x ∈ l, x < 256) :
    decodeQuanta none (encodeChars l) = (l, none) := by
  induction l using encodeChars.induct with
  | case1 => rfl
  | case2 b0 =>
    have h0 := h b0 (by simp)
    simp [encodeChars, decodeQuanta, decodeMap_enc, quantum2 b0 h0]
  | case3 b0 b1 =>
    have h0 := h b0 (by simp)
    have h1 := h b1 (by simp)
    simp [encodeChars, decodeQuanta, decodeMap_enc, quantum3 b0 b1 h0 h1]
  | case4 b0 b1 b2 rest ih =>
    have h0 := h b0 (by simp)
    have h1 := h b1 (by simp)
    have h2 := h b2 (by simp)
    have ih2 := ih (fun x hx => h x (by simp [hx]))
    simp [encodeChars, decodeQuanta, decodeMap_enc, quantum4 b0 b1 b2 h0 h1 h2, ih2]

theorem decodeMap_pad : decodeMap '=' = none := by decide

/-- Decoding with padding undoes `encodeCharsPadded` on bytes. -/
theorem decodeQuanta_encodeCharsPadded (l : List Nat) (h : ∀ x ∈ l, x < 256) :
    decodeQuanta (some '=') (encodeCharsPadded l) = (l, none) := by
  induction l using encodeCharsPadded.induct with
  | case1 => rfl
  | case2 b0 =>
    have h0 := h b0 (by simp)
    simp [encodeCharsPadded, decodeQuanta, decodeMap_enc, decodeMap_pad, quantum2 b0 h0]
  | case3 b0 b1 =>
    have h0 := h b0 (by simp)
    have h1 := h b1 (by simp)
    simp [encodeCharsPadded, decodeQuanta, decodeMap_enc, decodeMap_pad, quantum3 b0 b1 h0 h1]
  | case4 b0 b1 b2 rest ih =>
    have h0 := h b0 (by simp)
    have h1 := h b1 (by simp)
    have h2 := h b2 (by simp)
    have ih2 := ih (fun x hx => h x (by simp [hx]))
    simp [encodeCharsPadded, decodeQuanta, decodeMap_enc, quantum4 b0 b1 b2 h0 h1 h2, ih2]

theorem encodeChars_mem (l : List Nat) : ∀ c ∈ encodeChars l, ∃ i, c = enc i := by
  induction l using encodeChars.induct with
  | case1 => simp [encodeChars]
  | case2 b0 =>
    intro c hc
    simp only [encodeChars, List.mem_cons, List.mem_singleton, List.not_mem_nil, or_false] at hc
    rcases hc with rfl | rfl <;> exact ⟨_, rfl⟩
  | case3 b0 b1 =>
    intro c hc
    simp only [encodeChars, List.mem_cons, List.mem_singleton, List.not_mem_nil, or_false] at hc
    rcases hc with rfl | rfl | rfl <;> exact ⟨_, rfl⟩
  | case4 b0 b1 b2 rest ih =>
    intro c hc
    simp only [encodeChars, List.mem_cons] at hc
    rcases hc with rfl | rfl | rfl | rfl | hc
    · exact ⟨_, rfl⟩
    · exact ⟨_, rfl⟩
    · exact ⟨_, rfl⟩
    · exact ⟨_, rfl⟩
    · exact ih c hc

theorem encodeCharsPadded_mem (l : List Nat) :
    ∀ c ∈ encodeCharsPadded l, (∃ i, c = enc i) ∨ c = '=' := by
  induction l using encodeCharsPadded.induct with
  | case1 => simp [encodeCharsPadded]
  | case2 b0 =>
    intro c hc
    simp only [encodeCharsPadded, List.mem_cons, List.mem_singleton, List.not_mem_nil,
      or_false] at hc
    rcases hc with rfl | rfl | rfl | rfl
    · exact Or.inl ⟨_, rfl⟩
    · exact Or.inl ⟨_, rfl⟩
    · exact Or.inr rfl
    · exact Or.inr rfl
  | case3 b0 b1 =>
    intro c hc
    simp only [encodeCharsPadded, List.mem_cons, List.mem_singleton, List.not_mem_nil,
      or_false] at hc
    rcases hc with rfl | rfl | rfl | rfl
    · exact Or.inl ⟨_, rfl⟩
    · exact Or.inl ⟨_, rfl⟩
    · exact Or.inl ⟨_, rfl⟩
    · exact Or.inr rfl
  | case4 b0 b1 b2 rest ih =>
    intro c hc
    simp only [encodeCharsPadded, List.mem_cons] at hc
    rcases hc with rfl | rfl | rfl | rfl | hc
    · exact Or.inl ⟨_, rfl⟩
    · exact Or.inl ⟨_, rfl⟩
    · exact Or.inl ⟨_, rfl⟩
    · exact Or.inl ⟨_, rfl⟩
    · exact ih c hc

theorem encodeChars_length (l : List Nat) :
    (encodeChars l).length = (l.length * 4 + 2) / 3 := by
  induction l using encodeChars.induct with
  | case1 => rfl
  | case2 b0 => simp [encodeChars]
  | case3 b0 b1 => simp [encodeChars]
  | case4 b0 b1 b2 rest ih =>
    simp only [encodeChars, List.length_cons, ih]
    omega

theorem filter_noBreak (l : List Char) (h : ∀ c ∈ l, c ≠ '\n' ∧ c ≠ '\r') :
    l.filter (fun c => c ≠ '\n' ∧ c ≠ '\r') = l := by
  rw [List.filter_eq_self]
  intro c hc
  simpa using h c hc

/-- `RawURLEncoding.DecodeString` undoes `RawURLEncoding.EncodeToString` on bytes. -/
theorem RawURLEncoding_roundtrip (l : List Nat) (h : ∀ x ∈ l, x < 256) :
    RawURLEncoding.DecodeString (RawURLEncoding.EncodeToString l) = (l, none) := by
  unfold RawURLEncoding.DecodeString decodeString RawURLEncoding.EncodeToString
  have hf : (String.mk (encodeChars l)).toList = encodeChars l := rfl
  rw [hf, filter_noBreak, decodeQuanta_encodeChars l h]
  intro c hc
  obtain ⟨i, rfl⟩ := encodeChars_mem l c hc
  exact ⟨(enc_urlSafe i).2.2.2.2.1, (enc_urlSafe i).2.2.2.2.2⟩

/-- `URLEncoding.DecodeString` undoes `URLEncoding.EncodeToString` on bytes. -/
theorem URLEncoding_roundtrip (l : List Nat) (h : ∀ x ∈ l, x < 256) :
    URLEncoding.DecodeString (URLEncoding.EncodeToString l) = (l, none) := by
  unfold URLEncoding.DecodeString decodeString URLEncoding.EncodeToString
  have hf : (String.mk (encodeCharsPadded l)).toList = encodeCharsPadded l := rfl
  rw [hf, filter_noBreak, decodeQuanta_encodeCharsPadded l h]
  intro c hc
  rcases encodeCharsPadded_mem l c hc with ⟨i, rfl⟩ | rfl
  · exact ⟨(enc_urlSafe i).2.2.2.2.1, (enc_urlSafe i).2.2.2.2.2⟩
  · decide

end base64

namespace rand

theorem Read_length (b : List Nat) (w : World) : (Read b w).1.length = b.length := by
  simp only [Read, List.length_append, List.length_map, List.length_take, List.length_drop]
  omega

theorem Read_bytes (b : List Nat) (w : World) (hb : ∀ x ∈ b, x < 256) :
    ∀ x ∈ (Read b w).1, x < 256 := by
  intro x hx
  simp only [Read, List.mem_append, List.mem_map] at hx
  rcases hx with ⟨y, _, rfl⟩ | hx
  · exact Nat.mod_lt _ (by decide)
  · exact hb x (List.mem_of_mem_drop hx)

end rand

namespace oauth2

/-- C15: `randomState` returns the unpadded URL-safe base64 encoding of the 32 bytes
of its buffer; and for every 32 bytes that encoding has exactly 43 characters, each
a letter, a digit, `-` or `_` (none is `=`, `+` or `/`), and decoding it with the
same encoding returns the 32 bytes. -/
theorem randomState_encoding (w : World) :
    (∃ b : List Nat, (rand.Read (List.replicate 32 0) w).1 = b ∧ b.length = 32 ∧
      (∀ x ∈ b, x < 256) ∧ (randomState w).1 = base64.RawURLEncoding.EncodeToString b) ∧
    (∀ b : List Nat, b.length = 32 → (∀ x ∈ b, x < 256) →
      (base64.RawURLEncoding.EncodeToString b).length = 43 ∧
      (∀ c ∈ (base64.RawURLEncoding.EncodeToString b).toList,
        (c.isAlphanum = true ∨ c = '-' ∨ c = '_') ∧ c ≠ '=' ∧ c ≠ '+' ∧ c ≠ '/') ∧
      base64.RawURLEncoding.DecodeString (base64.RawURLEncoding.EncodeToString b)
        = (b, none)) := by
  constructor
  · refine ⟨_, rfl, ?_, ?_, rfl⟩
    · rw [rand.Read_length]
      rfl
    · apply rand.Read_bytes
      intro x hx
      rw [List.mem_replicate] at hx
      omega
  · intro b hlen hb
    refine ⟨?_, ?_, base64.RawURLEncoding_roundtrip b hb⟩
    · show (base64.encodeChars b).length = 43
      rw [base64.encodeChars_length, hlen]
    · intro c hc
      obtain ⟨i, rfl⟩ := base64.encodeChars_mem b c hc
      exact ⟨(base64.enc_urlSafe i).1, (base64.enc_urlSafe i).2.1, (base64.enc_urlSafe i).2.2.1,
        (base64.enc_urlSafe i).2.2.2.1⟩

/-- Witness of C15: the state generated in the sample world, from 32 bytes of value 7. -/
theorem randomState_encoding_witness :
    (randomState Sample.world).1 = "BwcHBwcHBwcHBwcHBwcHBwcHBwcHBwcHBwcHBwcHBwc" ∧
    (randomState Sample.world).1.length = 43 ∧
    base64.RawURLEncoding.DecodeString (randomState Sample.world).1
      = (List.replicate 32 7, none) := by
  have h := (randomState_encoding Sample.world).2 (List.replicate 32 7) (by decide) (by decide)
  have hs : (randomState Sample.world).1
      = base64.RawURLEncoding.EncodeToString (List.replicate 32 7) := by decide
  rw [hs]
  exact ⟨by decide, h.1, h.2.2⟩

/-- Evaluation for C16: when the read of the random source fails without delivering
a byte, `randomState` returns the encoding of the 32 zero bytes of the unfilled
buffer, and `CSRFHandler` sets a cookie with that value and publishes it as the
state to the wrapped handler; no error is written to the response. -/
theorem randomState_read_failure :
    (rand.Read (List.replicate 32 0) Sample.worldWithoutEntropy).2.2.1
      = some ⟨"unexpected EOF"⟩ ∧
    (randomState Sample.worldWithoutEntropy).1
      = "AAAAAAAAAAAAAAAAAAAAAAAAAAAAAAAAAAAAAAAAAAA" ∧
    (CSRFHandler Sample.cookieConfig (record "success") Sample.worldWithoutEntropy
        (Sample.loginRequest [])).cookies
      = [internal.NewCookie Sample.cookieConfig
          "AAAAAAAAAAAAAAAAAAAAAAAAAAAAAAAAAAAAAAAAAAA"] ∧
    (CSRFHandler Sample.cookieConfig (record "success") Sample.worldWithoutEntropy
        (Sample.loginRequest [])).calls
      = [("success", WithState [] "AAAAAAAAAAAAAAAAAAAAAAAAAAAAAAAAAAAAAAAAAAA")] ∧
    (CSRFHandler Sample.cookieConfig (record "success") Sample.worldWithoutEntropy
        (Sample.loginRequest [])).status = none := by
  decide

end oauth2

/-! ## The claim on the extended state -/

namespace utf8

theorem DecodeRune_one (a : Nat) (rest : List Nat) (h : a < 0x80) :
    DecodeRune (a :: rest) = (a, 1) := by
  simp [DecodeRune, h]

theorem DecodeRune_two (a b : Nat) (rest : List Nat) (ha : 0xC2 ≤ a ∧ a < 0xE0)
    (hb : 0x80 ≤ b ∧ b ≤ 0xBF) :
    DecodeRune (a :: b :: rest) = (a % 32 * 64 + b % 64, 2) := by
  have h1 : ¬ a < 128 := by omega
  have h2 : ¬ (a < 194 ∨ 244 < a) := by omega
  have h3 : a < 224 := by omega
  have h4 : ¬ a = 224 := by omega
  have h5 : ¬ a = 240 := by omega
  have h6 : ¬ a = 237 := by omega
  have h7 : ¬ a = 244 := by omega
  have h8 : ¬ (b < 128 ∨ 191 < b) := by omega
  simp [DecodeRune, h1, h2, h3, h4, h5, h6, h7, h8]

theorem DecodeRune_three (a b c : Nat) (rest : List Nat) (ha : 0xE0 ≤ a ∧ a < 0xF0)
    (hb : (if a = 0xE0 then 0xA0 else 0x80) ≤ b ∧ b ≤ (if a = 0xED then 0x9F else 0xBF))
    (hc : 0x80 ≤ c ∧ c ≤ 0xBF) :
    DecodeRune (a :: b :: c :: rest) = (a % 16 * 4096 + b % 64 * 64 + c % 64, 3) := by
  have h1 : ¬ a < 128 := by omega
  have h2 : ¬ (a < 194 ∨ 244 < a) := by omega
  have h3 : ¬ a < 224 := by omega
  have h3b : a < 240 := by omega
  have h5 : ¬ a = 240 := by omega
  have h7 : ¬ a = 244 := by omega
  have h8 : ¬ (c < 128 ∨ 191 < c) := by omega
  have h9 : ¬ (b < (if a = 224 then 160 else 128) ∨ (if a = 237 then 159 else 191) < b) := by
    omega
  simp [DecodeRune, h1, h2, h3, h3b, h5, h7, h8, h9]

theorem DecodeRune_four (a b c d : Nat) (rest : List Nat) (ha : 0xF0 ≤ a ∧ a ≤ 0xF4)
    (hb : (if a = 0xF0 then 0x90 else 0x80) ≤ b ∧ b ≤ (if a = 0xF4 then 0x8F else 0xBF))
    (hc : 0x80 ≤ c ∧ c ≤ 0xBF) (hd : 0x80 ≤ d ∧ d ≤ 0xBF) :
    DecodeRune (a :: b :: c :: d :: rest)
      = (a % 8 * 262144 + b % 64 * 4096 + c % 64 * 64 + d % 64, 4) := by
  have h1 : ¬ a < 128 := by omega
  have h2 : ¬ (a < 194 ∨ 244 < a) := by omega
  have h3 : ¬ a < 224 := by omega
  have h3b : ¬ a < 240 := by omega
  have h4 : ¬ a = 224 := by omega
  have h6 : ¬ a = 237 := by omega
  have h8 : ¬ (c < 128 ∨ 191 < c) := by omega
  have h8d : ¬ (d < 128 ∨ 191 < d) := by omega
  have h9 : ¬ (b < (if a = 240 then 144 else 128) ∨ (if a = 244 then 143 else 191) < b) := by
    omega
  simp [DecodeRune, h1, h2, h3, h3b, h4, h6, h8, h8d, h9]

/-- A well-formed encoding at the start of the input is what `DecodeRune` reads. -/
theorem DecodeRune_of_Encoding (bytes : List Nat) (r : Nat) (h : Encoding bytes r)
    (tail : List Nat) : DecodeRune (bytes ++ tail) = (r, bytes.length) := by
  cases h with
  | one _ ha => exact DecodeRune_one _ tail ha
  | two a b ha hb => exact DecodeRune_two a b tail ha hb
  | three a b c ha hb hc => exact DecodeRune_three a b c tail ha hb hc
  | four a b c d ha hb hc hd => exact DecodeRune_four a b c d tail ha hb hc hd

/-- `EncodeRune` writes back the well-formed encoding of a rune. -/
theorem EncodeRune_of_Encoding (bytes : List Nat) (r : Nat) (h : Encoding bytes r) :
    EncodeRune r = bytes := by
  cases h with
  | one _ ha => simp [EncodeRune, ha]
  | two a b ha hb =>
    have h1 : ¬ a % 32 * 64 + b % 64 < 128 := by omega
    have h2 : a % 32 * 64 + b % 64 < 2048 := by omega
    simp only [EncodeRune, h1, h2, if_true, if_false]
    refine congrArg₂ _ (by omega) (congrArg₂ _ (by omega) rfl)
  | three a b c ha hb hc =>
    split_ifs at hb <;>
    · have h1 : ¬ a % 16 * 4096 + b % 64 * 64 + c % 64 < 128 := by omega
      have h2 : ¬ a % 16 * 4096 + b % 64 * 64 + c % 64 < 2048 := by omega
      have h3 : ¬ (1114111 < a % 16 * 4096 + b % 64 * 64 + c % 64 ∨
          (55296 ≤ a % 16 * 4096 + b % 64 * 64 + c % 64 ∧
            a % 16 * 4096 + b % 64 * 64 + c % 64 ≤ 57343)) := by omega
      have h4 : a % 16 * 4096 + b % 64 * 64 + c % 64 < 65536 := by omega
      simp only [EncodeRune, h1, h2, h3, h4, if_true, if_false]
      refine congrArg₂ _ (by omega) (congrArg₂ _ (by omega) (congrArg₂ _ (by omega) rfl))
  | four a b c d ha hb hc hd =>
    split_ifs at hb <;>
    · have h1 : ¬ a % 8 * 262144 + b % 64 * 4096 + c % 64 * 64 + d % 64 < 128 := by omega
      have h2 : ¬ a % 8 * 262144 + b % 64 * 4096 + c % 64 * 64 + d % 64 < 2048 := by omega
      have h3 : ¬ (1114111 < a % 8 * 262144 + b % 64 * 4096 + c % 64 * 64 + d % 64 ∨
          (55296 ≤ a % 8 * 262144 + b % 64 * 4096 + c % 64 * 64 + d % 64 ∧
            a % 8 * 262144 + b % 64 * 4096 + c % 64 * 64 + d % 64 ≤ 57343)) := by omega
      have h4 : ¬ a % 8 * 262144 + b % 64 * 4096 + c % 64 * 64 + d % 64 < 65536 := by omega
      simp only [EncodeRune, h1, h2, h3, h4, if_true, if_false]
      refine congrArg₂ _ (by omega) (congrArg₂ _ (by omega) (congrArg₂ _ (by omega)
        (congrArg₂ _ (by omega) rfl)))

end utf8

namespace utf8

theorem DecodeRune_bad_first (a : Nat) (t : List Nat) (h : ¬ a < 0x80)
    (h2 : a < 0xC2 ∨ 0xF4 < a) : DecodeRune (a :: t) = (RuneError, 1) := by
  have h1 : ¬ a < 128 := h
  have h3 : a < 194 ∨ 244 < a := h2
  simp [DecodeRune, h1, h3]

theorem DecodeRune_bad_short (a : Nat) (t : List Nat) (h2 : ¬ (a < 0xC2 ∨ 0xF4 < a))
    (hn : t.length + 1 < (if a < 0xE0 then 2 else if a < 0xF0 then 3 else 4)) :
    DecodeRune (a :: t) = (RuneError, 1) := by
  have h1 : ¬ a < 128 := by omega
  have h3 : ¬ (a < 194 ∨ 244 < a) := h2
  have h4 : t.length + 1 < (if a < 224 then 2 else if a < 240 then 3 else 4) := hn
  simp [DecodeRune, h1, h3, h4]

theorem DecodeRune_bad_second (a b : Nat) (t : List Nat) (h2 : ¬ (a < 0xC2 ∨ 0xF4 < a))
    (hb : b < (if a = 0xE0 then 0xA0 else if a = 0xF0 then 0x90 else 0x80) ∨
      (if a = 0xED then 0x9F else if a = 0xF4 then 0x8F else 0xBF) < b) :
    DecodeRune (a :: b :: t) = (RuneError, 1) := by
  have h1 : ¬ a < 128 := by omega
  have h3 : ¬ (a < 194 ∨ 244 < a) := h2
  have h4 : b < (if a = 224 then 160 else if a = 240 then 144 else 128) ∨
      (if a = 237 then 159 else if a = 244 then 143 else 191) < b := hb
  simp only [DecodeRune, List.length_cons, List.getD_cons_zero, List.getD_cons_succ, h1, h3, h4]
  simp

end utf8

namespace utf8

theorem DecodeRune_bad_third (a b c : Nat) (t : List Nat) (h2 : ¬ (a < 0xE0 ∨ 0xF4 < a))
    (hc : c < 0x80 ∨ 0xBF < c) : DecodeRune (a :: b :: c :: t) = (RuneError, 1) := by
  have h1 : ¬ a < 128 := by omega
  have h3 : ¬ (a < 194 ∨ 244 < a) := by omega
  have h4 : ¬ a < 224 := by omega
  have h5 : c < 128 ∨ 191 < c := hc
  simp only [DecodeRune, List.length_cons, List.getD_cons_zero, List.getD_cons_succ, h1, h3, h4,
    h5]
  by_cases h6 : a < 240 <;> simp [h6]

theorem DecodeRune_bad_fourth (a b c d : Nat) (t : List Nat) (h2 : ¬ (a < 0xF0 ∨ 0xF4 < a))
    (hd : d < 0x80 ∨ 0xBF < d) : DecodeRune (a :: b :: c :: d :: t) = (RuneError, 1) := by
  have h1 : ¬ a < 128 := by omega
  have h3 : ¬ (a < 194 ∨ 244 < a) := by omega
  have h4 : ¬ a < 224 := by omega
  have h4b : ¬ a < 240 := by omega
  have h5 : d < 128 ∨ 191 < d := hd
  simp only [DecodeRune, List.length_cons, List.getD_cons_zero, List.getD_cons_succ, h1, h3, h4,
    h4b, h5]
  simp

/-- Whenever `DecodeRune` does not report an invalid byte, the input starts with a
well-formed encoding of the rune it returns, as wide as it says. -/
theorem DecodeRune_valid (p : List Nat) (hp : p ≠ [])
    (hv : ¬ ((DecodeRune p).1 = RuneError ∧ (DecodeRune p).2 = 1)) :
    ∃ bytes tail, p = bytes ++ tail ∧ Encoding bytes (DecodeRune p).1 ∧
      (DecodeRune p).2 = bytes.length := by
  cases p with
  | nil => exact absurd rfl hp
  | cons a t =>
    by_cases h1 : a < 0x80
    · exact ⟨[a], t, rfl, by rw [DecodeRune_one a t h1]; exact Encoding.one a h1,
        by rw [DecodeRune_one a t h1]; rfl⟩
    by_cases h2 : a < 0xC2 ∨ 0xF4 < a
    · exact absurd (by rw [DecodeRune_bad_first a t h1 h2]; exact ⟨rfl, rfl⟩) hv
    cases t with
    | nil =>
      exact absurd (by
        rw [DecodeRune_bad_short a [] h2 (by simp only [List.length_nil]; split_ifs <;> omega)]
        exact ⟨rfl, rfl⟩) hv
    | cons b t =>
      by_cases hb : b < (if a = 0xE0 then 0xA0 else if a = 0xF0 then 0x90 else 0x80) ∨
          (if a = 0xED then 0x9F else if a = 0xF4 then 0x8F else 0xBF) < b
      · exact absurd (by rw [DecodeRune_bad_second a b t h2 hb]; exact ⟨rfl, rfl⟩) hv
      by_cases h3 : a < 0xE0
      · have ha : 0xC2 ≤ a ∧ a < 0xE0 := by omega
        have hb2 : 0x80 ≤ b ∧ b ≤ 0xBF := by
          rw [if_neg (by omega), if_neg (by omega), if_neg (by omega), if_neg (by omega)] at hb
          omega
        exact ⟨[a, b], t, rfl, by rw [DecodeRune_two a b t ha hb2]; exact Encoding.two a b ha hb2,
          by rw [DecodeRune_two a b t ha hb2]; rfl⟩
      cases t with
      | nil =>
        exact absurd (by
          rw [DecodeRune_bad_short a [b] h2 (by
            simp only [List.length_cons, List.length_nil]; split_ifs <;> omega)]
          exact ⟨rfl, rfl⟩) hv
      | cons c t =>
        by_cases hc : c < 0x80 ∨ 0xBF < c
        · exact absurd (by
            rw [DecodeRune_bad_third a b c t (by omega) hc]; exact ⟨rfl, rfl⟩) hv
        by_cases h4 : a < 0xF0
        · have ha : 0xE0 ≤ a ∧ a < 0xF0 := by omega
          have hb2 : (if a = 0xE0 then 0xA0 else 0x80) ≤ b ∧
              b ≤ (if a = 0xED then 0x9F else 0xBF) := by
            split_ifs at hb ⊢ <;> omega
          have hc2 : 0x80 ≤ c ∧ c ≤ 0xBF := by omega
          exact ⟨[a, b, c], t, rfl,
            by rw [DecodeRune_three a b c t ha hb2 hc2]; exact Encoding.three a b c ha hb2 hc2,
            by rw [DecodeRune_three a b c t ha hb2 hc2]; rfl⟩
        cases t with
        | nil =>
          exact absurd (by
            rw [DecodeRune_bad_short a [b, c] h2 (by
              simp only [List.length_cons, List.length_nil]; rw [if_neg h3, if_neg h4]; omega)]
            exact ⟨rfl, rfl⟩) hv
        | cons d t =>
          by_cases hd : d < 0x80 ∨ 0xBF < d
          · exact absurd (by
              rw [DecodeRune_bad_fourth a b c d t (by omega) hd]; exact ⟨rfl, rfl⟩) hv
          have ha : 0xF0 ≤ a ∧ a ≤ 0xF4 := by omega
          have hb2 : (if a = 0xF0 then 0x90 else 0x80) ≤ b ∧
              b ≤ (if a = 0xF4 then 0x8F else 0xBF) := by
            split_ifs at hb ⊢ <;> omega
          have hc2 : 0x80 ≤ c ∧ c ≤ 0xBF := by omega
          have hd2 : 0x80 ≤ d ∧ d ≤ 0xBF := by omega
          exact ⟨[a, b, c, d], t, rfl,
            by rw [DecodeRune_four a b c d t ha hb2 hc2 hd2]
               exact Encoding.four a b c d ha hb2 hc2 hd2,
            by rw [DecodeRune_four a b c d t ha hb2 hc2 hd2]; rfl⟩

end utf8

namespace utf8

theorem Encoding_length (bytes : List Nat) (r : Nat) (h : Encoding bytes r) :
    1 ≤ bytes.length := by
  cases h <;> simp

theorem Encoding_bytes (bytes : List Nat) (r : Nat) (h : Encoding bytes r) :
    ∀ x ∈ bytes, x < 256 := by
  cases h with
  | one _ ha =>
    intro x hx
    simp only [List.mem_singleton] at hx
    omega
  | two a b ha hb =>
    intro x hx
    simp only [List.mem_cons, List.mem_singleton, List.not_mem_nil, or_false] at hx
    rcases hx with rfl | rfl <;> omega
  | three a b c ha hb hc =>
    intro x hx
    simp only [List.mem_cons, List.mem_singleton, List.not_mem_nil, or_false] at hx
    split_ifs at hb <;> rcases hx with rfl | rfl | rfl <;> omega
  | four a b c d ha hb hc hd =>
    intro x hx
    simp only [List.mem_cons, List.mem_singleton, List.not_mem_nil, or_false] at hx
    split_ifs at hb <;> rcases hx with rfl | rfl | rfl | rfl <;> omega

end utf8

namespace json

theorem hexVal_hex : ∀ x, x < 16 → hexVal (hex x) = some x := by decide

theorem unquoteLoop_quote (f : Nat) (t : List Nat) :
    unquoteLoop (f + 1) (0x22 :: t) = some ([], t) := by
  simp [unquoteLoop]

theorem unquoteLoop_plain (f b : Nat) (t : List Nat) (h1 : 0x20 ≤ b) (h2 : b < 0x80)
    (h3 : b ≠ 0x22) (h4 : b ≠ 0x5C) :
    unquoteLoop (f + 1) (b :: t) = (unquoteLoop f t).map (fun r => (b :: r.1, r.2)) := by
  have h5 : ¬ b < 32 := by omega
  have h6 : b < 128 := h2
  have h7 : ¬ b = 34 := h3
  have h8 : ¬ b = 92 := h4
  simp [unquoteLoop, h5, h6, h7, h8]

theorem unquoteLoop_escape (f c x : Nat) (t : List Nat) (hc : c ≠ 0x75)
    (hx : unescape c = some x) :
    unquoteLoop (f + 1) (0x5C :: c :: t) = (unquoteLoop f t).map (fun r => (x :: r.1, r.2)) := by
  have h1 : ¬ c = 117 := hc
  simp [unquoteLoop, h1, hx]

theorem unquoteLoop_u4 (f h1 h2 h3 h4 rr : Nat) (t : List Nat)
    (hg : getu4 (0x5C :: 0x75 :: h1 :: h2 :: h3 :: h4 :: t) = some rr)
    (hs : ¬ (0xD800 ≤ rr ∧ rr < 0xE000)) :
    unquoteLoop (f + 1) (0x5C :: 0x75 :: h1 :: h2 :: h3 :: h4 :: t)
      = (unquoteLoop f t).map (fun r => (utf8.EncodeRune rr ++ r.1, r.2)) := by
  have hs2 : ¬ (55296 ≤ rr ∧ rr < 57344) := hs
  simp [unquoteLoop, hg, hs2]

theorem unquoteLoop_multi (f b : Nat) (t : List Nat) (hb : 0x80 ≤ b) :
    unquoteLoop (f + 1) (b :: t)
      = (unquoteLoop f ((b :: t).drop (utf8.DecodeRune (b :: t)).2)).map (fun r =>
          (utf8.EncodeRune (utf8.DecodeRune (b :: t)).1 ++ r.1, r.2)) := by
  have h1 : ¬ b = 34 := by omega
  have h2 : ¬ b = 92 := by omega
  have h3 : ¬ b < 32 := by omega
  have h4 : ¬ b < 128 := by omega
  simp [unquoteLoop, h1, h2, h3, h4]

end json

namespace json

theorem ascii_u202 : ascii "u202" = [0x75, 0x32, 0x30, 0x32] := by decide

theorem ascii_ufffd : ascii "ufffd" = [0x75, 0x66, 0x66, 0x66, 0x64] := by decide

/-- Reading back what the string encoder wrote for valid UTF-8 gives the string. -/
theorem unquoteLoop_appendStringLoop (fuel1 : Nat) :
    ∀ (src tail : List Nat) (fuel2 : Nat), src.length ≤ fuel1 →
      utf8.validLoop fuel1 src = true → (appendStringLoop fuel1 src).length < fuel2 →
      unquoteLoop fuel2 (appendStringLoop fuel1 src ++ 0x22 :: tail) = some (src, tail) := by
  induction fuel1 with
  | zero =>
    intro src tail fuel2 hlen _ hf
    have hsrc : src = [] := List.length_eq_zero.mp (Nat.le_zero.mp hlen)
    subst hsrc
    obtain ⟨f, rfl⟩ : ∃ f, fuel2 = f + 1 := ⟨fuel2 - 1, by omega⟩
    simp [appendStringLoop, unquoteLoop_quote]
  | succ n ih =>
    intro src tail fuel2 hlen hvalid hf
    cases src with
    | nil =>
      obtain ⟨f, rfl⟩ : ∃ f, fuel2 = f + 1 := ⟨fuel2 - 1, by omega⟩
      simp [appendStringLoop, unquoteLoop_quote]
    | cons b rest =>
      have hrest : rest.length ≤ n := by simpa using hlen
      by_cases hb : b < 0x80
      · -- an ASCII byte
        have hd : utf8.DecodeRune (b :: rest) = (b, 1) := utf8.DecodeRune_one b rest hb
        have hvr : utf8.validLoop n rest = true := by
          simp only [utf8.validLoop, hd] at hvalid
          simp only [List.isEmpty_cons, Bool.false_eq_true, if_false, List.drop_succ_cons,
            List.drop_zero, and_true] at hvalid
          split_ifs at hvalid
          exact hvalid
        by_cases hsafe : htmlSafe b = true
        · have he : appendStringLoop (n + 1) (b :: rest) = b :: appendStringLoop n rest := by
            simp [appendStringLoop, hb, hsafe]
          rw [he] at hf ⊢
          obtain ⟨f, rfl⟩ : ∃ f, fuel2 = f + 1 := ⟨fuel2 - 1, by omega⟩
          have hs := hsafe
          simp only [htmlSafe, decide_eq_true_eq] at hs
          rw [List.cons_append, unquoteLoop_plain f b _ hs.1 hs.2.1 hs.2.2.1 hs.2.2.2.1,
            ih rest tail f hrest hvr (by simp only [List.length_cons] at hf; omega)]
          rfl
        · have he : appendStringLoop (n + 1) (b :: rest)
              = escapeByte b ++ appendStringLoop n rest := by
            simp [appendStringLoop, hb, hsafe]
          rw [he] at hf ⊢
          have hel : 1 ≤ (escapeByte b).length := by
            unfold escapeByte
            split_ifs <;> simp
          obtain ⟨f, rfl⟩ : ∃ f, fuel2 = f + 1 := ⟨fuel2 - 1, by omega⟩
          have hih := ih rest tail f hrest hvr (by
            simp only [List.length_append] at hf; omega)
          by_cases h1 : b = 0x5C ∨ b = 0x22
          · have hesc : escapeByte b = [0x5C, b] := by simp [escapeByte, h1]
            have hu : unescape b = some b := by
              rcases h1 with rfl | rfl <;> decide
            rw [hesc]
            simp only [List.cons_append, List.nil_append]
            rw [unquoteLoop_escape f b b _ (by rcases h1 with rfl | rfl <;> decide) hu, hih]
            rfl
          by_cases h2 : b = 0x0A
          · subst h2
            rw [show escapeByte 0x0A = [0x5C, 0x6E] from by decide]
            simp only [List.cons_append, List.nil_append]
            rw [unquoteLoop_escape f 0x6E 0x0A _ (by decide) (by decide), hih]
            rfl
          by_cases h3 : b = 0x0D
          · subst h3
            rw [show escapeByte 0x0D = [0x5C, 0x72] from by decide]
            simp only [List.cons_append, List.nil_append]
            rw [unquoteLoop_escape f 0x72 0x0D _ (by decide) (by decide), hih]
            rfl
          by_cases h4 : b = 0x09
          · subst h4
            rw [show escapeByte 0x09 = [0x5C, 0x74] from by decide]
            simp only [List.cons_append, List.nil_append]
            rw [unquoteLoop_escape f 0x74 0x09 _ (by decide) (by decide), hih]
            rfl
          have hesc : escapeByte b = [0x5C, 0x75, 0x30, 0x30, hex (b / 16), hex (b % 16)] := by
            simp [escapeByte, h1, h2, h3, h4]
          have hg : ∀ t, getu4 (0x5C :: 0x75 :: 0x30 :: 0x30 :: hex (b / 16) :: hex (b % 16) :: t)
              = some b := by
            intro t
            have e1 := hexVal_hex (b / 16) (by omega)
            have e2 := hexVal_hex (b % 16) (by omega)
            have e0 : hexVal 0x30 = some 0 := by decide
            simp only [getu4, e0, e1, e2]
            congr 1
            omega
          rw [hesc]
          simp only [List.cons_append, List.nil_append]
          rw [unquoteLoop_u4 f _ _ _ _ b _ (hg _) (by omega), hih]
          simp [utf8.EncodeRune, hb]
      · -- a byte that starts a multi-byte encoding
        have hv : ¬ ((utf8.DecodeRune (b :: rest)).1 = utf8.RuneError ∧
            (utf8.DecodeRune (b :: rest)).2 = 1) := by
          intro hbad
          simp [utf8.validLoop, hbad] at hvalid
        obtain ⟨bytes, tl, hsplit, henc, hsize⟩ :=
          utf8.DecodeRune_valid (b :: rest) (by simp) hv
        have hbl := utf8.Encoding_length bytes _ henc
        have hdrop : (b :: rest).drop (utf8.DecodeRune (b :: rest)).2 = tl := by
          rw [hsize, hsplit, List.drop_left]
        have hvr : utf8.validLoop n tl = true := by
          simp only [utf8.validLoop, List.isEmpty_cons, Bool.false_eq_true, if_false, hv,
            hdrop] at hvalid
          exact hvalid
        have htl : tl.length ≤ n := by
          have := congrArg List.length hsplit
          simp only [List.length_cons, List.length_append] at this
          omega
        have htake : (b :: rest).take (utf8.DecodeRune (b :: rest)).2 = bytes := by
          rw [hsize, hsplit, List.take_left]
        have hencode := utf8.EncodeRune_of_Encoding bytes _ henc
        by_cases hls : (utf8.DecodeRune (b :: rest)).1 = 0x2028 ∨
            (utf8.DecodeRune (b :: rest)).1 = 0x2029
        · have he : appendStringLoop (n + 1) (b :: rest)
              = 0x5C :: 0x75 :: 0x32 :: 0x30 :: 0x32 ::
                  hex ((utf8.DecodeRune (b :: rest)).1 % 16) :: appendStringLoop n tl := by
            simp [appendStringLoop, hb, hv, hls, hdrop, ascii_u202]
          rw [he] at hf ⊢
          obtain ⟨f, rfl⟩ : ∃ f, fuel2 = f + 1 := ⟨fuel2 - 1, by omega⟩
          have hih := ih tl tail f htl hvr (by simp only [List.length_cons] at hf; omega)
          have hg : ∀ t, getu4 (0x5C :: 0x75 :: 0x32 :: 0x30 :: 0x32 ::
              hex ((utf8.DecodeRune (b :: rest)).1 % 16) :: t)
              = some (utf8.DecodeRune (b :: rest)).1 := by
            intro t
            rcases hls with h | h <;> rw [h] <;> rfl
          simp only [List.cons_append]
          rw [unquoteLoop_u4 f _ _ _ _ _ _ (hg _) (by rcases hls with h | h <;> rw [h] <;> decide),
            hih, hencode]
          simp [hsplit]
        · have he : appendStringLoop (n + 1) (b :: rest) = bytes ++ appendStringLoop n tl := by
            simp only [appendStringLoop, hb, if_false, hv, hls, hdrop, htake]
          rw [he] at hf ⊢
          obtain ⟨f, rfl⟩ : ∃ f, fuel2 = f + 1 := ⟨fuel2 - 1, by omega⟩
          have hih := ih tl tail f htl hvr (by simp only [List.length_append] at hf; omega)
          obtain ⟨b0, bt, hbytes⟩ : ∃ b0 bt, bytes = b0 :: bt := by
            cases bytes with
            | nil => simp at hbl
            | cons b0 bt => exact ⟨b0, bt, rfl⟩
          have hb0 : b0 = b := by
            rw [hbytes] at hsplit
            simp only [List.cons_append, List.cons.injEq] at hsplit
            exact hsplit.1.symm
          subst hb0
          subst hbytes
          have hdec := utf8.DecodeRune_of_Encoding (b0 :: bt) _ henc
            (appendStringLoop n tl ++ 0x22 :: tail)
          rw [List.append_assoc]
          rw [List.cons_append] at hdec ⊢
          rw [unquoteLoop_multi f b0 _ (by omega), hdec]
          simp only
          rw [← List.cons_append, List.drop_left, hih, hencode]
          simp [hsplit]

end json

namespace json

theorem hex_lt (i : Nat) : hex i < 256 := by
  unfold hex
  split_ifs <;> omega

theorem escapeByte_bytes (b : Nat) (hb : b < 0x80) : ∀ x ∈ escapeByte b, x < 256 := by
  intro x hx
  unfold escapeByte at hx
  have h1 := hex_lt (b / 16)
  have h2 := hex_lt (b % 16)
  split_ifs at hx <;>
    simp only [List.mem_cons, List.mem_singleton, List.not_mem_nil, or_false] at hx <;>
    omega

/-- The string encoder writes bytes, whatever its input. -/
theorem appendStringLoop_bytes (fuel : Nat) :
    ∀ src : List Nat, ∀ x ∈ appendStringLoop fuel src, x < 256 := by
  induction fuel with
  | zero => intro src x hx; simp [appendStringLoop] at hx
  | succ n ih =>
    intro src x hx
    cases src with
    | nil => simp [appendStringLoop] at hx
    | cons b rest =>
      by_cases hb : b < 0x80
      · by_cases hsafe : htmlSafe b = true
        · have he : appendStringLoop (n + 1) (b :: rest) = b :: appendStringLoop n rest := by
            simp [appendStringLoop, hb, hsafe]
          rw [he, List.mem_cons] at hx
          rcases hx with rfl | hx
          · omega
          · exact ih rest x hx
        · have he : appendStringLoop (n + 1) (b :: rest)
              = escapeByte b ++ appendStringLoop n rest := by
            simp [appendStringLoop, hb, hsafe]
          rw [he, List.mem_append] at hx
          rcases hx with hx | hx
          · exact escapeByte_bytes b hb x hx
          · exact ih rest x hx
      · by_cases hv : (utf8.DecodeRune (b :: rest)).1 = utf8.RuneError ∧
            (utf8.DecodeRune (b :: rest)).2 = 1
        · have he : appendStringLoop (n + 1) (b :: rest)
              = [0x5C, 0x75, 0x66, 0x66, 0x66, 0x64] ++ appendStringLoop n (rest.drop 0) := by
            simp [appendStringLoop, hb, hv, ascii_ufffd]
          rw [he, List.mem_append] at hx
          rcases hx with hx | hx
          · have hall : ∀ y ∈ [0x5C, 0x75, 0x66, 0x66, 0x66, 0x64], y < 256 := by decide
            exact hall x hx
          · exact ih _ x hx
        · obtain ⟨bytes, tl, hsplit, henc, hsize⟩ :=
            utf8.DecodeRune_valid (b :: rest) (by simp) hv
          have htake : (b :: rest).take (utf8.DecodeRune (b :: rest)).2 = bytes := by
            rw [hsize, hsplit, List.take_left]
          have hdrop : (b :: rest).drop (utf8.DecodeRune (b :: rest)).2 = tl := by
            rw [hsize, hsplit, List.drop_left]
          by_cases hls : (utf8.DecodeRune (b :: rest)).1 = 0x2028 ∨
              (utf8.DecodeRune (b :: rest)).1 = 0x2029
          · have he : appendStringLoop (n + 1) (b :: rest)
                = [0x5C, 0x75, 0x32, 0x30, 0x32] ++
                    (hex ((utf8.DecodeRune (b :: rest)).1 % 16) :: appendStringLoop n tl) := by
              simp [appendStringLoop, hb, hv, hls, hdrop, ascii_u202]
            rw [he, List.mem_append] at hx
            rcases hx with hx | hx
            · have hall : ∀ y ∈ [0x5C, 0x75, 0x32, 0x30, 0x32], y < 256 := by decide
              exact hall x hx
            · rw [List.mem_cons] at hx
              rcases hx with rfl | hx
              · exact hex_lt _
              · exact ih _ x hx
          · have he : appendStringLoop (n + 1) (b :: rest) = bytes ++ appendStringLoop n tl := by
              simp only [appendStringLoop, hb, if_false, hv, hls, hdrop, htake]
            rw [he, List.mem_append] at hx
            rcases hx with hx | hx
            · exact utf8.Encoding_bytes bytes _ henc x hx
            · exact ih _ x hx

theorem appendString_bytes (src : List Nat) : ∀ x ∈ appendString src, x < 256 := by
  intro x hx
  simp only [appendString, List.mem_append, List.mem_singleton, List.mem_cons,
    List.not_mem_nil, or_false] at hx
  rcases hx with (rfl | hx) | rfl
  · omega
  · exact appendStringLoop_bytes _ src x hx
  · omega

/-- A string literal written by the encoder for valid UTF-8 is read back as the
string, with the input after the literal left over. -/
theorem parseString_appendString (s tail : List Nat) (hv : utf8.Valid s = true) :
    parseString (appendString s ++ tail) = some (s, tail) := by
  have h : appendString s ++ tail = 0x22 :: (appendStringLoop s.length s ++ 0x22 :: tail) := by
    simp [appendString]
  rw [h]
  simp only [parseString, if_true]
  exact unquoteLoop_appendStringLoop s.length s tail _ (Nat.le_refl _) hv (by simp; omega)

theorem skipSpace_cons (b : Nat) (l : List Nat)
    (h : ¬ (b = 0x20 ∨ b = 0x09 ∨ b = 0x0A ∨ b = 0x0D)) : skipSpace (b :: l) = b :: l := by
  simp only [skipSpace]
  rw [if_neg h]

theorem skipSpace_appendString (s tail : List Nat) :
    skipSpace (appendString s ++ tail) = appendString s ++ tail := by
  have h : appendString s ++ tail = 0x22 :: (appendStringLoop s.length s ++ 0x22 :: tail) := by
    simp [appendString]
  rw [h]
  exact skipSpace_cons _ _ (by decide)

end json

namespace json

theorem parseMembers_more (f : Nat) (k v more : List Nat) (hk : utf8.Valid k = true)
    (hv : utf8.Valid v = true) :
    parseMembers (f + 1) (appendString k ++ 0x3A :: (appendString v ++ 0x2C :: more))
      = (parseMembers f more).map (fun ms => (k, v) :: ms) := by
  simp only [parseMembers]
  rw [skipSpace_appendString, parseString_appendString k _ hk]
  simp only
  rw [skipSpace_cons _ _ (by decide)]
  simp only [if_true]
  rw [skipSpace_appendString, parseString_appendString v _ hv]
  simp only
  rw [skipSpace_cons _ _ (by decide)]
  simp

theorem parseMembers_last (f : Nat) (k v : List Nat) (hk : utf8.Valid k = true)
    (hv : utf8.Valid v = true) :
    parseMembers (f + 1) (appendString k ++ 0x3A :: (appendString v ++ [0x7D]))
      = some [(k, v)] := by
  simp only [parseMembers]
  rw [skipSpace_appendString, parseString_appendString k _ hk]
  simp only
  rw [skipSpace_cons _ _ (by decide)]
  simp only [if_true]
  rw [skipSpace_appendString, parseString_appendString v _ hv]
  simp only
  rw [skipSpace_cons _ _ (by decide)]
  simp [skipSpace]

theorem Marshal_eq (s : oauth2.Oauth2State) :
    Marshal s = 0x7B :: (appendString (ascii "csrf") ++ 0x3A :: (appendString s.CSRF ++
      0x2C :: (appendString (ascii "redirectTo") ++ 0x3A :: (appendString s.RedirectTo ++
      0x2C :: (appendString (ascii "transport") ++ 0x3A :: (appendString s.Transport ++
      [0x7D])))))) := by
  have h1 : ascii ":" = [0x3A] := by decide
  have h2 : ascii "," = [0x2C] := by decide
  simp only [Marshal, h1, h2, List.append_assoc, List.singleton_append, List.cons_append,
    List.nil_append]

/-- The encoder writes bytes. -/
theorem Marshal_bytes (s : oauth2.Oauth2State) : ∀ x ∈ Marshal s, x < 256 := by
  intro x hx
  rw [Marshal_eq] at hx
  simp only [List.mem_cons, List.mem_append, List.mem_singleton, List.not_mem_nil,
    or_false] at hx
  rcases hx with rfl | hx | rfl | hx | rfl | hx | rfl | hx | rfl | hx | rfl | hx | rfl
  all_goals first | omega | exact appendString_bytes _ x hx

/-- The object the encoder wrote for a state of valid UTF-8 strings is read back as
its three members. -/
theorem parseObject_Marshal (s : oauth2.Oauth2State) (h1 : utf8.Valid s.CSRF = true)
    (h2 : utf8.Valid s.RedirectTo = true) (h3 : utf8.Valid s.Transport = true) :
    parseObject (Marshal s)
      = some [(ascii "csrf", s.CSRF), (ascii "redirectTo", s.RedirectTo),
          (ascii "transport", s.Transport)] := by
  rw [Marshal_eq]
  simp only [parseObject]
  rw [skipSpace_cons _ _ (by decide)]
  simp only [if_true]
  rw [skipSpace_appendString]
  have hq : ∀ (k t : List Nat), appendString k ++ t
      = 0x22 :: (appendStringLoop k.length k ++ 0x22 :: t) := by
    intro k t
    simp [appendString]
  generalize hm : (0x3A :: (appendString s.CSRF ++
      0x2C :: (appendString (ascii "redirectTo") ++ 0x3A :: (appendString s.RedirectTo ++
      0x2C :: (appendString (ascii "transport") ++ 0x3A :: (appendString s.Transport ++
      [0x7D])))))) = more
  have hlen : 3 ≤ (appendString (ascii "csrf") ++ more).length := by
    rw [hq, ← hm]
    simp only [List.length_cons, List.length_append]
    omega
  obtain ⟨f, hf⟩ : ∃ f, (appendString (ascii "csrf") ++ more).length = f + 3 :=
    ⟨_, (Nat.sub_add_cancel hlen).symm⟩
  rw [hf]
  conv_lhs => rw [hq]
  simp only [show ¬ (0x22 : Nat) = 0x7D from by decide, if_false]
  rw [← hq, ← hm, parseMembers_more _ _ _ _ (by decide) h1,
    parseMembers_more _ _ _ _ (by decide) h2, parseMembers_last _ _ _ (by decide) h3]
  rfl

/-- Decoding what the encoder wrote for a state of valid UTF-8 strings gives that
state, whatever the receiver held. -/
theorem Unmarshal_Marshal (s t : oauth2.Oauth2State) (h1 : utf8.Valid s.CSRF = true)
    (h2 : utf8.Valid s.RedirectTo = true) (h3 : utf8.Valid s.Transport = true) :
    Unmarshal (Marshal s) t = (s, none) := by
  simp only [Unmarshal, parseObject_Marshal s h1 h2 h3, List.foldl]
  have f1 : findField (ascii "csrf") = some Field.CSRF := by decide
  have f2 : findField (ascii "redirectTo") = some Field.RedirectTo := by decide
  have f3 : findField (ascii "transport") = some Field.Transport := by decide
  simp only [f1, f2, f3, setField]

end json

namespace oauth2

/-- Counterexample to C14 as stated: the `CSRF` of `s` is the single byte 0xFF, which
is not valid UTF-8; after `t.Decode(s.Encode())` the `CSRF` of `t` is the three bytes
of U+FFFD. -/
theorem Oauth2State_Decode_Encode_counterexample :
    (Oauth2State.Decode ⟨[], [], []⟩ (Oauth2State.Encode ⟨[0xFF], [], []⟩)).CSRF
      = [0xEF, 0xBF, 0xBD] ∧
    (Oauth2State.Decode ⟨[], [], []⟩ (Oauth2State.Encode ⟨[0xFF], [], []⟩)).CSRF
      ≠ (⟨[0xFF], [], []⟩ : Oauth2State).CSRF := by
  decide

/-- C14, amended: for every `Oauth2State` `s` whose three strings are valid UTF-8 and
every receiver `t`, `t.Decode(s.Encode())` leaves `t` with `CSRF`, `RedirectTo` and
`Transport` equal to those of `s`. -/
theorem Oauth2State_Decode_Encode (s t : Oauth2State) (h1 : utf8.Valid s.CSRF = true)
    (h2 : utf8.Valid s.RedirectTo = true) (h3 : utf8.Valid s.Transport = true) :
    (t.Decode s.Encode).CSRF = s.CSRF ∧ (t.Decode s.Encode).RedirectTo = s.RedirectTo ∧
    (t.Decode s.Encode).Transport = s.Transport := by
  have h : t.Decode s.Encode = s := by
    simp only [Oauth2State.Decode, Oauth2State.Encode,
      base64.URLEncoding_roundtrip _ (json.Marshal_bytes s),
      json.Unmarshal_Marshal s t h1 h2 h3]
  rw [h]
  exact ⟨rfl, rfl, rfl⟩

/-- Witness of C14, amended: a state with `&`, `<` and a two-byte letter in it. -/
theorem Oauth2State_Decode_Encode_witness :
    (Oauth2State.Decode ⟨ascii "old", [], []⟩
        (Oauth2State.Encode ⟨ascii "a&b", ascii "/home?x=<1>", [0xC3, 0xA9]⟩)).CSRF
      = ascii "a&b" ∧
    (Oauth2State.Decode ⟨ascii "old", [], []⟩
        (Oauth2State.Encode ⟨ascii "a&b", ascii "/home?x=<1>", [0xC3, 0xA9]⟩)).RedirectTo
      = ascii "/home?x=<1>" ∧
    (Oauth2State.Decode ⟨ascii "old", [], []⟩
        (Oauth2State.Encode ⟨ascii "a&b", ascii "/home?x=<1>", [0xC3, 0xA9]⟩)).Transport
      = [0xC3, 0xA9] :=
  Oauth2State_Decode_Encode ⟨ascii "a&b", ascii "/home?x=<1>", [0xC3, 0xA9]⟩
    ⟨ascii "old", [], []⟩ (by decide) (by decide) (by decide)

end oauth2

/-! ## The claims on the composed stages -/

namespace slack

/-- Counterexample to C22 as stated: called with a nil response and a nil error,
`validateResponse` reads `resp.StatusCode` through the nil pointer and panics instead
of returning a value, whatever the user is. -/
theorem validateResponse_no_panic_counterexample :
    validateResponse (some { ID := "54638001", Name := "Ivy Crimson" }) none none
      = .error nilDereference ∧
    ∀ user, validateResponse user none none = .error nilDereference :=
  ⟨rfl, fun _ => rfl⟩

/-- C22, amended: for every user, response and error of which the response or the
error is not nil, `validateResponse` returns a value, nil or
`ErrUnableToGetSlackUser`, and a nil response is reported as
`ErrUnableToGetSlackUser`; what `Profile` returns is such a combination, so the
validation in `slackHandler` returns a value for every answer of Slack. -/
theorem validateResponse_no_panic (user : Option User) (resp : Option http.Response)
    (err : Option GoError) (h : resp ≠ none ∨ err ≠ none) :
    (validateResponse user resp err = .ok none ∨
      validateResponse user resp err = .ok (some ErrUnableToGetSlackUser)) ∧
    (resp = none → validateResponse user resp err = .ok (some ErrUnableToGetSlackUser)) ∧
    ∀ (c : client) (w : World),
      validateResponse (c.Profile w).1.1 (c.Profile w).1.2.1 (c.Profile w).1.2.2 = .ok none ∨
      validateResponse (c.Profile w).1.1 (c.Profile w).1.2.1 (c.Profile w).1.2.2
        = .ok (some ErrUnableToGetSlackUser) := by
  refine ⟨validateResponse_total user resp err h, ?_, ?_⟩
  · intro hr
    subst hr
    cases err with
    | none => simp at h
    | some e => rfl
  · intro c w
    exact validateResponse_total _ _ _ (Profile_resp_or_err c w)

/-- Witness of C22, amended: a nil response that comes with an error. -/
theorem validateResponse_no_panic_witness :
    validateResponse (some { ID := "54638001", Name := "Ivy Crimson" }) none
        (some ⟨"Server error"⟩)
      = .ok (some ErrUnableToGetSlackUser) :=
  (validateResponse_no_panic (some { ID := "54638001", Name := "Ivy Crimson" }) none
    (some ⟨"Server error"⟩) (Or.inr (by simp))).2.1 rfl

end slack

namespace oauth2

@[simp] theorem WithContext_WithContext (req : http.Request) (a b : Context) :
    (req.WithContext a).WithContext b = req.WithContext b := rfl

@[simp] theorem parseCallback_WithContext (req : http.Request) (ctx : Context) :
    parseCallback (req.WithContext ctx) = parseCallback req := rfl

theorem errorSlot_WithError (ctx : Context) (err : GoError) :
    gologin.errorSlot (gologin.WithError ctx err) = some err := by
  simp [gologin.errorSlot, gologin.WithError, context.WithValue, context.Value]

theorem TokenFromContext_WithToken (ctx : Context) (token : xoauth2.Token) :
    TokenFromContext (WithToken ctx token) = (some token, none) := by
  simp [TokenFromContext, WithToken, context.WithValue, context.Value]

theorem StateFromContext_WithState (ctx : Context) (state : String) :
    StateFromContext (WithState ctx state) = (state, none) := by
  simp [StateFromContext, WithState, context.WithValue, context.Value]

/-- Every run of the callback handler hands the request to one handler: to `success`
with the token of the exchange, or to `failure` with an error that is the one of
`parseCallback`, the one of `StateFromContext`, `ErrInvalidState`, or the one of the
exchange.  The world handed over has the calls written down before. -/
theorem CallbackHandler_cases (config : xoauth2.Config) (w : World) (req : http.Request) :
    (∃ token w1, w1.calls = w.calls ∧
        (∃ code, config.Exchange req.Context code w = (.ok token, w1)) ∧
        ∀ (success : http.Handler) (failure : Option http.Handler),
          CallbackHandler config success failure w req
            = success w1 (req.WithContext (WithToken req.Context token)))
    ∨ (∃ err w1, w1.calls = w.calls ∧
        ((parseCallback req).2.2 = some err ∨
          ((parseCallback req).2.2 = none ∧ (StateFromContext req.Context).2 = some err) ∨
          err = ErrInvalidState ∨
          ∃ code, config.Exchange req.Context code w = (.error err, w1)) ∧
        ∀ (success : http.Handler) (failure : Option http.Handler),
          CallbackHandler config success failure w req
            = (failure.getD gologin.DefaultFailureHandler) w1
                (req.WithContext (gologin.WithError req.Context err))) := by
  rcases hp : parseCallback req with ⟨c, s, e⟩
  cases e with
  | some err =>
    exact Or.inr ⟨err, w, rfl, Or.inl rfl, fun success failure =>
      CallbackHandler_parse_error config success failure w req c s err hp⟩
  | none =>
    rcases hctx : StateFromContext req.Context with ⟨o, eo⟩
    cases eo with
    | some err =>
      exact Or.inr ⟨err, w, rfl, Or.inr (Or.inl ⟨rfl, rfl⟩), fun success failure =>
        CallbackHandler_missing_state config success failure w req c s o err hp hctx⟩
    | none =>
      by_cases hne : s ≠ o ∨ s = ""
      · exact Or.inr ⟨ErrInvalidState, w, rfl, Or.inr (Or.inr (Or.inl rfl)),
          fun success failure =>
            CallbackHandler_invalid_state config success failure w req c s o hp hctx hne⟩
      · have hso : s = o := by
          by_contra hx
          exact hne (Or.inl hx)
        have hs : s ≠ "" := fun hx => hne (Or.inr hx)
        subst hso
        rcases hx : config.Exchange req.Context c w with ⟨r, w1⟩
        have hcalls : w1.calls = w.calls := by
          have := Exchange_calls config req.Context c w
          rw [hx] at this
          exact this
        cases r with
        | error err =>
          refine Or.inr ⟨err, w1, hcalls, Or.inr (Or.inr (Or.inr ⟨c, hx⟩)), ?_⟩
          intro success failure
          have := CallbackHandler_exchange_error config success failure w req c s err hp hctx hs
            (by rw [hx])
          rw [hx] at this
          exact this
        | ok token =>
          refine Or.inl ⟨token, w1, hcalls, ⟨c, hx⟩, ?_⟩
          intro success failure
          have := CallbackHandler_exchange_ok config success failure w req c s token hp hctx hs
            (by rw [hx])
          rw [hx] at this
          exact this

/-- C23: for every request, the callback handler hands over to exactly one of
`success` and `failure`, and does so once: with recording handlers the run writes
down one call.  The context given to `failure` carries an error in the error slot,
the context given to `success` carries a token. -/
theorem CallbackHandler_exactly_one (config : xoauth2.Config) (w : World)
    (req : http.Request) :
    ∃ (w1 : World) (ctx : Context), w1.calls = w.calls ∧
      (((∃ token, TokenFromContext ctx = (some token, none)) ∧
          (∀ (success : http.Handler) (failure : Option http.Handler),
            CallbackHandler config success failure w req = success w1 (req.WithContext ctx)) ∧
          (CallbackHandler config (record "success") (some (record "failure")) w req).calls
            = w.calls ++ [("success", ctx)])
        ∨ ((∃ err, gologin.errorSlot ctx = some err) ∧
          (∀ (success : http.Handler) (failure : Option http.Handler),
            CallbackHandler config success failure w req
              = (failure.getD gologin.DefaultFailureHandler) w1 (req.WithContext ctx)) ∧
          (CallbackHandler config (record "success") (some (record "failure")) w req).calls
            = w.calls ++ [("failure", ctx)])) := by
  rcases CallbackHandler_cases config w req with ⟨token, w1, hc, _, hrun⟩ | ⟨err, w1, hc, _, hrun⟩
  · refine ⟨w1, WithToken req.Context token, hc,
      Or.inl ⟨⟨token, TokenFromContext_WithToken _ _⟩, hrun, ?_⟩⟩
    rw [hrun]
    simp [record, hc]
  · refine ⟨w1, gologin.WithError req.Context err, hc,
      Or.inr ⟨⟨err, errorSlot_WithError _ _⟩, hrun, ?_⟩⟩
    rw [hrun]
    simp [record, hc]


/-- Every run of `CSRFHandler` hands the request to the wrapped handler with a state
in the context: the value of the cookie on the untouched world, or a fresh state on
a world that has its cookie added. -/
theorem CSRFHandler_run (config : gologin.CookieConfig) (w : World) (req : http.Request) :
    ∃ (w1 : World) (state : String), w1.calls = w.calls ∧ w1.exchanges = w.exchanges ∧
      w1.tokenEndpoint = w.tokenEndpoint ∧
      ∀ success : http.Handler, CSRFHandler config success w req
        = success w1 (req.WithContext (WithState req.Context state)) := by
  cases hc : req.Cookie config.Name with
  | ok cookie =>
    exact ⟨w, cookie.Value, rfl, rfl, rfl, fun success => by simp [CSRFHandler, hc]⟩
  | error e =>
    exact ⟨http.SetCookie (randomState w).2 (internal.NewCookie config (randomState w).1),
      (randomState w).1, SetCookie_calls _ _, SetCookie_exchanges _ _,
      SetCookie_tokenEndpoint _ _, fun success => by simp [CSRFHandler, hc]⟩

/-- C24: `CSRFHandler` invokes the wrapped handler once for every request, with a
context in which `StateFromContext` succeeds.  Hence, when the wrapped handler is
`CallbackHandler`, the callback handler finds the state: the run ends in `success`
with a token, or in `failure` with the error of `parseCallback` (a malformed
callback), with `ErrInvalidState`, or with the error of the exchange. -/
theorem CSRFHandler_CallbackHandler_failures (cookieConfig : gologin.CookieConfig)
    (config : xoauth2.Config) (w : World) (req : http.Request) :
    ∃ (w1 : World) (state : String), w1.calls = w.calls ∧
      (∀ next : http.Handler, CSRFHandler cookieConfig next w req
        = next w1 (req.WithContext (WithState req.Context state))) ∧
      (CSRFHandler cookieConfig (record "next") w req).calls
        = w.calls ++ [("next", WithState req.Context state)] ∧
      StateFromContext (WithState req.Context state) = (state, none) ∧
      ((∃ token w2,
          (∀ (success : http.Handler) (failure : Option http.Handler),
            CSRFHandler cookieConfig (CallbackHandler config success failure) w req
              = success w2
                  (req.WithContext (WithToken (WithState req.Context state) token))) ∧
          (CSRFHandler cookieConfig
              (CallbackHandler config (record "success") (some (record "failure"))) w req).calls
            = w.calls ++ [("success", WithToken (WithState req.Context state) token)])
        ∨ (∃ err w2,
          ((parseCallback req).2.2 = some err ∨ err = ErrInvalidState ∨
            ∃ code, config.Exchange (WithState req.Context state) code w1 = (.error err, w2)) ∧
          (∀ (success : http.Handler) (failure : Option http.Handler),
            CSRFHandler cookieConfig (CallbackHandler config success failure) w req
              = (failure.getD gologin.DefaultFailureHandler) w2
                  (req.WithContext (gologin.WithError (WithState req.Context state) err))) ∧
          (CSRFHandler cookieConfig
              (CallbackHandler config (record "success") (some (record "failure"))) w req).calls
            = w.calls ++
                [("failure", gologin.WithError (WithState req.Context state) err)])) := by
  obtain ⟨w1, state, hcalls, _, _, hrun⟩ := CSRFHandler_run cookieConfig w req
  refine ⟨w1, state, hcalls, hrun, ?_, StateFromContext_WithState _ _, ?_⟩
  · rw [hrun]
    simp [record, hcalls]
  · have hst := StateFromContext_WithState req.Context state
    rcases CallbackHandler_cases config w1 (req.WithContext (WithState req.Context state))
      with ⟨token, w2, hc2, _, hcb⟩ | ⟨err, w2, hc2, hkind, hcb⟩
    · refine Or.inl ⟨token, w2, ?_, ?_⟩
      · intro success failure
        rw [hrun, hcb]
        rfl
      · rw [hrun, hcb]
        simp [record, hc2, hcalls]
    · refine Or.inr ⟨err, w2, ?_, ?_, ?_⟩
      · rcases hkind with h | ⟨_, h⟩ | h | h
        · exact Or.inl h
        · rw [WithContext_Context, hst] at h
          simp at h
        · exact Or.inr (Or.inl h)
        · exact Or.inr (Or.inr h)
      · intro success failure
        rw [hrun, hcb]
        rfl
      · rw [hrun, hcb]
        simp [record, hc2, hcalls]

/-- C25: for a request whose state cookie is present with an empty value,
`CSRFHandler` publishes the empty string as the state and sets no cookie; when the
wrapped handler is `CallbackHandler`, the run ends in `failure`, with the error of
`parseCallback` or with `ErrInvalidState`, on the untouched world: `success` is not
invoked and no exchange is made, whatever `code` and `state` the request carries. -/
theorem CSRFHandler_empty_cookie (cookieConfig : gologin.CookieConfig)
    (config : xoauth2.Config) (w : World) (req : http.Request) (cookie : http.Cookie)
    (hc : req.Cookie cookieConfig.Name = .ok cookie) (hv : cookie.Value = "") :
    (∀ next : http.Handler, CSRFHandler cookieConfig next w req
        = next w (req.WithContext (WithState req.Context ""))) ∧
    (CSRFHandler cookieConfig (record "next") w req).cookies = w.cookies ∧
    (CSRFHandler cookieConfig (record "next") w req).calls
      = w.calls ++ [("next", WithState req.Context "")] ∧
    (∃ err, ((parseCallback req).2.2 = some err ∨ err = ErrInvalidState) ∧
      (∀ (success : http.Handler) (failure : Option http.Handler),
        CSRFHandler cookieConfig (CallbackHandler config success failure) w req
          = (failure.getD gologin.DefaultFailureHandler) w
              (req.WithContext (gologin.WithError (WithState req.Context "") err))) ∧
      (CSRFHandler cookieConfig
          (CallbackHandler config (record "success") (some (record "failure"))) w req).calls
        = w.calls ++ [("failure", gologin.WithError (WithState req.Context "") err)]) ∧
    (CSRFHandler cookieConfig
        (CallbackHandler config (record "success") (some (record "failure"))) w req).exchanges
      = w.exchanges := by
  have hrun : ∀ next : http.Handler, CSRFHandler cookieConfig next w req
      = next w (req.WithContext (WithState req.Context "")) := by
    intro next
    simp [CSRFHandler, hc, hv]
  have hst := StateFromContext_WithState req.Context ""
  have hcb : ∃ err, ((parseCallback req).2.2 = some err ∨ err = ErrInvalidState) ∧
      ∀ (success : http.Handler) (failure : Option http.Handler),
        CallbackHandler config success failure w (req.WithContext (WithState req.Context ""))
          = (failure.getD gologin.DefaultFailureHandler) w
              (req.WithContext (gologin.WithError (WithState req.Context "") err)) := by
    rcases hp : parseCallback req with ⟨c, s, e⟩
    cases e with
    | some err =>
      exact ⟨err, Or.inl rfl, fun success failure =>
        CallbackHandler_parse_error config success failure w _ c s err hp⟩
    | none =>
      obtain ⟨form, _, _, _, _, hs⟩ := parseCallback_ok_inv req c s hp
      exact ⟨ErrInvalidState, Or.inr rfl, fun success failure =>
        CallbackHandler_invalid_state config success failure w _ c s "" hp hst (Or.inl hs)⟩
  obtain ⟨err, hkind, hfail⟩ := hcb
  refine ⟨hrun, ?_, ?_, ⟨err, hkind, ?_, ?_⟩, ?_⟩
  · rw [hrun]
    rfl
  · rw [hrun]
    rfl
  · intro success failure
    rw [hrun, hfail]
  · rw [hrun, hfail]
    rfl
  · rw [hrun, hfail]
    rfl

/-- Witness of C25: a callback with the code the provider accepts and a state,
carrying the state cookie with an empty value. -/
theorem CSRFHandler_empty_cookie_witness :
    (CSRFHandler Sample.cookieConfig (record "next") Sample.world
        (Sample.callbackRequest [Sample.stateCookie ""] "good" "abc")).cookies
      = Sample.world.cookies ∧
    (CSRFHandler Sample.cookieConfig
        (CallbackHandler Sample.config (record "success") (some (record "failure")))
        Sample.world (Sample.callbackRequest [Sample.stateCookie ""] "good" "abc")).calls
      = [("failure", gologin.WithError (WithState [] "") ErrInvalidState)] ∧
    (CSRFHandler Sample.cookieConfig
        (CallbackHandler Sample.config (record "success") (some (record "failure")))
        Sample.world (Sample.callbackRequest [Sample.stateCookie ""] "good" "abc")).exchanges
      = [] :=
  ⟨(CSRFHandler_empty_cookie Sample.cookieConfig Sample.config Sample.world
      (Sample.callbackRequest [Sample.stateCookie ""] "good" "abc") (Sample.stateCookie "")
      (by decide) (by decide)).2.1,
    by decide, by decide⟩

end oauth2

/-! ## The claim on the Bitbucket user -/

namespace bitbucket

/-- The loop stops at the first primary entry: the entries after it are not read. -/
theorem CurrentUser.loop_first (user : User) (pre : List EmailValue) (e : EmailValue)
    (post : List EmailValue) (hpre : ∀ x ∈ pre, x.IsPrimary = false)
    (he : e.IsPrimary = true) :
    CurrentUser.loop user (pre ++ e :: post)
      = { user with Email := e.Email, IsEmailConfirmed := e.IsConfirmed } := by
  induction pre with
  | nil => simp [CurrentUser.loop, he]
  | cons x rest ih =>
    have hx : x.IsPrimary = false := hpre x (by simp)
    have ih2 := ih (fun y hy => hpre y (by simp [hy]))
    simp [CurrentUser.loop, hx, ih2]

/-- Without a primary entry the loop leaves the user as it was. -/
theorem CurrentUser.loop_none (user : User) (values : List EmailValue)
    (h : ∀ x ∈ values, x.IsPrimary = false) : CurrentUser.loop user values = user := by
  induction values with
  | nil => rfl
  | cons x rest ih =>
    have hx : x.IsPrimary = false := h x (by simp)
    have ih2 := ih (fun y hy => h y (by simp [hy]))
    simp [CurrentUser.loop, hx, ih2]

/-- C26: when the user endpoint answered without error with `user`, and the emails
endpoint returned the entries `emails.Values`, `CurrentUser` returns `user` with
`Email` and `IsEmailConfirmed` set to those of the first entry whose `IsPrimary` is
true, whatever entries follow it, and the other fields as decoded; when no entry is
primary, or the list is empty, it returns `user` as decoded. -/
theorem CurrentUser_primary_email (c : client) (w : World) (resp resp2 : http.Response)
    (user : User) (emails : UserEmails) (err2 : Option GoError)
    (hu : w.bitbucketUser w.bitbucketRequests.length = .received resp user none)
    (he : w.bitbucketEmails (w.bitbucketRequests.length + 1) = .received resp2 emails err2) :
    ∃ result, (c.CurrentUser w).1 = (some result, some resp, err2) ∧
      (c.CurrentUser w).2.bitbucketRequests = w.bitbucketRequests ++ ["user", "user/emails"] ∧
      (∀ pre e post, emails.Values = pre ++ e :: post → (∀ x ∈ pre, x.IsPrimary = false) →
        e.IsPrimary = true →
        result = { user with Email := e.Email, IsEmailConfirmed := e.IsConfirmed }) ∧
      ((∀ x ∈ emails.Values, x.IsPrimary = false) → result = user) := by
  refine ⟨CurrentUser.loop user emails.Values, ?_, ?_, ?_, ?_⟩
  · simp [client.CurrentUser, hu, he]
  · simp [client.CurrentUser, hu, he]
  · intro pre e post hv hpre hp
    rw [hv]
    exact CurrentUser.loop_first user pre e post hpre hp
  · intro h
    exact CurrentUser.loop_none user emails.Values h

/-- Witness of C26: the sample Bitbucket lists an address that is not primary and then
two primary ones; the user gets the first of the two. -/
theorem CurrentUser_primary_email_witness :
    (client.CurrentUser {} Sample.world).1
      = (some { Username := "ivy", Email := "ivy@work.example", IsEmailConfirmed := true },
         some ⟨200⟩, none) := by
  obtain ⟨result, hr, _, hfirst, _⟩ := CurrentUser_primary_email {} Sample.world ⟨200⟩ ⟨200⟩
    { Username := "ivy", Email := "ivy@old.example" }
    { Values := [{ Email := "ivy@home.example", IsConfirmed := true },
                 { Email := "ivy@work.example", IsConfirmed := true, IsPrimary := true },
                 { Email := "ivy@club.example", IsPrimary := true }] }
    none rfl rfl
  rw [hr, hfirst [{ Email := "ivy@home.example", IsConfirmed := true }]
    { Email := "ivy@work.example", IsConfirmed := true, IsPrimary := true }
    [{ Email := "ivy@club.example", IsPrimary := true }] rfl (by decide) rfl]

end bitbucket

/-! ## The claim on the hosted login -/

namespace utf8

theorem validLoop_ascii (p : List Nat) (h : ∀ x ∈ p, x < 0x80) :
    ∀ fuel, p.length ≤ fuel → validLoop fuel p = true := by
  induction p with
  | nil =>
    intro fuel _
    cases fuel <;> simp [validLoop]
  | cons a rest ih =>
    intro fuel hf
    cases fuel with
    | zero => simp at hf
    | succ f =>
      have ha : a < 0x80 := h a (by simp)
      have hne : ¬ a = RuneError := by
        unfold RuneError
        omega
      have ih2 := ih (fun x hx => h x (by simp [hx])) f (by simpa using hf)
      simp [validLoop, DecodeRune_one a rest ha, hne, ih2]

/-- Bytes below 0x80 are valid UTF-8. -/
theorem Valid_ascii (p : List Nat) (h : ∀ x ∈ p, x < 0x80) : Valid p = true :=
  validLoop_ascii p h p.length (Nat.le_refl _)

/-- A text of ASCII characters has one byte for each character. -/
theorem bytesOf_ascii (l : List Char) (h : ∀ c ∈ l, c.toNat < 0x80) :
    bytesOf (String.mk l) = l.map Char.toNat := by
  have key : ∀ l : List Char, (∀ c ∈ l, c.toNat < 0x80) →
      (l.map (fun c => EncodeRune c.toNat)).flatten = l.map Char.toNat := by
    intro l
    induction l with
    | nil => intro _; rfl
    | cons c rest ih =>
      intro h
      have hc : c.toNat < 0x80 := h c (by simp)
      have ih2 := ih (fun x hx => h x (by simp [hx]))
      simp only [List.map_cons, List.flatten_cons, ih2]
      simp [EncodeRune, hc]
  exact key l h

end utf8

namespace base64

set_option maxRecDepth 100000 in
theorem enc_ascii_lt : ∀ j, j < 64 → (enc j).toNat < 0x80 := by
  decide

theorem enc_ascii (i : Nat) : (enc i).toNat < 0x80 := by
  rw [enc_mod]
  exact enc_ascii_lt _ (Nat.mod_lt _ (by decide))

end base64

namespace oauth2

/-- The state `randomState()` returns is ASCII text: its bytes are its characters,
and they are valid UTF-8. -/
theorem randomState_bytes (w : World) :
    utf8.bytesOf (randomState w).1 = ascii (randomState w).1 ∧
    utf8.Valid (utf8.bytesOf (randomState w).1) = true := by
  have hs : (randomState w).1
      = String.mk (base64.encodeChars (rand.Read (List.replicate 32 0) w).1) := rfl
  have hall : ∀ c ∈ base64.encodeChars (rand.Read (List.replicate 32 0) w).1,
      c.toNat < 0x80 := by
    intro c hc
    obtain ⟨i, rfl⟩ := base64.encodeChars_mem _ c hc
    exact base64.enc_ascii i
  have hb := utf8.bytesOf_ascii _ hall
  rw [hs, hb]
  refine ⟨rfl, utf8.Valid_ascii _ ?_⟩
  intro x hx
  simp only [List.mem_map] at hx
  obtain ⟨c, hc, rfl⟩ := hx
  exact hall c hc

/-- Decoding undoes `Encode` on a state of valid UTF-8 strings. -/
theorem Decode_Encode_of_valid (s t : Oauth2State) (h1 : utf8.Valid s.CSRF = true)
    (h2 : utf8.Valid s.RedirectTo = true) (h3 : utf8.Valid s.Transport = true) :
    t.Decode s.Encode = s := by
  simp only [Oauth2State.Decode, Oauth2State.Encode,
    base64.URLEncoding_roundtrip _ (json.Marshal_bytes s),
    json.Unmarshal_Marshal s t h1 h2 h3]

/-- The claim C21 as stated fails: for the request `/login?redirectTo=%ff&transport=popup`
without cookies, the handler sets one cookie, with the value it publishes as state,
and decoding that value yields a `RedirectTo` of the three bytes of U+FFFD, which is
not the `redirectTo` value of the query, the byte 0xFF. -/
theorem HostedLoginHandler_state_counterexample :
    (∀ c ∈ (Sample.hostedRequest [0xFF] (ascii "popup")).Cookies,
      c.Name ≠ Sample.cookieConfig.Name) ∧
    (Sample.hostedRequest [0xFF] (ascii "popup")).Query.Get KeyRedirectTo = [0xFF] ∧
    (HostedLoginHandler Sample.cookieConfig (record "success") Sample.world
        (Sample.hostedRequest [0xFF] (ascii "popup"))).cookies
      = [internal.NewCookie Sample.cookieConfig
          "eyJjc3JmIjoiQndjSEJ3Y0hCd2NIQndjSEJ3Y0hCd2NIQndjSEJ3Y0hCd2NIQndjSEJ3YyIsInJlZGlyZWN0VG8iOiJcdWZmZmQiLCJ0cmFuc3BvcnQiOiJwb3B1cCJ9"] ∧
    (HostedLoginHandler Sample.cookieConfig (record "success") Sample.world
        (Sample.hostedRequest [0xFF] (ascii "popup"))).calls
      = [("success", WithState []
          "eyJjc3JmIjoiQndjSEJ3Y0hCd2NIQndjSEJ3Y0hCd2NIQndjSEJ3Y0hCd2NIQndjSEJ3YyIsInJlZGlyZWN0VG8iOiJcdWZmZmQiLCJ0cmFuc3BvcnQiOiJwb3B1cCJ9")] ∧
    (Oauth2State.Decode ⟨[], [], []⟩
        "eyJjc3JmIjoiQndjSEJ3Y0hCd2NIQndjSEJ3Y0hCd2NIQndjSEJ3Y0hCd2NIQndjSEJ3YyIsInJlZGlyZWN0VG8iOiJcdWZmZmQiLCJ0cmFuc3BvcnQiOiJwb3B1cCJ9").RedirectTo
      = [0xEF, 0xBF, 0xBD] ∧
    (Oauth2State.Decode ⟨[], [], []⟩
        "eyJjc3JmIjoiQndjSEJ3Y0hCd2NIQndjSEJ3Y0hCd2NIQndjSEJ3Y0hCd2NIQndjSEJ3YyIsInJlZGlyZWN0VG8iOiJcdWZmZmQiLCJ0cmFuc3BvcnQiOiJwb3B1cCJ9").RedirectTo
      ≠ (Sample.hostedRequest [0xFF] (ascii "popup")).Query.Get KeyRedirectTo := by
  refine ⟨by decide, by decide, by decide, by decide, by decide, by decide⟩

/-- C21, amended: for every request without the state cookie whose `redirectTo` and
`transport` query values are valid UTF-8, when `config.Name` is a valid cookie name,
the handler sets exactly one cookie, whose
value `v` is also the state published to the wrapped handler, and `v` is the base64
of the JSON of an `Oauth2State`: decoding `v` yields `CSRF` equal to the generated
random state, `RedirectTo` equal to the `redirectTo` query value and `Transport`
equal to the `transport` query value. -/
theorem HostedLoginHandler_state (config : gologin.CookieConfig) (success : http.Handler)
    (w : World) (req : http.Request) (h : ∀ c ∈ req.Cookies, c.Name ≠ config.Name)
    (hname : http.isCookieNameValid config.Name = true)
    (hr : utf8.Valid (req.Query.Get KeyRedirectTo) = true)
    (ht : utf8.Valid (req.Query.Get KeyTransport) = true) :
    ∃ (v : String) (w1 : World), w1.cookies = w.cookies ++ [internal.NewCookie config v] ∧
      HostedLoginHandler config success w req
        = success w1 (req.WithContext (WithState req.Context v)) ∧
      StateFromContext (WithState req.Context v) = (v, none) ∧
      (HostedLoginHandler config (record "success") w req).cookies
        = w.cookies ++ [internal.NewCookie config v] ∧
      (HostedLoginHandler config (record "success") w req).calls
        = w.calls ++ [("success", WithState req.Context v)] ∧
      (∃ state : Oauth2State,
        v = base64.URLEncoding.EncodeToString (json.Marshal state)) ∧
      ∀ t : Oauth2State,
        (t.Decode v).CSRF = ascii (randomState w).1 ∧
        (t.Decode v).RedirectTo = req.Query.Get KeyRedirectTo ∧
        (t.Decode v).Transport = req.Query.Get KeyTransport := by
  have hc := Cookie_of_absent req config.Name h
  have hrun : ∀ k : http.Handler, HostedLoginHandler config k w req
      = k (http.SetCookie (randomState w).2 (internal.NewCookie config
            (Oauth2State.Encode
              { CSRF := utf8.bytesOf (randomState w).1,
                RedirectTo := req.Query.Get KeyRedirectTo,
                Transport := req.Query.Get KeyTransport })))
          (req.WithContext (WithState req.Context
            (Oauth2State.Encode
              { CSRF := utf8.bytesOf (randomState w).1,
                RedirectTo := req.Query.Get KeyRedirectTo,
                Transport := req.Query.Get KeyTransport }))) := by
    intro k
    simp [HostedLoginHandler, hc]
  have hset := SetCookie_of_valid (randomState w).2
    (internal.NewCookie config
      (Oauth2State.Encode
        { CSRF := utf8.bytesOf (randomState w).1,
          RedirectTo := req.Query.Get KeyRedirectTo,
          Transport := req.Query.Get KeyTransport })) hname
  refine ⟨_, _, ?_, hrun success, StateFromContext_WithState _ _, ?_, ?_, ⟨_, rfl⟩, ?_⟩
  · rw [hset]
    rfl
  · rw [hrun, hset]
    rfl
  · rw [hrun, hset]
    rfl
  · intro t
    rw [Decode_Encode_of_valid _ t (randomState_bytes w).2 hr ht]
    exact ⟨(randomState_bytes w).1, rfl, rfl⟩

/-- Witness of C21, amended: the request `/login?redirectTo=/home&transport=popup`
without cookies. -/
theorem HostedLoginHandler_state_witness :
    ∃ (v : String) (w1 : World),
      w1.cookies = Sample.world.cookies ++ [internal.NewCookie Sample.cookieConfig v] ∧
      HostedLoginHandler Sample.cookieConfig (record "success") Sample.world
          (Sample.hostedRequest (ascii "/home") (ascii "popup"))
        = record "success" w1 ((Sample.hostedRequest (ascii "/home") (ascii "popup")).WithContext
            (WithState (Sample.hostedRequest (ascii "/home") (ascii "popup")).Context v)) ∧
      StateFromContext
          (WithState (Sample.hostedRequest (ascii "/home") (ascii "popup")).Context v)
        = (v, none) ∧
      (HostedLoginHandler Sample.cookieConfig (record "success") Sample.world
          (Sample.hostedRequest (ascii "/home") (ascii "popup"))).cookies
        = Sample.world.cookies ++ [internal.NewCookie Sample.cookieConfig v] ∧
      (HostedLoginHandler Sample.cookieConfig (record "success") Sample.world
          (Sample.hostedRequest (ascii "/home") (ascii "popup"))).calls
        = Sample.world.calls ++
            [("success",
              WithState (Sample.hostedRequest (ascii "/home") (ascii "popup")).Context v)] ∧
      (∃ state : Oauth2State,
        v = base64.URLEncoding.EncodeToString (json.Marshal state)) ∧
      ∀ t : Oauth2State,
        (t.Decode v).CSRF = ascii (randomState Sample.world).1 ∧
        (t.Decode v).RedirectTo
          = (Sample.hostedRequest (ascii "/home") (ascii "popup")).Query.Get KeyRedirectTo ∧
        (t.Decode v).Transport
          = (Sample.hostedRequest (ascii "/home") (ascii "popup")).Query.Get KeyTransport :=
  HostedLoginHandler_state Sample.cookieConfig (record "success") Sample.world
    (Sample.hostedRequest (ascii "/home") (ascii "popup")) (by decide) (by decide) (by decide)
    (by decide)

end oauth2

/-! ## The claim on the composed Login Stage -/

namespace oauth2

/-- The state `randomState()` returns has 43 characters. -/
theorem randomState_length (w : World) : (randomState w).1.length = 43 := by
  show (base64.encodeChars (rand.Read (List.replicate 32 0) w).1).length = 43
  rw [base64.encodeChars_length, rand.Read_length]
  rfl

/-- Counterexample to C13 as stated: with the cookie name `my cookie`, which is not a
valid cookie name, the response to a request without cookies is a 302 that sets no
cookie.  Likewise, with the authorization endpoint `https://p.example/auth?state=evil`
the first `state` parameter of the `Location` is `evil`, not the value of the
cookie. -/
theorem CSRFHandler_LoginHandler_redirect_counterexample :
    (∀ c ∈ (Sample.loginRequest []).Cookies, c.Name ≠ Sample.spacedCookieConfig.Name) ∧
    (CSRFHandler Sample.spacedCookieConfig (LoginHandler Sample.config none []) Sample.world
        (Sample.loginRequest [])).status = some 302 ∧
    (CSRFHandler Sample.spacedCookieConfig (LoginHandler Sample.config none []) Sample.world
        (Sample.loginRequest [])).cookies = [] ∧
    (CSRFHandler Sample.cookieConfig (LoginHandler Sample.configWithQuery none [])
        Sample.world (Sample.loginRequest [])).cookies.map (fun c => c.Value)
      = ["BwcHBwcHBwcHBwcHBwcHBwcHBwcHBwcHBwcHBwcHBwc"] ∧
    (CSRFHandler Sample.cookieConfig (LoginHandler Sample.configWithQuery none [])
        Sample.world (Sample.loginRequest [])).location.map (fun u => u.query.Get "state")
      = some "evil" := by
  refine ⟨by decide, by decide, by decide, by decide, by decide⟩

/-- C13, amended: for the composition `CSRFHandler(cfg, LoginHandler(oauthCfg, failure))`
and a request without the state cookie, when `cfg.Name` is a valid cookie name and
the authorization endpoint has no `state` parameter in a query of its own and no
fragment, the response gets status 302 and exactly one cookie more, whose value is the freshly
generated state of 43 characters, and the `Location` URL has the one `state`
parameter, equal to the value of that cookie. -/
theorem CSRFHandler_LoginHandler_redirect (cfg : gologin.CookieConfig)
    (oauthCfg : xoauth2.Config) (failure : Option http.Handler) (w : World)
    (req : http.Request) (h : ∀ c ∈ req.Cookies, c.Name ≠ cfg.Name)
    (hname : http.isCookieNameValid cfg.Name = true)
    (hq : ∀ kv ∈ oauthCfg.AuthURL.query, kv.1 ≠ "state")
    (hf : oauthCfg.AuthURL.fragment = none) :
    ∃ cookie target,
      (CSRFHandler cfg (LoginHandler oauthCfg failure []) w req).cookies
        = w.cookies ++ [cookie] ∧
      cookie.Name = cfg.Name ∧ cookie.Value = (randomState w).1 ∧
      cookie.Value.length = 43 ∧
      (CSRFHandler cfg (LoginHandler oauthCfg failure []) w req).status = some 302 ∧
      (CSRFHandler cfg (LoginHandler oauthCfg failure []) w req).location = some target ∧
      target.query.Get "state" = cookie.Value ∧
      target.query.filter (fun kv => kv.1 = "state") = [("state", [cookie.Value])] := by
  have hc := Cookie_of_absent req cfg.Name h
  have hset : http.SetCookie (randomState w).2 (internal.NewCookie cfg (randomState w).1)
      = { (randomState w).2 with
          cookies := w.cookies ++ [internal.NewCookie cfg (randomState w).1] } :=
    SetCookie_of_valid _ _ hname
  have hrun : CSRFHandler cfg (LoginHandler oauthCfg failure []) w req
      = LoginHandler oauthCfg failure []
          (http.SetCookie (randomState w).2 (internal.NewCookie cfg (randomState w).1))
          (req.WithContext (WithState req.Context (randomState w).1)) := by
    simp [CSRFHandler, hc]
  have hne : (randomState w).1 ≠ "" := by
    intro he
    have hl := randomState_length w
    rw [he] at hl
    simp at hl
  have hno : ∀ o ∈ ([] : List xoauth2.AuthCodeOption), o.k ≠ "state" :=
    fun o ho => absurd ho (List.not_mem_nil o)
  have hfilter := xoauth2.AuthCodeURL_state_only oauthCfg (randomState w).1 [] hno hq hf
  rw [if_neg hne] at hfilter
  rw [hrun, LoginHandler_of_state oauthCfg failure []
    (http.SetCookie (randomState w).2 (internal.NewCookie cfg (randomState w).1))
    (req.WithContext (WithState req.Context (randomState w).1)) (randomState w).1 rfl, hset]
  exact ⟨internal.NewCookie cfg (randomState w).1, oauthCfg.AuthCodeURL (randomState w).1 [],
    rfl, rfl, rfl, randomState_length w, rfl, rfl,
    xoauth2.AuthCodeURL_state oauthCfg _ [] hno hq hf, hfilter⟩

/-- Witness of C13, amended: a login request without cookies. -/
theorem CSRFHandler_LoginHandler_redirect_witness :
    ∃ cookie target,
      (CSRFHandler Sample.cookieConfig (LoginHandler Sample.config none []) Sample.world
          (Sample.loginRequest [])).cookies = Sample.world.cookies ++ [cookie] ∧
      cookie.Name = Sample.cookieConfig.Name ∧
      cookie.Value = (randomState Sample.world).1 ∧
      cookie.Value.length = 43 ∧
      (CSRFHandler Sample.cookieConfig (LoginHandler Sample.config none []) Sample.world
          (Sample.loginRequest [])).status = some 302 ∧
      (CSRFHandler Sample.cookieConfig (LoginHandler Sample.config none []) Sample.world
          (Sample.loginRequest [])).location = some target ∧
      target.query.Get "state" = cookie.Value ∧
      target.query.filter (fun kv => kv.1 = "state") = [("state", [cookie.Value])] :=
  CSRFHandler_LoginHandler_redirect Sample.cookieConfig Sample.config none Sample.world
    (Sample.loginRequest []) (by decide) (by decide) (by decide) rfl

end oauth2
